import Mathlib

/-!
# Conjugate Poisson-process model (`Poisson_process_model.cpp`)

A shallow embedding of the class `pp_model` and a verification of its
documented behaviour.

Conventions of the embedding.

* `double` values are elements of a linearly ordered field `α`; the definitions
  are polymorphic and computable, and the theorems about logarithms and
  exponentials are stated at `α = ℝ` for a library whose `log` and `exp` are the
  real ones (`Lib.Exact`).  The arithmetic operations are exact; rounding can enter
  only through a library that is not exact, such as one whose `log` rounds its
  argument.
* `unsigned long long` values are natural numbers; a subtraction of two of them
  is the wrapping subtraction `usub`.
* Functions, constants and classes that the file uses but does not define
  (`log`, `exp`, `gsl_sf_lngamma`, `LOG_TWO`, `DBL_MAX`, `gsl_ran_gamma`,
  `Decay_Function`, `collapse_to_seasons`, `combine_p_values_from_endpoints`)
  are the fields of a record `Lib` that every function takes as a parameter.
* A member function becomes a function from the object state (`pp_model`) to
  its result and the new object state.  A call that stops the process
  (`exit(1)`, or a call through a null pointer) returns `Except.error` with the
  reason and the state at that point.
-/

namespace PoissonProcess

/-! ## Data model -/

/-- Functions and constants used by `Poisson_process_model.cpp` whose definitions
live in headers and libraries outside the source files. -/
structure Lib (α : Type) where
  /-- The function `log` of `math.h`. -/
  log : α → α
  /-- The function `exp` of `math.h`. -/
  exp : α → α
  /-- The function `gsl_sf_lngamma` of the GSL. -/
  gsl_sf_lngamma : α → α
  /-- The constant `LOG_TWO`. -/
  LOG_TWO : α
  /-- The constant `DBL_MAX` of `float.h`. -/
  DBL_MAX : α
  /-- The call `gsl_ran_gamma(rng, a, b)`: the draw and the next generator state. -/
  gsl_ran_gamma : Nat → α → α → α × Nat
  /-- The call `Decay_Function(rate).cumulative_function(t1, t2)`. -/
  Decay_Function : α → α → α → α
  /-- The method `collapse_to_seasons` of the base class, acting on the event times. -/
  collapse_to_seasons : List α → List α
  /-- The method `combine_p_values_from_endpoints(flag)` of the base class, reading the
  staged endpoints and their log-scale flags. -/
  combine_p_values_from_endpoints : List (α × α) → List Bool → Bool → α
  /-- The function `gsl_cdf_chisq_Q(x, nu)` of the GSL. -/
  gsl_cdf_chisq_Q : α → α → α
  /-- The function `gsl_cdf_chisq_P(x, nu)` of the GSL. -/
  gsl_cdf_chisq_P : α → α → α
  /-- The conversion `(unsigned long long int)(x)` of a `double`. -/
  ull_of_double : α → Nat
  /-- The call `m_data_cont->find_data_index(t, flag, lower, upper)` on the event times; an
  argument left out is passed as `0`, `0` and `none`. -/
  find_data_index : List α → α → Nat → Nat → Option Nat → Nat

/-- A changepoint: a time coordinate (`getchangepoint()`) and a data index
(`getdataindex()`). -/
structure changepoint (α : Type) where
  m_changepoint : α
  m_dataindex : Nat

/-- The members of `pp_model` (and of its base class) that the functions below read or
write. A pointer member is an `Option`; `m_pp_time_scale` holds the two-argument
`cumulative_function` of the time scale it points to, `m_cum_counts` the accessor
`(*m_cum_counts)[0][k]`. -/
structure pp_model (α : Type) where
  m_alpha : α
  m_beta : α
  m_likelihood_term_zero : α
  m_likelihood_term : α
  m_seasonal_analysis : Bool
  m_poisson_regression : Bool
  m_shot_noise_rate : α
  m_random_mean : Bool
  m_rng : Option Nat
  m_pp_time_scale : Option (α → α → α)
  m_data_cont : Option (List α)
  m_cum_counts : Nat → Nat
  m_cum_intensity_multipliers : Option (List α)
  m_r : Nat
  m_t : α
  m_alpha_star : α
  m_beta_star : α
  m_mean : α
  m_var : α
  m_log_pdf_const : α
  m_log_predictive_pdf : α
  m_log_predictive_df : α
  m_minimum_tail : α
  m_survivor_midpoint : α
  m_predictive_two_sided_df : α
  m_predictive_two_sided_df2 : α
  m_df_values : List α
  m_pdf_values : List α
  m_pvalue_pair : α × α
  m_pvalue_pair_on_log_scale : Bool
  m_p_value_endpoints : List (α × α)
  m_p_value_endpoints_log_scale : List Bool
  m_log_predictive_df2 : α
  m_current_t : α
  m_current_data_index : Nat
  m_currently_observable : Bool
  m_p_value_alternative_style : Bool

/-- Why a call stopped the process. -/
inductive Fault where
  /-- The call `exit(1)`. -/
  | exit_failure
  /-- A member call through a null `m_pp_time_scale` or `m_data_cont`. -/
  | null_dereference
  /-- A read or a write of an array element at an index outside the array. -/
  | out_of_bounds (index : Nat)
  deriving DecidableEq, Repr

/-- The outcome of a member function returning a `β`: the value and the new object
state, or the fault and the object state when the process stopped. -/
abbrev Run (α β : Type) := Except (Fault × pp_model α) (β × pp_model α)

/-- The number of values of an `unsigned long long`. -/
def ULL : Nat := 2 ^ 64

/-- Subtraction of two `unsigned long long` values. -/
def usub (a b : Nat) : Nat := (a % ULL + ULL - b % ULL) % ULL

section Model

variable {α : Type} [LinearOrderedField α]

/-- A library record built from a logarithm, an exponential and a log-gamma function:
`LOG_TWO` is `log 2`, `DBL_MAX` the largest finite binary64 number, the decay time scale gives
`[t1, t2]` the duration `(1 - exp (-rate * (t2 - t1))) / rate`, the generator returns `a * b`
and moves to the next state, the seasonal collapse keeps the times, and the endpoint combination
returns the upper endpoint of the first pair. The chi-square tails are those of two degrees of
freedom, the conversion to `unsigned long long` truncates, and `find_data_index` is the
`countUpTo` of the documentation: the number of event times `<= t`, whatever the hints. -/
def Lib.ofFns [FloorRing α] (log exp lngamma : α → α) : Lib α where
  log := log
  exp := exp
  gsl_sf_lngamma := lngamma
  LOG_TWO := log 2
  DBL_MAX := (2 ^ 53 - 1) * 2 ^ 971
  gsl_ran_gamma := fun s a b => (a * b, s + 1)
  Decay_Function := fun rate t1 t2 => (1 - exp (-(rate * (t2 - t1)))) / rate
  collapse_to_seasons := fun ts => ts
  combine_p_values_from_endpoints := fun ps _ _ => (ps.headD (0, 0)).2
  gsl_cdf_chisq_Q := fun x _ => exp (-(x / 2))
  gsl_cdf_chisq_P := fun x _ => 1 - exp (-(x / 2))
  ull_of_double := fun x => ⌊x⌋₊ % ULL
  find_data_index := fun data t _ _ _ => (data.filter (fun x => x ≤ t)).length

/-- An object with every member zero, null or false: the members before a constructor body
runs. -/
def pp_model.blank : pp_model α where
  m_alpha := 0
  m_beta := 0
  m_likelihood_term_zero := 0
  m_likelihood_term := 0
  m_seasonal_analysis := false
  m_poisson_regression := false
  m_shot_noise_rate := 0
  m_random_mean := false
  m_rng := none
  m_pp_time_scale := none
  m_data_cont := none
  m_cum_counts := fun _ => 0
  m_cum_intensity_multipliers := none
  m_r := 0
  m_t := 0
  m_alpha_star := 0
  m_beta_star := 0
  m_mean := 0
  m_var := 0
  m_log_pdf_const := 0
  m_log_predictive_pdf := 0
  m_log_predictive_df := 0
  m_minimum_tail := 0
  m_survivor_midpoint := 0
  m_predictive_two_sided_df := 0
  m_predictive_two_sided_df2 := 0
  m_df_values := []
  m_pdf_values := []
  m_pvalue_pair := (0, 0)
  m_pvalue_pair_on_log_scale := false
  m_p_value_endpoints := []
  m_p_value_endpoints_log_scale := []
  m_log_predictive_df2 := 0
  m_current_t := 0
  m_current_data_index := 0
  m_currently_observable := false
  m_p_value_alternative_style := false

/-! ## Construction -/

/-- `pp_model::construct` (lines 82-91). -/
def construct (E : Lib α) (m : pp_model α) : pp_model α :=
  let m := { m with m_likelihood_term_zero := m.m_alpha * E.log m.m_beta }
  let m := { m with m_likelihood_term := m.m_likelihood_term_zero - E.gsl_sf_lngamma m.m_alpha }
  let m := if m.m_seasonal_analysis then
      { m with m_data_cont := m.m_data_cont.map E.collapse_to_seasons }
    else m
  { m with
    m_poisson_regression := false
    m_cum_intensity_multipliers := none
    m_shot_noise_rate := 0
    m_random_mean := false }

/-- The constructor `pp_model(alpha, beta, data, time_scale, seasonal_scale)` (lines 6-12) on an
object whose base class has been initialised: `time_scale` and `seasonal_scale` are the
cumulative functions of the two step functions, when given. -/
def pp_model.new (E : Lib α) (base : pp_model α) (alpha beta : α)
    (time_scale seasonal_scale : Option (α → α → α)) : pp_model α :=
  construct E { base with
    m_alpha := alpha
    m_beta := beta
    m_pp_time_scale := if time_scale.isSome then time_scale else seasonal_scale }

/-- The constructor `pp_model(alpha, beta, rate, data)` (lines 30-37). -/
def pp_model.new_shot_noise (E : Lib α) (base : pp_model α) (alpha beta rate : α) : pp_model α :=
  let m := construct E { base with m_alpha := alpha, m_beta := beta }
  let m := { m with m_shot_noise_rate := rate }
  if m.m_shot_noise_rate > 0 then
    { m with m_pp_time_scale := some (E.Decay_Function m.m_shot_noise_rate) }
  else m

/-- `pp_model::use_random_mean` (lines 76-80). -/
def use_random_mean (m : pp_model α) (seed : Nat) : pp_model α :=
  { m with m_random_mean := true, m_rng := some seed }

/-! ## Likelihood -/

/-- The expression `m_pp_time_scale ? m_pp_time_scale->cumulative_function(t1, t2) : t2 - t1`
that lines 145, 191, 223 and 231 evaluate: the effective duration of `[t1, t2]`. -/
def effective_duration (m : pp_model α) (t1 t2 : α) : α :=
  match m.m_pp_time_scale with
  | some f => f t1 t2
  | none => t2 - t1

/-- `pp_model::log_likelihood_length_and_count` (lines 153-159). -/
def log_likelihood_length_and_count (E : Lib α) (m : pp_model α) (t : α) (r : Nat) : α :=
  if t ≤ 0 then
    0
  else if r = 0 then
    m.m_likelihood_term_zero - m.m_alpha * E.log (m.m_beta + t)
  else
    m.m_likelihood_term + E.gsl_sf_lngamma ((r : α) + m.m_alpha)
      - ((r : α) + m.m_alpha) * E.log (m.m_beta + t)

/-- `pp_model::log_likelihood_interval_with_count` (lines 144-151). The diagnostic of line 147
calls `m_pp_time_scale->cumulative_function(t1, t2)` whether or not the pointer is null. -/
def log_likelihood_interval_with_count (E : Lib α) (m : pp_model α) (t1 t2 : α) (r : Nat) :
    Run α α :=
  let m := { m with m_t := effective_duration m t1 t2 }
  if m.m_t < 0 then
    match m.m_pp_time_scale with
    | none => .error (Fault.null_dereference, m)
    | some _ => .ok (-(10 ^ 300), m)
  else
    .ok (m.m_shot_noise_rate * (r : α) * t1 + log_likelihood_length_and_count E m m.m_t r, m)

/-! ## Posterior parameters and mean -/

/-- The local `r` of `calculate_posterior_mean_parameters` (lines 185 and 187), before its
conversion to `double`: the number of observations between the two changepoints. -/
def posterior_count (m : pp_model α) (obj1 obj2 : changepoint α) : Nat :=
  let i1 := obj1.m_dataindex
  let i2 := obj2.m_dataindex
  if m.m_poisson_regression then
    usub (if i2 > 0 then m.m_cum_counts (i2 - 1) else 0)
      (if i1 > 0 then m.m_cum_counts (i1 - 1) else 0)
  else
    usub i2 i1

/-- The local `d` of `calculate_posterior_mean_parameters` (lines 184 and 191): the length of
the interval between the two changepoints. -/
def posterior_length (m : pp_model α) (obj1 obj2 : changepoint α) : α :=
  if m.m_poisson_regression then
    ((usub obj2.m_dataindex obj1.m_dataindex : Nat) : α)
  else
    effective_duration m obj1.m_changepoint obj2.m_changepoint

/-- `pp_model::calculate_posterior_mean_parameters` (lines 172-199). The diagnostic of line 193
calls through `m_pp_time_scale` before `exit(1)`. -/
def calculate_posterior_mean_parameters (m : pp_model α) (obj1 obj2 : changepoint α) :
    Run α Unit :=
  if obj2.m_dataindex < obj1.m_dataindex then
    .error (Fault.exit_failure, m)
  else
    let d := posterior_length m obj1 obj2
    let r : α := (posterior_count m obj1 obj2 : Nat)
    if m.m_poisson_regression = false ∧ d < 0 then
      match m.m_pp_time_scale with
      | none => .error (Fault.null_dereference, m)
      | some _ => .error (Fault.exit_failure, m)
    else
      .ok ((), { m with m_alpha_star := m.m_alpha + r, m_beta_star := m.m_beta + d })

/-- `pp_model::draw_mean_from_posterior` (lines 212-220). -/
def draw_mean_from_posterior (E : Lib α) (m : pp_model α) (obj1 obj2 : changepoint α) :
    Run α α :=
  match calculate_posterior_mean_parameters m obj1 obj2 with
  | .error e => .error e
  | .ok (_, m) =>
    let m := if m.m_rng.isNone then { m with m_rng := some 0 } else m
    let draw := E.gsl_ran_gamma (m.m_rng.getD 0) m.m_alpha_star (1 / m.m_beta_star)
    let m := { m with m_rng := some draw.2, m_mean := draw.1 }
    .ok (m.m_mean, m)

/-- `pp_model::calculate_mean` (lines 201-210). -/
def calculate_mean (E : Lib α) (m : pp_model α) (obj1 obj2 : changepoint α) : Run α α :=
  let staged : Except (Fault × pp_model α) (pp_model α) :=
    if !m.m_random_mean then
      match calculate_posterior_mean_parameters m obj1 obj2 with
      | .error e => .error e
      | .ok (_, m) => .ok { m with m_mean := m.m_alpha_star / m.m_beta_star }
    else
      match draw_mean_from_posterior E m obj1 obj2 with
      | .error e => .error e
      | .ok (mean, m) => .ok { m with m_mean := mean }
  match staged with
  | .error e => .error e
  | .ok m =>
    let m := { m with m_var := m.m_mean / m.m_beta_star }
    .ok (m.m_mean, m)

/-! ## Posterior predictive probability mass -/

/-- The locals `pmf_sum` and `pmf` of `calculate_log_posterior_predictive_pdf`, with the
object. -/
structure PdfLoop (α : Type) where
  pmf_sum : α
  pmf : α
  m : pp_model α

/-- One pass through the body of the `for` loop of lines 247-255, at index `i`. -/
def pdf_loop_body (E : Lib α) (t_b log_t_b e_log_pdf_const : α) (r : Nat) (s : PdfLoop α)
    (i : Nat) : PdfLoop α :=
  let s := { s with pmf := s.pmf * (t_b * (s.m.m_alpha_star + (i : α)) / ((i + 1 : Nat) : α)) }
  let s := { s with m := { s.m with
    m_log_predictive_pdf := s.m.m_log_predictive_pdf
      + (log_t_b + E.log (s.m.m_alpha_star + (i : α)) - E.log ((i + 1 : Nat) : α)) } }
  let s := if i = usub r 1 then
      { s with m := { s.m with m_minimum_tail := 1 - e_log_pdf_const * s.pmf_sum } }
    else s
  let s := { s with pmf_sum := s.pmf_sum + s.pmf }
  if i = usub r 1 ∧ s.m.m_minimum_tail > e_log_pdf_const * s.pmf_sum then
    { s with m := { s.m with m_minimum_tail := e_log_pdf_const * s.pmf_sum } }
  else s

/-- `pp_model::calculate_log_posterior_predictive_pdf` (lines 237-257). The `for` loop runs its
body at `i = 0, ..., r - 1`. -/
def calculate_log_posterior_predictive_pdf (E : Lib α) (m : pp_model α) (t : α) (r : Nat) :
    α × pp_model α :=
  if t ≤ 0 then
    (if r = 0 then 0 else -E.DBL_MAX, m)
  else
    let m := { m with
      m_log_pdf_const := m.m_alpha_star * (E.log m.m_beta_star - E.log (m.m_beta_star + t)) }
    let e_log_pdf_const := E.exp m.m_log_pdf_const
    let t_b := t / (m.m_beta_star + t)
    let log_t_b := E.log t - E.log (m.m_beta_star + t)
    let m := { m with m_log_predictive_pdf := m.m_log_pdf_const }
    let pmf_sum : α := 1
    let pmf : α := 1
    let m := { m with m_minimum_tail := e_log_pdf_const * pmf_sum }
    let s := (List.range r).foldl (pdf_loop_body E t_b log_t_b e_log_pdf_const r)
      { pmf_sum := pmf_sum, pmf := pmf, m := m }
    (s.m.m_log_predictive_pdf, s.m)

/-! ## Posterior predictive tail probabilities -/

/-- The locals of the `while` loop of `calculate_log_posterior_predictive_df`, with the
object. The counter `i` is a natural number: it is not wrapped at `2 ^ 64`. -/
structure DfLoop (α : Type) where
  i : Nat
  pmf_sum : α
  pmf : α
  log_pmf : α
  df : α
  df2 : α
  found_mid_point : Bool
  keep_looping : Bool
  g_i : α
  m : pp_model α

/-- Lines 279-293: the update of the running values when `i > 0`. -/
def df_advance (E : Lib α) (t_b log_t_b e_log_pdf_const : α) (s : DfLoop α) : DfLoop α :=
  if s.i > 0 then
    let s := { s with
      log_pmf := s.log_pmf + (log_t_b + E.log (s.m.m_alpha_star + (s.i : α) - 1) - E.log (s.i : α)) }
    let s := { s with pmf := s.pmf * (t_b * (s.m.m_alpha_star + (s.i : α) - 1) / (s.i : α)) }
    let s := { s with g_i := 1 - e_log_pdf_const * s.pmf_sum }
    let s := { s with pmf_sum := s.pmf_sum + s.pmf }
    if s.found_mid_point = false ∧ s.g_i > e_log_pdf_const * s.pmf_sum then
      { s with g_i := e_log_pdf_const * s.pmf_sum }
    else s
  else s

/-- Lines 294-299: the search for the survivor midpoint. -/
def df_midpoint (E : Lib α) (s : DfLoop α) : DfLoop α :=
  if s.found_mid_point = false then
    if s.m.m_log_pdf_const + E.log s.pmf_sum ≥ -E.LOG_TWO then
      { s with found_mid_point := true, m := { s.m with m_survivor_midpoint := s.g_i } }
    else s
  else s

/-- Lines 302-311: the accumulation of the two-sided sums, with the round-off guard. -/
def df_two_sided (e_log_pdf_const : α) (r : Nat) (s : DfLoop α) : DfLoop α :=
  if s.pmf ≤ 0 ∨ s.m.m_predictive_two_sided_df2 ≥ 1 then
    let s := { s with m := { s.m with
      m_predictive_two_sided_df := s.m.m_minimum_tail + e_log_pdf_const } }
    let s := { s with m := { s.m with m_predictive_two_sided_df2 := s.m.m_minimum_tail } }
    { s with keep_looping := false }
  else
    let s := if s.i ≠ r ∧ s.g_i > s.m.m_minimum_tail then
        { s with m := { s.m with
          m_predictive_two_sided_df := s.m.m_predictive_two_sided_df + s.pmf * e_log_pdf_const } }
      else s
    if s.i = r ∨ s.g_i ≥ s.m.m_minimum_tail then
      { s with m := { s.m with
        m_predictive_two_sided_df2 := s.m.m_predictive_two_sided_df2 + s.pmf * e_log_pdf_const } }
    else s

/-- Lines 312-334: the one-sided values at `i == r - 1` and at `i == r`. -/
def df_one_sided (E : Lib α) (r : Nat) (lower_tail : Bool) (s : DfLoop α) : DfLoop α :=
  if s.i = usub r 1 then
    if lower_tail then
      { s with df2 := s.m.m_log_pdf_const + E.log s.pmf_sum }
    else
      let s := { s with
        df := s.m.m_log_pdf_const + E.log (E.exp (-s.m.m_log_pdf_const) - s.pmf_sum) }
      if s.df ≥ 0 then { s with df := -E.exp s.m.m_log_pdf_const * s.pmf_sum } else s
  else if s.i = r then
    let s := { s with m := { s.m with m_log_predictive_pdf := s.log_pmf + s.m.m_log_pdf_const } }
    let s := { s with m := { s.m with m_log_predictive_df := s.g_i } }
    if lower_tail then
      { s with df := s.m.m_log_pdf_const + E.log s.pmf_sum }
    else
      let s := { s with
        df2 := s.m.m_log_pdf_const + E.log (E.exp (-s.m.m_log_pdf_const) - s.pmf_sum) }
      let s := if s.log_pmf + s.m.m_log_pdf_const > s.df then
          { s with df := s.log_pmf + s.m.m_log_pdf_const }
        else s
      if s.df2 ≥ 0 then { s with df2 := -E.exp s.m.m_log_pdf_const * s.pmf_sum } else s
  else s

/-- Lines 335-342: the increment of `i` and the loop test. -/
def df_continue (r : Nat) (s : DfLoop α) : DfLoop α :=
  let s := { s with i := s.i + 1 }
  if s.keep_looping then
    let s := { s with
      keep_looping := decide (s.i ≤ r ∨ s.found_mid_point = false ∨ s.g_i ≥ s.m.m_log_predictive_df) }
    if s.keep_looping = false then
      let s := { s with m := { s.m with
        m_predictive_two_sided_df := 1 - s.m.m_predictive_two_sided_df } }
      { s with m := { s.m with m_predictive_two_sided_df2 := 1 - s.m.m_predictive_two_sided_df2 } }
    else s
  else s

/-- One pass through the body of the `while` loop of lines 278-343. -/
def df_loop_body (E : Lib α) (t_b log_t_b e_log_pdf_const : α) (r : Nat) (lower_tail : Bool)
    (s : DfLoop α) : DfLoop α :=
  df_continue r (df_one_sided E r lower_tail (df_two_sided e_log_pdf_const r
    (df_midpoint E (df_advance E t_b log_t_b e_log_pdf_const s))))

/-- The `while (keep_looping)` loop of lines 278-343, run for at most `fuel` passes: `none` when
the loop is still running after them. -/
def df_loop (E : Lib α) (t_b log_t_b e_log_pdf_const : α) (r : Nat) (lower_tail : Bool) :
    Nat → DfLoop α → Option (DfLoop α)
  | 0, s => if s.keep_looping then none else some s
  | fuel + 1, s =>
    if s.keep_looping then
      df_loop E t_b log_t_b e_log_pdf_const r lower_tail fuel
        (df_loop_body E t_b log_t_b e_log_pdf_const r lower_tail s)
    else some s

/-- The state in which `calculate_log_posterior_predictive_df` enters its loop (lines 262-277),
for `t > 0`. -/
def df_init (E : Lib α) (m : pp_model α) (t : α) : DfLoop α :=
  let m := { m with
    m_log_pdf_const := m.m_alpha_star * (E.log m.m_beta_star - E.log (m.m_beta_star + t)) }
  let e_log_pdf_const := E.exp m.m_log_pdf_const
  let pmf_sum : α := 1
  let m := { m with m_survivor_midpoint := 1 }
  let g_i := e_log_pdf_const * pmf_sum
  let m := { m with m_predictive_two_sided_df := 0, m_predictive_two_sided_df2 := 0 }
  let m := { m with m_df_values := [], m_pdf_values := [] }
  { i := 0, pmf_sum := pmf_sum, pmf := 1, log_pmf := 0, df := 0, df2 := 0,
    found_mid_point := false, keep_looping := true, g_i := g_i, m := m }

/-- Lines 355-362: the staging of the one-sided pair and the value returned. -/
def df_finish (E : Lib α) (s : DfLoop α) : α × pp_model α :=
  let m := { s.m with m_pvalue_pair := (E.exp s.df2, E.exp s.df) }
  let m := { m with m_p_value_endpoints := [m.m_pvalue_pair] }
  let m := { m with m_pvalue_pair_on_log_scale := false }
  let m := { m with m_p_value_endpoints_log_scale := [m.m_pvalue_pair_on_log_scale] }
  (E.combine_p_values_from_endpoints m.m_p_value_endpoints m.m_p_value_endpoints_log_scale false, m)

/-- `pp_model::calculate_log_posterior_predictive_df` (lines 259-363), its loop run for at most
`fuel` passes. -/
def calculate_log_posterior_predictive_df (E : Lib α) (m : pp_model α) (t : α) (r : Nat)
    (lower_tail : Bool) (fuel : Nat) : Option (α × pp_model α) :=
  if t ≤ 0 then
    some (-E.LOG_TWO, m)
  else
    let t_b := t / (m.m_beta_star + t)
    let log_t_b := E.log t - E.log (m.m_beta_star + t)
    let s := df_init E m t
    let e_log_pdf_const := E.exp s.m.m_log_pdf_const
    (df_loop E t_b log_t_b e_log_pdf_const r lower_tail fuel s).map (df_finish E)

/-! ## Regression mode -/

/-- The read `a[k]` of an array held as a list; a fault when `k` lies outside the array. -/
def array_read (a : List α) (k : Nat) : Except Fault α :=
  match a.get? k with
  | some x => .ok x
  | none => .error (Fault.out_of_bounds k)

/-- The write `a[k] = v` to an array held as a list; a fault when `k` lies outside the array. -/
def array_write (a : List α) (k : Nat) (v : α) : Except Fault (List α) :=
  if k < a.length then .ok (a.set k v) else .error (Fault.out_of_bounds k)

/-- Modelled from the spec: `Data::replace_with_cumulative`, whose source is not among the
files. The documentation calls the result the "precomputed cumulative count array": entry `k`
becomes the sum of the entries `0, ..., k`, in `unsigned long long` arithmetic. -/
def replace_with_cumulative (counts : Nat → Nat) : Nat → Nat :=
  fun k => ((List.range (k + 1)).map counts).sum % ULL

/-- `pp_model::poisson_regression_construct` (lines 93-100). -/
def poisson_regression_construct (E : Lib α) (m : pp_model α) : pp_model α :=
  let m := construct E m
  let m := { m with m_poisson_regression := true }
  { m with m_cum_counts := replace_with_cumulative m.m_cum_counts }

/-- One pass of the loop of lines 55-56, at index `i`:
`m_cum_intensity_multipliers[i] = m_cum_intensity_multipliers[i-1] + intensity_multipliers[i]`,
the index `i-1` computed in `unsigned long long`. -/
def cum_multipliers_body (intensity_multipliers : List α) (cum : List α) (i : Nat) :
    Except Fault (List α) :=
  match array_read cum (usub i 1) with
  | .error f => .error f
  | .ok prev =>
    match array_read intensity_multipliers i with
    | .error f => .error f
    | .ok x => array_write cum i (prev + x)

/-- Lines 53-56: the cumulative multipliers, built in the array `fresh` that
`new double[data_length]` returns (its length is `data_length`, its content is not set). The
loop runs its body at `i = 0, ..., data_length - 1`. -/
def cum_multipliers (intensity_multipliers fresh : List α) (data_length : Nat) :
    Except Fault (List α) :=
  match array_read intensity_multipliers 0 with
  | .error f => .error f
  | .ok x0 =>
    match array_write fresh 0 x0 with
    | .error f => .error f
    | .ok cum =>
      (List.range data_length).foldlM (cum_multipliers_body intensity_multipliers) cum

/-- The constructor `pp_model(count_data, time_data, alpha, beta, intensity_multipliers)`
(lines 47-58) on an object whose base class has been initialised and whose `m_cum_counts`
reads `count_data`; `data_length` is `count_data->get_cols()`. -/
def pp_model.new_regression (E : Lib α) (base : pp_model α) (alpha beta : α) (data_length : Nat)
    (intensity_multipliers : Option (List α)) (fresh : List α) :
    Except (Fault × pp_model α) (pp_model α) :=
  let m := poisson_regression_construct E { base with m_alpha := alpha, m_beta := beta }
  match intensity_multipliers with
  | none => .ok m
  | some im =>
    match cum_multipliers im fresh data_length with
    | .error f => .error (f, m)
    | .ok cum => .ok { m with m_cum_intensity_multipliers := some cum }

/-- The conditional `k > 0 ? a[k-1] : 0` of lines 167-168 on the cumulative multipliers. -/
def cum_multiplier_at (cum : List α) (k : Nat) : Except Fault α :=
  if k > 0 then array_read cum (k - 1) else .ok 0

/-- The conditional `k > 0 ? (*m_cum_counts)[0][k-1] : 0` of lines 168 and 185. -/
def cum_count_at (m : pp_model α) (k : Nat) : Nat :=
  if k > 0 then m.m_cum_counts (k - 1) else 0

/-- `pp_model::poisson_regression_log_likelihood_interval` (lines 161-170). -/
def poisson_regression_log_likelihood_interval (E : Lib α) (m : pp_model α) (i1 i2 : Nat) :
    Run α α :=
  if i1 = i2 then
    .ok (0, m)
  else
    let length : Except Fault α :=
      match m.m_cum_intensity_multipliers with
      | none => .ok ((usub i2 i1 : Nat) : α)
      | some cum =>
        match cum_multiplier_at cum i2 with
        | .error f => .error f
        | .ok hi =>
          match cum_multiplier_at cum i1 with
          | .error f => .error f
          | .ok lo => .ok (hi - lo)
    match length with
    | .error f => .error (f, m)
    | .ok t =>
      let m := { m with m_t := t }
      let m := { m with m_r := usub (cum_count_at m i2) (cum_count_at m i1) }
      .ok (log_likelihood_length_and_count E m m.m_t m.m_r, m)

/-! ## Sequential scan -/

/-- `pp_model::set_parameters_to_current_t` (lines 380-385). -/
def set_parameters_to_current_t (E : Lib α) (m : pp_model α) : pp_model α :=
  let index := match m.m_data_cont with
    | some data => E.find_data_index data m.m_current_t 0 0 none
    | none => 0
  let m := { m with m_r := index, m_current_data_index := index }
  let m := { m with m_t := match m.m_pp_time_scale with
    | some f => f 0 m.m_current_t
    | none => m.m_current_t }
  let m := { m with m_alpha_star := m.m_alpha + (m.m_r : α) }
  { m with m_beta_star := m.m_beta + m.m_t }

/-- Modelled from the spec: `probability_model::set_parameters_to_current_t(double)`, the method
of the base class that line 366 calls and whose source is not among the files. A scan carries
the current time forward from its start: the method stores the start time and sets the
parameters to it. -/
def set_parameters_to_current_t_at (E : Lib α) (m : pp_model α) (start : α) : pp_model α :=
  set_parameters_to_current_t E { m with m_current_t := start }

/-- The local `t` of `calculate_event_count_log_predictive_df` (line 394): the new effective
duration of the window. -/
def event_count_t (m : pp_model α) (increment : α) : α :=
  match m.m_pp_time_scale with
  | some f => f m.m_current_t (m.m_current_t + increment)
  | none => increment

/-- The local `r` of `calculate_event_count_log_predictive_df` (line 395): the new events of
the window. -/
def event_count_r (E : Lib α) (m : pp_model α) (increment : α) : Nat :=
  match m.m_data_cont with
  | some data => usub (E.find_data_index data (m.m_current_t + increment) 0 m.m_r none) m.m_r
  | none => 0

/-- Lines 406-412: the staging of the two-sided pair and its combination. -/
def event_count_two_sided (E : Lib α) (m : pp_model α) : pp_model α :=
  let m := { m with
    m_pvalue_pair := (m.m_predictive_two_sided_df2, m.m_predictive_two_sided_df) }
  let m := { m with m_p_value_endpoints := [m.m_pvalue_pair] }
  let m := { m with m_pvalue_pair_on_log_scale := false }
  let m := { m with m_p_value_endpoints_log_scale := [m.m_pvalue_pair_on_log_scale] }
  let combined :=
    E.combine_p_values_from_endpoints m.m_p_value_endpoints m.m_p_value_endpoints_log_scale false
  { m with m_log_predictive_df := combined }

/-- Lines 419-424: the update of the running count, duration and posterior parameters. -/
def event_count_update (m : pp_model α) (t : α) (r : Nat) : pp_model α :=
  let m := { m with m_r := (m.m_r + r) % ULL }
  let m := { m with m_t := m.m_t + t }
  let m := { m with m_alpha_star := m.m_alpha_star + (r : α) }
  let m := { m with m_beta_star := m.m_beta_star + t }
  { m with m_current_data_index := m.m_r }

/-- `pp_model::calculate_event_count_log_predictive_df` (lines 393-425), the loop of
`calculate_log_posterior_predictive_df` run for at most `fuel` passes. -/
def calculate_event_count_log_predictive_df (E : Lib α) (m : pp_model α) (increment : α)
    (lower_tail two_sided _increment_parameters : Bool) (fuel : Nat) :
    Option (α × pp_model α) :=
  let t := event_count_t m increment
  let r := event_count_r E m increment
  let staged : Option (pp_model α) :=
    if t > 0 then
      let m := if two_sided then (calculate_log_posterior_predictive_pdf E m t r).2 else m
      match calculate_log_posterior_predictive_df E m t r lower_tail fuel with
      | none => none
      | some (v, m) =>
        let m := { m with m_log_predictive_df := v }
        let m := if two_sided then event_count_two_sided E m else m
        some { m with m_currently_observable := true }
    else
      let m := { m with m_log_predictive_df := -E.LOG_TWO }
      some { m with m_currently_observable := false }
  match staged with
  | none => none
  | some m =>
    let m := event_count_update m t r
    some (m.m_log_predictive_df, m)

/-- The locals `sum_log_pvals`, `how_many` and `current_t` of
`calculate_waiting_times_log_predictive_df`, with the object. -/
structure WaitLoop (α : Type) where
  sum_log_pvals : α
  how_many : Nat
  current_t : α
  m : pp_model α

/-- Lines 440-444 and 465-469: the lower tail `log(1 - exp(m_log_predictive_df))` of a gap,
staged when a lower or a two-sided tail is asked for and kept when the lower tail is. -/
def waiting_lower_tail (E : Lib α) (lower_tail two_sided : Bool) (m : pp_model α) : pp_model α :=
  if lower_tail ∨ two_sided then
    let m := { m with m_log_predictive_df2 := E.log (1 - E.exp m.m_log_predictive_df) }
    if lower_tail then { m with m_log_predictive_df := m.m_log_predictive_df2 } else m
  else m

/-- The local `i2` of `calculate_waiting_times_log_predictive_df` (line 430): the data index at
the end of the window. -/
def waiting_i2 (E : Lib α) (m : pp_model α) (increment : α) : Nat :=
  match m.m_data_cont with
  | some data =>
    E.find_data_index data (m.m_current_t + increment) 0 m.m_current_data_index none
  | none => E.ull_of_double (m.m_current_t + increment)

/-- The local `t` of line 434: the effective duration of the gap from `current_t` to the next
event. -/
def waiting_gap_t (m : pp_model α) (current_t event : α) : α :=
  match m.m_pp_time_scale with
  | some f => f current_t event
  | none => event - current_t

/-- The local `t` of line 462: the effective duration of the residual gap from `current_t` to
the end of the window. -/
def waiting_residual_t (m : pp_model α) (current_t increment : α) : α :=
  match m.m_pp_time_scale, m.m_data_cont with
  | some f, some _ => f current_t (m.m_current_t + increment)
  | _, _ => m.m_current_t + increment - current_t

/-- One pass of the loop of lines 433-460: the gap up to the next event. -/
def waiting_gap (E : Lib α) (lower_tail two_sided : Bool) (s : WaitLoop α) :
    Except (Fault × pp_model α) (WaitLoop α) :=
  match s.m.m_data_cont with
  | none => .error (Fault.null_dereference, s.m)
  | some data =>
    match array_read data s.m.m_current_data_index with
    | .error f => .error (f, s.m)
    | .ok event =>
      let t := waiting_gap_t s.m s.current_t event
      let call := calculate_log_posterior_predictive_pdf E s.m t 0
      let m := { call.2 with m_log_predictive_df := call.1 }
      if t ≤ 0 then
        .error (Fault.exit_failure, m)
      else
        let m := waiting_lower_tail E lower_tail two_sided m
        let sum_log_pvals := s.sum_log_pvals + m.m_log_predictive_df
        let m := { m with m_r := (m.m_r + 1) % ULL }
        let m := { m with m_t := m.m_t + t }
        let m := { m with m_alpha_star := m.m_alpha_star + 1 }
        let m := { m with m_beta_star := m.m_beta_star + t }
        let how_many := (s.how_many + 1) % ULL
        let m := { m with m_current_data_index := (m.m_current_data_index + 1) % ULL }
        .ok { sum_log_pvals := sum_log_pvals, how_many := how_many, current_t := event, m := m }

/-- The loop `while (i2 > m_current_data_index)` of lines 433-460, for at most `n` passes; it is
entered with `n = i2 - m_current_data_index`, the number of passes it makes. -/
def waiting_gaps (E : Lib α) (lower_tail two_sided : Bool) (i2 : Nat) :
    Nat → WaitLoop α → Except (Fault × pp_model α) (WaitLoop α)
  | 0, s => .ok s
  | n + 1, s =>
    if i2 > s.m.m_current_data_index then
      match waiting_gap E lower_tail two_sided s with
      | .error e => .error e
      | .ok s => waiting_gaps E lower_tail two_sided i2 n s
    else .ok s

/-- Lines 462-481: the residual gap from the last event to the end of the window. -/
def waiting_residual (E : Lib α) (increment : α) (lower_tail two_sided : Bool)
    (s : WaitLoop α) : WaitLoop α :=
  let t := waiting_residual_t s.m s.current_t increment
  if t > 0 then
    let call := calculate_log_posterior_predictive_pdf E s.m t 0
    let m := { call.2 with m_log_predictive_df := call.1 - E.LOG_TWO }
    let m := waiting_lower_tail E lower_tail two_sided m
    let sum_log_pvals := s.sum_log_pvals + m.m_log_predictive_df
    let m := { m with m_t := m.m_t + t }
    let m := { m with m_beta_star := m.m_beta_star + t }
    { s with sum_log_pvals := sum_log_pvals, how_many := (s.how_many + 1) % ULL, m := m }
  else s

/-- Lines 484-503: the combination of the gaps into the value of the step. -/
def waiting_combine (E : Lib α) (two_sided : Bool) (s : WaitLoop α) : α × pp_model α :=
  let m := { s.m with m_currently_observable := decide (s.how_many > 0) }
  let m :=
    if m.m_currently_observable then
      let nu : α := (((2 * s.how_many) % ULL : Nat) : α)
      let combined :=
        if s.how_many = 1 then s.sum_log_pvals
        else E.log (E.gsl_cdf_chisq_Q (-2 * s.sum_log_pvals) nu)
      let m := { m with m_log_predictive_df := combined }
      if two_sided then
        let lower :=
          if m.m_log_predictive_df ≥ 0 then E.log (E.gsl_cdf_chisq_P (-2 * s.sum_log_pvals) nu)
          else E.log (1 - E.exp m.m_log_predictive_df)
        let m := { m with m_log_predictive_df2 := lower }
        let m := if m.m_log_predictive_df > m.m_log_predictive_df2 then
            { m with m_log_predictive_df := m.m_log_predictive_df2 }
          else m
        { m with m_log_predictive_df := m.m_log_predictive_df + E.LOG_TWO }
      else m
    else
      { m with m_log_predictive_df := -E.LOG_TWO }
  let m := { m with m_pvalue_pair := (m.m_log_predictive_df, m.m_log_predictive_df) }
  let m := { m with m_pvalue_pair_on_log_scale := true }
  (m.m_log_predictive_df, m)

/-- `pp_model::calculate_waiting_times_log_predictive_df` (lines 427-504). -/
def calculate_waiting_times_log_predictive_df (E : Lib α) (m : pp_model α) (increment : α)
    (lower_tail two_sided _increment_parameters : Bool) : Run α α :=
  let i2 := waiting_i2 E m increment
  let s : WaitLoop α :=
    { sum_log_pvals := 0, how_many := 0, current_t := m.m_current_t, m := m }
  match waiting_gaps E lower_tail two_sided i2 (i2 - m.m_current_data_index) s with
  | .error e => .error e
  | .ok s => .ok (waiting_combine E two_sided (waiting_residual E increment lower_tail two_sided s))

/-- `pp_model::calculate_log_predictive_df_bounds` (lines 387-391); `none` when the loop of
`calculate_log_posterior_predictive_df` is still running after `fuel` passes. -/
def calculate_log_predictive_df_bounds (E : Lib α) (m : pp_model α) (increment : α)
    (lower_tail two_sided increment_parameters : Bool) (fuel : Nat) : Option (Run α α) :=
  if m.m_p_value_alternative_style = false then
    (calculate_event_count_log_predictive_df E m increment lower_tail two_sided
      increment_parameters fuel).map Except.ok
  else
    some (calculate_waiting_times_log_predictive_df E m increment lower_tail two_sided
      increment_parameters)

/-- What a scan has produced: the values pushed to `dfs` and, for each step, the new-event
count of line 395 at the start of the step with the flag `m_currently_observable` at its
end. The second list is kept for the statements about the scan; the source does not store it. -/
structure ScanLog (α : Type) where
  dfs : List α
  steps : List (Nat × Bool)

/-- The loop `while (m_current_t < end)` of lines 370-377 for at most `fuel` passes, each call of
`calculate_log_posterior_predictive_df` running its loop for at most `df_fuel` passes; `none`
when a loop is still running after them. The text file is not written. -/
def sequential_loop (E : Lib α) (end_time increment : α)
    (lower_tail two_sided increment_parameters : Bool) (df_fuel : Nat) :
    Nat → ScanLog α → pp_model α → Option (Run α (ScanLog α))
  | 0, log, m => if m.m_current_t < end_time then none else some (.ok (log, m))
  | fuel + 1, log, m =>
    if m.m_current_t < end_time then
      match calculate_log_predictive_df_bounds E m increment lower_tail two_sided
          increment_parameters df_fuel with
      | none => none
      | some (.error e) => some (.error e)
      | some (.ok (_, m')) =>
        let log : ScanLog α :=
          { dfs := log.dfs ++ [m'.m_log_predictive_df],
            steps := log.steps ++ [(event_count_r E m increment, m'.m_currently_observable)] }
        let m' := { m' with m_current_t := m'.m_current_t + increment }
        sequential_loop E end_time increment lower_tail two_sided increment_parameters df_fuel
          fuel log m'
    else some (.ok (log, m))

/-- `pp_model::calculate_sequential_log_predictive_dfs` (lines 365-378), with the values
collected in `dfs`; `increment_parameters` is the default argument of the header. -/
def calculate_sequential_log_predictive_dfs (E : Lib α) (m : pp_model α)
    (start end_time increment : α) (lower_tail two_sided increment_parameters : Bool)
    (df_fuel fuel : Nat) : Option (Run α (ScanLog α)) :=
  sequential_loop E end_time increment lower_tail two_sided increment_parameters df_fuel fuel
    { dfs := [], steps := [] } (set_parameters_to_current_t_at E m start)

/-! ## The quantities the documentation speaks of -/

/-- The recurrence of the predictive probability mass: `pmf[0] = p0` and
`pmf[i] = pmf[i-1] * t_b * (a + i - 1) / i`. -/
def nb_pmf (p0 t_b a : α) : Nat → α
  | 0 => p0
  | i + 1 => nb_pmf p0 t_b a i * t_b * (a + ((i + 1 : Nat) : α) - 1) / ((i + 1 : Nat) : α)

/-- The predictive mass of the counts `0, ..., n - 1`. -/
def nb_mass_below (p0 t_b a : α) (n : Nat) : α :=
  ((List.range n).map (nb_pmf p0 t_b a)).sum

/-- The lower tail at `r`: the predictive mass of the counts `0, ..., r`. -/
def lowerTail (p0 t_b a : α) (r : Nat) : α := nb_mass_below p0 t_b a (r + 1)

/-- The tail value of the count `j`, for the predictive mass `e * nb_pmf 1 t_b a`: the smaller
of the mass of the counts `>= j` and of the mass of the counts `<= j`. -/
def tail_value (t_b a e : α) (j : Nat) : α :=
  min (1 - e * nb_mass_below 1 t_b a j) (e * nb_mass_below 1 t_b a (j + 1))

/-- The object `m'` carries the same scan as `m`: the prior and posterior parameters, the
running count and duration, the current time and data index, the data, the time scale and the
flags of the scan are those of `m`. -/
def same_scan (m m' : pp_model α) : Prop :=
  m'.m_alpha = m.m_alpha ∧ m'.m_beta = m.m_beta ∧ m'.m_r = m.m_r ∧ m'.m_t = m.m_t ∧
  m'.m_alpha_star = m.m_alpha_star ∧ m'.m_beta_star = m.m_beta_star ∧
  m'.m_current_t = m.m_current_t ∧ m'.m_current_data_index = m.m_current_data_index ∧
  m'.m_data_cont = m.m_data_cont ∧ m'.m_pp_time_scale = m.m_pp_time_scale ∧
  m'.m_p_value_alternative_style = m.m_p_value_alternative_style ∧
  m'.m_currently_observable = m.m_currently_observable

/-- The invariant of the `while` loop of `calculate_log_posterior_predictive_df` at its head
after `k` passes, for the ratio `q = t/(beta_star+t)`, `a = alpha_star`,
`lc = m_log_pdf_const`, `e = exp(lc)` and the staged minimum tail `mt`: the running term and
sum are those of the recurrence, the two-sided sums are ordered and bounded by the mass of the
counts below `k`, the midpoint has been found once that mass has reached one half, and past the
observed count `r` the staged tail value of `r` is at least
`min(1 - P(X < r), P(X <= r))`. -/
def df_running (q a lc e mt : α) (r k : Nat) (s : DfLoop α) : Prop :=
  s.i = k ∧ s.keep_looping = true ∧
  s.m.m_alpha_star = a ∧ s.m.m_log_pdf_const = lc ∧ s.m.m_minimum_tail = mt ∧
  s.pmf = nb_pmf 1 q a (k - 1) ∧ s.pmf_sum = nb_mass_below 1 q a (max k 1) ∧
  0 ≤ s.m.m_predictive_two_sided_df ∧
  s.m.m_predictive_two_sided_df ≤ s.m.m_predictive_two_sided_df2 ∧
  s.m.m_predictive_two_sided_df2 ≤ e * nb_mass_below 1 q a k ∧
  (k = 0 → s.g_i = e) ∧
  (1 ≤ k → 1 / 2 ≤ e * nb_mass_below 1 q a k → s.found_mid_point = true) ∧
  (r < k →
    min (1 - e * nb_mass_below 1 q a r) (e * nb_mass_below 1 q a (r + 1))
      ≤ s.m.m_log_predictive_df)

/-- Two states of the loop of `calculate_log_posterior_predictive_df` carry the same run: the
locals are equal and so are the members the loop reads or writes, the staged tail value
`m_log_predictive_df` only under the condition `c`: the loop reads it only after it has written
it, at the count `r`. -/
def df_same_run (c : Prop) (s1 s2 : DfLoop α) : Prop :=
  s1.i = s2.i ∧ s1.pmf_sum = s2.pmf_sum ∧ s1.pmf = s2.pmf ∧ s1.log_pmf = s2.log_pmf ∧
  s1.df = s2.df ∧ s1.df2 = s2.df2 ∧ s1.found_mid_point = s2.found_mid_point ∧
  s1.keep_looping = s2.keep_looping ∧ s1.g_i = s2.g_i ∧
  s1.m.m_alpha_star = s2.m.m_alpha_star ∧ s1.m.m_log_pdf_const = s2.m.m_log_pdf_const ∧
  s1.m.m_minimum_tail = s2.m.m_minimum_tail ∧
  s1.m.m_survivor_midpoint = s2.m.m_survivor_midpoint ∧
  s1.m.m_predictive_two_sided_df = s2.m.m_predictive_two_sided_df ∧
  s1.m.m_predictive_two_sided_df2 = s2.m.m_predictive_two_sided_df2 ∧
  (c → s1.m.m_log_predictive_df = s2.m.m_log_predictive_df)

/-- The invariant of the same loop in exact arithmetic: besides `df_running`, the midpoint has
been found only once the mass of the counts below `k` has reached one half, the first two-sided
sum is the mass of the counts `j < k` other than `r` whose tail value exceeds the staged
minimum tail, the second that of the counts `j < k` equal to `r` or whose tail value is at
least the staged minimum tail, and past the observed count `r` the staged tail value of `r` is
`tail_value r`. -/
def df_exact (q a lc e mt : α) (r k : Nat) (s : DfLoop α) : Prop :=
  df_running q a lc e mt r k s ∧
  (s.found_mid_point = true → 1 / 2 ≤ e * nb_mass_below 1 q a k) ∧
  s.m.m_predictive_two_sided_df = Finset.sum (Finset.range k) (fun j =>
    if j ≠ r ∧ tail_value q a e j > mt then nb_pmf 1 q a j * e else 0) ∧
  s.m.m_predictive_two_sided_df2 = Finset.sum (Finset.range k) (fun j =>
    if j = r ∨ tail_value q a e j ≥ mt then nb_pmf 1 q a j * e else 0) ∧
  (r < k → s.m.m_log_predictive_df = tail_value q a e r)

/-- What the loop of `calculate_log_posterior_predictive_df` has recorded of the survivor
midpoint after `k` passes: if the midpoint has been found, it was found in a pass `i < k`, `i`
is the smallest count whose lower-tail mass is at least one half, and `m_survivor_midpoint` is
the tail value of `i`. -/
def df_midpoint_found (q a e : α) (k : Nat) (s : DfLoop α) : Prop :=
  s.found_mid_point = true →
    ∃ i, i < k ∧ 1 / 2 ≤ e * nb_mass_below 1 q a (i + 1) ∧
      (∀ j, j < i → e * nb_mass_below 1 q a (j + 1) < 1 / 2) ∧
      s.m.m_survivor_midpoint = tail_value q a e i

/-- The relations that `set_parameters_to_current_t` establishes between the members a scan
carries forward: `alpha_star` is `alpha` plus the running count, `beta_star` is `beta` plus the
running effective duration, and the current data index is the running count. -/
def scan_carried (m : pp_model α) : Prop :=
  m.m_alpha_star = m.m_alpha + (m.m_r : α) ∧ m.m_beta_star = m.m_beta + m.m_t ∧
  m.m_current_data_index = m.m_r

end Model

/-- The library computes the real logarithm and exponential, and `LOG_TWO` is `log 2`. -/
def Lib.Exact (E : Lib ℝ) : Prop :=
  E.log = Real.log ∧ E.exp = Real.exp ∧ E.LOG_TWO = Real.log 2

/-- The one-sided locals of the loop of `calculate_log_posterior_predictive_df` after `k`
passes, in exact arithmetic, for `lc = m_log_pdf_const` and `e = exp(lc)`: `log_pmf` is the
logarithm of the term of the recurrence, and `df`, `df2` are `0` until the pass `r` (for one of
them the pass `r - 1`, an `unsigned long long`) has set them, to the logarithm of the mass of
the counts up to that pass for the lower tail and of the counts past it for the upper tail. -/
def df_one_sided_locals (q a lc e : ℝ) (r : Nat) (lower_tail : Bool) (k : Nat)
    (s : DfLoop ℝ) : Prop :=
  s.log_pmf = Real.log (nb_pmf 1 q a (k - 1)) ∧
  (lower_tail = true →
    s.df2 = (if usub r 1 < k then lc + Real.log (nb_mass_below 1 q a (usub r 1 + 1)) else 0) ∧
    s.df = (if r < k then lc + Real.log (nb_mass_below 1 q a (r + 1)) else 0)) ∧
  (lower_tail = false →
    s.df = (if usub r 1 < k then Real.log (1 - e * nb_mass_below 1 q a (usub r 1 + 1))
      else 0) ∧
    s.df2 = (if r < k then Real.log (1 - e * nb_mass_below 1 q a (r + 1)) else 0))

/-! ## Theorems -/

section Theorems

open Filter Topology Finset

variable {α : Type} [LinearOrderedField α]

/-- The wrapping subtraction is the ordinary one when nothing wraps. -/
theorem usub_of_le {a b : Nat} (hab : a ≤ b) (hb : b < ULL) : usub b a = b - a := by
  unfold usub ULL at *
  omega

theorem construct_alpha (E : Lib α) (m : pp_model α) : (construct E m).m_alpha = m.m_alpha := by
  unfold construct
  dsimp only
  split <;> rfl

theorem construct_beta (E : Lib α) (m : pp_model α) : (construct E m).m_beta = m.m_beta := by
  unfold construct
  dsimp only
  split <;> rfl

theorem construct_likelihood_term_zero (E : Lib α) (m : pp_model α) :
    (construct E m).m_likelihood_term_zero = m.m_alpha * E.log m.m_beta := by
  unfold construct
  dsimp only
  split <;> rfl

theorem construct_likelihood_term (E : Lib α) (m : pp_model α) :
    (construct E m).m_likelihood_term
      = m.m_alpha * E.log m.m_beta - E.gsl_sf_lngamma m.m_alpha := by
  unfold construct
  dsimp only
  split <;> rfl

/-- C1: after `construct`, for an effective duration `d > 0`,
`log_likelihood_length_and_count(d, r)` is `alpha*log(beta) - alpha*log(beta+d)` when `r = 0`
and `alpha*log(beta) - lnGamma(alpha) + lnGamma(r+alpha) - (r+alpha)*log(beta+d)` when `r > 0`
(for every `alpha` and `beta`, in particular the positive ones). -/
theorem log_likelihood_length_and_count_formula (E : Lib α) (m0 : pp_model α) (d : α) (r : Nat)
    (hd : 0 < d) :
    log_likelihood_length_and_count E (construct E m0) d r =
      if r = 0 then
        m0.m_alpha * E.log m0.m_beta - m0.m_alpha * E.log (m0.m_beta + d)
      else
        m0.m_alpha * E.log m0.m_beta - E.gsl_sf_lngamma m0.m_alpha
          + E.gsl_sf_lngamma ((r : α) + m0.m_alpha)
          - ((r : α) + m0.m_alpha) * E.log (m0.m_beta + d) := by
  unfold log_likelihood_length_and_count
  rw [if_neg (not_le.mpr hd), construct_alpha, construct_beta, construct_likelihood_term_zero,
    construct_likelihood_term]

/-- C1, the scenario of the documentation: `alpha = 1`, `beta = 1`, duration `2`, count `0`
give `log 1 - log 3`. -/
theorem log_likelihood_length_and_count_formula_witness :
    (0 : ℝ) < 2 ∧
    log_likelihood_length_and_count (Lib.ofFns Real.log Real.exp (Real.log ∘ Real.Gamma))
        (pp_model.new (Lib.ofFns Real.log Real.exp (Real.log ∘ Real.Gamma))
          pp_model.blank 1 1 none none) 2 0
      = Real.log 1 - Real.log 3 := by
  refine ⟨by norm_num, ?_⟩
  unfold pp_model.new
  rw [log_likelihood_length_and_count_formula _ _ 2 0 (by norm_num)]
  norm_num [Lib.ofFns]

/-- C2, as written, fails: with the decay rate `1` (constructor of lines 30-37), one event and
`t1 = t2 = 1` the effective duration is `0` and the interval log-likelihood is `1`, not `0`.
Any decay time scale that gives `[1, 1]` the duration `0` yields the same run. -/
theorem interval_zero_duration_counterexample :
    effective_duration
        (pp_model.new_shot_noise (Lib.ofFns Real.log Real.exp (Real.log ∘ Real.Gamma))
          pp_model.blank 1 1 1) 1 1 = 0 ∧
    ∃ s, log_likelihood_interval_with_count (Lib.ofFns Real.log Real.exp (Real.log ∘ Real.Gamma))
        (pp_model.new_shot_noise (Lib.ofFns Real.log Real.exp (Real.log ∘ Real.Gamma))
          pp_model.blank 1 1 1) 1 1 1 = .ok (1, s) := by
  constructor
  · simp [effective_duration, pp_model.new_shot_noise, Lib.ofFns]
  · simp [log_likelihood_interval_with_count, log_likelihood_length_and_count,
      effective_duration, pp_model.new_shot_noise, Lib.ofFns, construct, pp_model.blank]

/-- C2, amended: when the effective duration of `[t1, t2]` is exactly `0`,
`log_likelihood_interval_with_count(t1, t2, r)` returns the decay term
`m_shot_noise_rate * r * t1` alone; it is `0` whenever the decay rate is `0` or the count is
`0`, in particular for duration `0` and count `0`. -/
theorem interval_zero_duration (E : Lib α) (m : pp_model α) (t1 t2 : α) (r : Nat)
    (h0 : effective_duration m t1 t2 = 0) :
    log_likelihood_interval_with_count E m t1 t2 r
        = .ok (m.m_shot_noise_rate * (r : α) * t1, { m with m_t := 0 }) ∧
    (m.m_shot_noise_rate = 0 ∨ r = 0 →
      log_likelihood_interval_with_count E m t1 t2 r = .ok (0, { m with m_t := 0 })) := by
  have key : log_likelihood_interval_with_count E m t1 t2 r
      = .ok (m.m_shot_noise_rate * (r : α) * t1, { m with m_t := 0 }) := by
    unfold log_likelihood_interval_with_count
    simp [h0, log_likelihood_length_and_count]
  refine ⟨key, ?_⟩
  rintro (h | h)
  · rw [key, h]; simp
  · rw [key, h]; simp

/-- C2, amended, at an object without decay: `alpha = beta = 1`, `t1 = t2 = 3`, five events. -/
theorem interval_zero_duration_witness :
    effective_duration (pp_model.new (Lib.ofFns Real.log Real.exp (Real.log ∘ Real.Gamma))
        pp_model.blank 1 1 none none) 3 3 = 0 ∧
    ∃ s, log_likelihood_interval_with_count (Lib.ofFns Real.log Real.exp (Real.log ∘ Real.Gamma))
        (pp_model.new (Lib.ofFns Real.log Real.exp (Real.log ∘ Real.Gamma))
          pp_model.blank 1 1 none none) 3 3 5 = .ok (0, s) := by
  have h0 : effective_duration (pp_model.new (Lib.ofFns Real.log Real.exp (Real.log ∘ Real.Gamma))
      pp_model.blank 1 1 none none) 3 3 = 0 := by
    simp [effective_duration, pp_model.new, construct, pp_model.blank]
  refine ⟨h0, _, (interval_zero_duration _ _ 3 3 5 h0).2 (Or.inl ?_)⟩
  simp [pp_model.new, construct, pp_model.blank]

/-- C3, the failing run: on an object built without a time scale (`m_pp_time_scale` null, as
`mainSMC_example.cpp` builds it), `t1 = 1`, `t2 = 0` give the duration `-1`, and the
diagnostic of line 147 calls `cumulative_function` through the null pointer: the call stops
the process instead of returning `-1e300`. -/
theorem interval_negative_duration_null_time_scale (r : Nat) :
    ∃ s, log_likelihood_interval_with_count (Lib.ofFns Real.log Real.exp (Real.log ∘ Real.Gamma))
        (pp_model.new (Lib.ofFns Real.log Real.exp (Real.log ∘ Real.Gamma))
          pp_model.blank 1 1 none none) 1 0 r = .error (Fault.null_dereference, s) := by
  simp [log_likelihood_interval_with_count, effective_duration, pp_model.new, construct,
    pp_model.blank]

/-- With a time scale in place, a negative effective duration returns the sentinel `-1e300`,
whatever the count and the decay rate. -/
theorem interval_negative_duration_sentinel (E : Lib α) (m : pp_model α) (t1 t2 : α) (r : Nat)
    (f : α → α → α) (hf : m.m_pp_time_scale = some f) (hneg : effective_duration m t1 t2 < 0) :
    log_likelihood_interval_with_count E m t1 t2 r
      = .ok (-(10 ^ 300), { m with m_t := effective_duration m t1 t2 }) := by
  unfold log_likelihood_interval_with_count
  simp [hneg, hf]

/-- The posterior parameters are assigned whenever the indices are ordered and, in
point-process mode, the duration is not negative. -/
theorem calculate_posterior_mean_parameters_ok (m : pp_model α) (obj1 obj2 : changepoint α)
    (hi : obj1.m_dataindex ≤ obj2.m_dataindex)
    (hd : m.m_poisson_regression = false → 0 ≤ posterior_length m obj1 obj2) :
    calculate_posterior_mean_parameters m obj1 obj2
      = .ok ((), { m with
          m_alpha_star := m.m_alpha + ((posterior_count m obj1 obj2 : Nat) : α)
          m_beta_star := m.m_beta + posterior_length m obj1 obj2 }) := by
  unfold calculate_posterior_mean_parameters
  rw [if_neg (not_lt.mpr hi)]
  dsimp only
  rw [if_neg]
  rintro ⟨h1, h2⟩
  exact absurd (hd h1) (not_le.mpr h2)

/-- With random-mean mode off, `calculate_mean` returns `(alpha + r) / (beta + d)` for the count
`r` and the length `d` of the interval, and stages the posterior parameters and the variance. -/
theorem calculate_mean_ok (E : Lib α) (m : pp_model α) (obj1 obj2 : changepoint α)
    (hrm : m.m_random_mean = false)
    (hi : obj1.m_dataindex ≤ obj2.m_dataindex)
    (hd : m.m_poisson_regression = false → 0 ≤ posterior_length m obj1 obj2) :
    ∃ s, calculate_mean E m obj1 obj2
        = .ok ((m.m_alpha + ((posterior_count m obj1 obj2 : Nat) : α))
            / (m.m_beta + posterior_length m obj1 obj2), s) ∧
      s.m_alpha_star = m.m_alpha + ((posterior_count m obj1 obj2 : Nat) : α) ∧
      s.m_beta_star = m.m_beta + posterior_length m obj1 obj2 ∧
      s.m_mean = s.m_alpha_star / s.m_beta_star ∧
      s.m_var = s.m_alpha_star / s.m_beta_star / s.m_beta_star := by
  unfold calculate_mean
  rw [calculate_posterior_mean_parameters_ok m obj1 obj2 hi hd]
  simp [hrm]

/-- C4: in point-process mode with random-mean mode off, for interval markers with `i1 <= i2`
and effective duration `d >= 0`, `calculate_mean` sets `alpha_star = alpha + (i2 - i1)` and
`beta_star = beta + d`, returns `alpha_star / beta_star`, and records the variance
`mean / beta_star`. -/
theorem calculate_mean_point_process (E : Lib α) (m : pp_model α) (obj1 obj2 : changepoint α)
    (hpp : m.m_poisson_regression = false) (hrm : m.m_random_mean = false)
    (hi : obj1.m_dataindex ≤ obj2.m_dataindex) (hrange : obj2.m_dataindex < ULL)
    (hd : 0 ≤ effective_duration m obj1.m_changepoint obj2.m_changepoint) :
    ∃ s, calculate_mean E m obj1 obj2 = .ok (s.m_alpha_star / s.m_beta_star, s) ∧
      s.m_alpha_star = m.m_alpha + ((obj2.m_dataindex - obj1.m_dataindex : Nat) : α) ∧
      s.m_beta_star
        = m.m_beta + effective_duration m obj1.m_changepoint obj2.m_changepoint ∧
      s.m_mean = s.m_alpha_star / s.m_beta_star ∧
      s.m_var = s.m_alpha_star / s.m_beta_star / s.m_beta_star := by
  have hlen : posterior_length m obj1 obj2
      = effective_duration m obj1.m_changepoint obj2.m_changepoint := by
    simp [posterior_length, hpp]
  have hcnt : posterior_count m obj1 obj2 = obj2.m_dataindex - obj1.m_dataindex := by
    simp [posterior_count, hpp, usub_of_le hi hrange]
  obtain ⟨s, hs, ha, hb, hm, hv⟩ :=
    calculate_mean_ok E m obj1 obj2 hrm hi (fun _ => by rw [hlen]; exact hd)
  rw [hcnt] at ha
  rw [hlen] at hb
  refine ⟨s, ?_, ha, hb, hm, hv⟩
  rw [hs, ha, hb, hcnt, hlen]

/-- C4, the scenario of the documentation: `alpha = 2`, `beta = 1`, duration `1`, count `3`
give `alpha_star = 5`, `beta_star = 2` and the mean `2.5` (variance `1.25`). -/
theorem calculate_mean_point_process_witness :
    ∃ s, calculate_mean (Lib.ofFns Real.log Real.exp (Real.log ∘ Real.Gamma))
        (pp_model.new (Lib.ofFns Real.log Real.exp (Real.log ∘ Real.Gamma))
          pp_model.blank 2 1 none none) ⟨0, 0⟩ ⟨1, 3⟩ = .ok (5 / 2, s) ∧
      s.m_alpha_star = 5 ∧ s.m_beta_star = 2 ∧ s.m_var = 5 / 4 := by
  obtain ⟨s, hs, ha, hb, -, hv⟩ :=
    calculate_mean_point_process (Lib.ofFns Real.log Real.exp (Real.log ∘ Real.Gamma))
      (pp_model.new (Lib.ofFns Real.log Real.exp (Real.log ∘ Real.Gamma))
        pp_model.blank 2 1 none none) ⟨0, 0⟩ ⟨1, 3⟩
      (by simp [pp_model.new, construct, pp_model.blank])
      (by simp [pp_model.new, construct, pp_model.blank])
      (by norm_num) (by norm_num [ULL])
      (by simp [effective_duration, pp_model.new, construct, pp_model.blank])
  have ha5 : s.m_alpha_star = 5 := by
    rw [ha]; norm_num [pp_model.new, construct, pp_model.blank]
  have hb2 : s.m_beta_star = 2 := by
    rw [hb]; norm_num [effective_duration, pp_model.new, construct, pp_model.blank]
  refine ⟨s, ?_, ha5, hb2, ?_⟩
  · rw [hs, ha5, hb2]
  · rw [hv, ha5, hb2]; norm_num

/-- C5: `calculate_posterior_mean_parameters` stops the process if and only if the end marker's
data index is below the start marker's or, in point-process mode, the effective duration of the
interval is negative; when it stops, the object (so `alpha_star` and `beta_star`) is as it was,
and in every other case it completes and assigns `alpha_star = alpha + r` and
`beta_star = beta + d`. -/
theorem calculate_posterior_mean_parameters_halts_iff (m : pp_model α)
    (obj1 obj2 : changepoint α) :
    ((∃ e, calculate_posterior_mean_parameters m obj1 obj2 = .error e) ↔
      (obj2.m_dataindex < obj1.m_dataindex ∨
        (m.m_poisson_regression = false ∧
          effective_duration m obj1.m_changepoint obj2.m_changepoint < 0))) ∧
    (∀ f s, calculate_posterior_mean_parameters m obj1 obj2 = .error (f, s) →
      s = m ∧ s.m_alpha_star = m.m_alpha_star ∧ s.m_beta_star = m.m_beta_star) ∧
    (¬ (obj2.m_dataindex < obj1.m_dataindex ∨
        (m.m_poisson_regression = false ∧
          effective_duration m obj1.m_changepoint obj2.m_changepoint < 0)) →
      ∃ s, calculate_posterior_mean_parameters m obj1 obj2 = .ok ((), s) ∧
        s.m_alpha_star = m.m_alpha + ((posterior_count m obj1 obj2 : Nat) : α) ∧
        s.m_beta_star = m.m_beta + posterior_length m obj1 obj2) := by
  have hlen : m.m_poisson_regression = false → posterior_length m obj1 obj2
      = effective_duration m obj1.m_changepoint obj2.m_changepoint := by
    intro hpp
    simp [posterior_length, hpp]
  have hok : ¬ (obj2.m_dataindex < obj1.m_dataindex ∨
        (m.m_poisson_regression = false ∧
          effective_duration m obj1.m_changepoint obj2.m_changepoint < 0)) →
      calculate_posterior_mean_parameters m obj1 obj2
        = .ok ((), { m with
            m_alpha_star := m.m_alpha + ((posterior_count m obj1 obj2 : Nat) : α)
            m_beta_star := m.m_beta + posterior_length m obj1 obj2 }) := by
    intro h
    push_neg at h
    refine calculate_posterior_mean_parameters_ok m obj1 obj2 h.1 (fun hpp => ?_)
    rw [hlen hpp]
    exact h.2 hpp
  have herr : (obj2.m_dataindex < obj1.m_dataindex ∨
        (m.m_poisson_regression = false ∧
          effective_duration m obj1.m_changepoint obj2.m_changepoint < 0)) →
      ∃ f, calculate_posterior_mean_parameters m obj1 obj2 = .error (f, m) := by
    intro h
    unfold calculate_posterior_mean_parameters
    by_cases hi : obj2.m_dataindex < obj1.m_dataindex
    · exact ⟨Fault.exit_failure, by rw [if_pos hi]⟩
    · have h2 := h.resolve_left hi
      rw [if_neg hi]
      dsimp only
      rw [if_pos ⟨h2.1, by rw [hlen h2.1]; exact h2.2⟩]
      cases m.m_pp_time_scale with
      | none => exact ⟨Fault.null_dereference, rfl⟩
      | some g => exact ⟨Fault.exit_failure, rfl⟩
  refine ⟨⟨?_, ?_⟩, ?_, ?_⟩
  · rintro ⟨e, he⟩
    by_contra hcon
    rw [hok hcon] at he
    cases he
  · intro h
    obtain ⟨f, hf⟩ := herr h
    exact ⟨_, hf⟩
  · intro f s hfs
    by_cases hc : (obj2.m_dataindex < obj1.m_dataindex ∨
        (m.m_poisson_regression = false ∧
          effective_duration m obj1.m_changepoint obj2.m_changepoint < 0))
    · obtain ⟨f', hf'⟩ := herr hc
      rw [hf'] at hfs
      have hsm : s = m := by
        injection hfs with h1
        exact (congrArg Prod.snd h1).symm
      subst hsm
      exact ⟨rfl, rfl, rfl⟩
    · rw [hok hc] at hfs
      cases hfs
  · intro hc
    exact ⟨_, hok hc, rfl, rfl⟩

/-- C6: with random-mean mode off and `alpha, beta > 0`, for two intervals on which
`calculate_mean` completes, the returned posterior mean `(alpha + count) / (beta + duration)` is
no smaller for the larger count when the durations agree, and no larger for the longer duration
when the counts agree. -/
theorem calculate_mean_monotone (E : Lib α) (m : pp_model α) (a1 a2 b1 b2 : changepoint α)
    (hrm : m.m_random_mean = false) (halpha : 0 < m.m_alpha) (hbeta : 0 < m.m_beta)
    (hia : a1.m_dataindex ≤ a2.m_dataindex) (hib : b1.m_dataindex ≤ b2.m_dataindex)
    (hda : 0 ≤ posterior_length m a1 a2) (hdb : 0 ≤ posterior_length m b1 b2) :
    ∃ mean_a sa mean_b sb,
      calculate_mean E m a1 a2 = .ok (mean_a, sa) ∧
      calculate_mean E m b1 b2 = .ok (mean_b, sb) ∧
      mean_a = (m.m_alpha + ((posterior_count m a1 a2 : Nat) : α))
        / (m.m_beta + posterior_length m a1 a2) ∧
      mean_b = (m.m_alpha + ((posterior_count m b1 b2 : Nat) : α))
        / (m.m_beta + posterior_length m b1 b2) ∧
      (posterior_length m a1 a2 = posterior_length m b1 b2 →
        posterior_count m a1 a2 ≤ posterior_count m b1 b2 → mean_a ≤ mean_b) ∧
      (posterior_count m a1 a2 = posterior_count m b1 b2 →
        posterior_length m a1 a2 ≤ posterior_length m b1 b2 → mean_b ≤ mean_a) := by
  obtain ⟨sa, hsa, -⟩ := calculate_mean_ok E m a1 a2 hrm hia (fun _ => hda)
  obtain ⟨sb, hsb, -⟩ := calculate_mean_ok E m b1 b2 hrm hib (fun _ => hdb)
  refine ⟨_, sa, _, sb, hsa, hsb, rfl, rfl, ?_, ?_⟩
  · intro hlen hcnt
    rw [hlen]
    have hpos : 0 < m.m_beta + posterior_length m b1 b2 := by linarith
    have hc : ((posterior_count m a1 a2 : Nat) : α) ≤ ((posterior_count m b1 b2 : Nat) : α) :=
      Nat.cast_le.mpr hcnt
    exact div_le_div_of_nonneg_right (by linarith) hpos.le
  · intro hcnt hlen
    rw [hcnt]
    have hpos : 0 < m.m_beta + posterior_length m a1 a2 := by linarith
    have hnum : 0 ≤ m.m_alpha + ((posterior_count m b1 b2 : Nat) : α) := by
      have : (0 : α) ≤ ((posterior_count m b1 b2 : Nat) : α) := Nat.cast_nonneg _
      linarith
    exact div_le_div_of_nonneg_left hnum hpos (by linarith)

/-- C6 at `alpha = 2`, `beta = 1`: the intervals `[0, 1]` with one event and `[0, 1]` with three
events have the means `3/2 <= 5/2`. -/
theorem calculate_mean_monotone_witness :
    ∃ sa sb,
      calculate_mean (Lib.ofFns Real.log Real.exp (Real.log ∘ Real.Gamma))
        (pp_model.new (Lib.ofFns Real.log Real.exp (Real.log ∘ Real.Gamma))
          pp_model.blank 2 1 none none) ⟨0, 0⟩ ⟨1, 1⟩ = .ok (3 / 2, sa) ∧
      calculate_mean (Lib.ofFns Real.log Real.exp (Real.log ∘ Real.Gamma))
        (pp_model.new (Lib.ofFns Real.log Real.exp (Real.log ∘ Real.Gamma))
          pp_model.blank 2 1 none none) ⟨0, 0⟩ ⟨1, 3⟩ = .ok (5 / 2, sb) ∧
      (3 / 2 : ℝ) ≤ 5 / 2 := by
  obtain ⟨mean_a, sa, mean_b, sb, ha, hb, hma, hmb, hmono, -⟩ :=
    calculate_mean_monotone (Lib.ofFns Real.log Real.exp (Real.log ∘ Real.Gamma))
      (pp_model.new (Lib.ofFns Real.log Real.exp (Real.log ∘ Real.Gamma))
        pp_model.blank 2 1 none none) ⟨0, 0⟩ ⟨1, 1⟩ ⟨0, 0⟩ ⟨1, 3⟩
      (by simp [pp_model.new, construct, pp_model.blank])
      (by simp [pp_model.new, construct, pp_model.blank])
      (by simp [pp_model.new, construct, pp_model.blank])
      (by norm_num) (by norm_num)
      (by simp [posterior_length, effective_duration, pp_model.new, construct, pp_model.blank])
      (by simp [posterior_length, effective_duration, pp_model.new, construct, pp_model.blank])
  have hca : posterior_count (pp_model.new (Lib.ofFns Real.log Real.exp (Real.log ∘ Real.Gamma))
      pp_model.blank 2 1 none none) ⟨0, 0⟩ ⟨1, 1⟩ = 1 := by
    simp [posterior_count, usub, ULL, pp_model.new, construct, pp_model.blank]
  have hcb : posterior_count (pp_model.new (Lib.ofFns Real.log Real.exp (Real.log ∘ Real.Gamma))
      pp_model.blank 2 1 none none) ⟨0, 0⟩ ⟨1, 3⟩ = 3 := by
    simp [posterior_count, usub, ULL, pp_model.new, construct, pp_model.blank]
  have hla : posterior_length (pp_model.new (Lib.ofFns Real.log Real.exp (Real.log ∘ Real.Gamma))
      pp_model.blank 2 1 none none) ⟨0, 0⟩ ⟨1, 1⟩ = 1 := by
    simp [posterior_length, effective_duration, pp_model.new, construct, pp_model.blank]
  have hlb : posterior_length (pp_model.new (Lib.ofFns Real.log Real.exp (Real.log ∘ Real.Gamma))
      pp_model.blank 2 1 none none) ⟨0, 0⟩ ⟨1, 3⟩ = 1 := by
    simp [posterior_length, effective_duration, pp_model.new, construct, pp_model.blank]
  have hle := hmono (by rw [hla, hlb]) (by rw [hca, hcb]; norm_num)
  rw [hca, hla] at hma
  rw [hcb, hlb] at hmb
  have ea : mean_a = 3 / 2 := by
    rw [hma]; norm_num [pp_model.new, construct, pp_model.blank]
  have eb : mean_b = 5 / 2 := by
    rw [hmb]; norm_num [pp_model.new, construct, pp_model.blank]
  rw [ea] at ha hle
  rw [eb] at hb hle
  exact ⟨sa, sb, ha, hb, hle⟩

/-! ### The negative-binomial series -/

theorem nb_pmf_succ (p0 q a : α) (n : Nat) :
    nb_pmf p0 q a (n + 1) = nb_pmf p0 q a n * q * (a + (n : α)) / ((n : α) + 1) := by
  show nb_pmf p0 q a n * q * (a + ((n + 1 : Nat) : α) - 1) / ((n + 1 : Nat) : α) = _
  push_cast
  ring_nf

theorem nb_pmf_scale (p0 q a : α) (n : Nat) :
    nb_pmf p0 q a n = p0 * (nb_pmf 1 1 a n * q ^ n) := by
  induction n with
  | zero => simp [nb_pmf]
  | succ n ih =>
    rw [nb_pmf_succ, nb_pmf_succ, ih]
    ring

theorem nb_pmf_pos {p0 q a : α} (hp : 0 < p0) (hq : 0 < q) (ha : 0 < a) (n : Nat) :
    0 < nb_pmf p0 q a n := by
  induction n with
  | zero => simpa [nb_pmf] using hp
  | succ n ih =>
    rw [nb_pmf_succ]
    have h1 : (0 : α) ≤ (n : α) := Nat.cast_nonneg n
    positivity

theorem nb_mass_below_succ (p0 q a : α) (n : Nat) :
    nb_mass_below p0 q a (n + 1) = nb_mass_below p0 q a n + nb_pmf p0 q a n := by
  simp [nb_mass_below, List.range_succ]

theorem nb_mass_below_eq_sum (p0 q a : α) (n : Nat) :
    nb_mass_below p0 q a n = ∑ i in range n, nb_pmf p0 q a i := by
  induction n with
  | zero => simp [nb_mass_below]
  | succ n ih => rw [nb_mass_below_succ, Finset.sum_range_succ, ih]

/-- The polynomial identity behind the derivative of the truncated series. -/
theorem trunc_identity (a x : ℝ) (N : Nat) :
    (1 - x) * (∑ n in range N, nb_pmf 1 1 a n * ((n : ℝ) * x ^ (n - 1)))
      - a * (∑ n in range N, nb_pmf 1 1 a n * x ^ n)
      = -((N : ℝ) * nb_pmf 1 1 a N * x ^ (N - 1)) := by
  induction N with
  | zero => simp
  | succ N ih =>
    rw [Finset.sum_range_succ, Finset.sum_range_succ, mul_add, mul_add, nb_pmf_succ]
    have e : (1 - x) * (∑ n in range N, nb_pmf 1 1 a n * ((n : ℝ) * x ^ (n - 1)))
        = a * (∑ n in range N, nb_pmf 1 1 a n * x ^ n)
          - ((N : ℝ) * nb_pmf 1 1 a N * x ^ (N - 1)) := by linarith
    rw [e]
    have hN : ((N : ℝ) + 1) ≠ 0 := by positivity
    rcases Nat.eq_zero_or_pos N with h0 | hpos
    · subst h0; simp [mul_comm]
    · have hx : x ^ N = x ^ (N - 1) * x := by
        rw [← pow_succ]; congr 1; omega
      simp only [Nat.add_sub_cancel, Nat.cast_add, Nat.cast_one]
      rw [hx]
      field_simp
      ring


/-- The truncated series, as a function of the ratio. -/
theorem trunc_hasDerivAt (a : ℝ) (N : Nat) (x : ℝ) :
    HasDerivAt (fun y : ℝ => ∑ n in range N, nb_pmf 1 1 a n * y ^ n)
      (∑ n in range N, nb_pmf 1 1 a n * ((n : ℝ) * x ^ (n - 1))) x := by
  have h : ∀ n ∈ range N, HasDerivAt (fun y : ℝ => nb_pmf 1 1 a n * y ^ n)
      (nb_pmf 1 1 a n * ((n : ℝ) * x ^ (n - 1))) x := by
    intro n _
    exact (hasDerivAt_pow n x).const_mul _
  have := HasDerivAt.sum h
  convert this using 1

/-- The derivative of `(1 - x) ^ a * (truncated series)`. -/
theorem damped_hasDerivAt (a : ℝ) (N : Nat) {x : ℝ} (hx : x < 1) :
    HasDerivAt (fun y : ℝ => (1 - y) ^ a * ∑ n in range N, nb_pmf 1 1 a n * y ^ n)
      (-((1 - x) ^ (a - 1) * ((N : ℝ) * nb_pmf 1 1 a N * x ^ (N - 1)))) x := by
  have h1x : 0 < 1 - x := by linarith
  have hsub : HasDerivAt (fun y : ℝ => 1 - y) (-1) x := by
    simpa using (hasDerivAt_id x).const_sub 1
  have hpow : HasDerivAt (fun y : ℝ => (1 - y) ^ a) (-1 * a * (1 - x) ^ (a - 1)) x :=
    hsub.rpow_const (Or.inl h1x.ne')
  have hmul := hpow.mul (trunc_hasDerivAt a N x)
  convert hmul using 1
  have hsplit : (1 - x) ^ a = (1 - x) ^ (a - 1) * (1 - x) := by
    rw [← Real.rpow_add_one h1x.ne']
    congr 1; ring
  have hid := trunc_identity a x N
  rw [hsplit]
  linear_combination (-(1 - x) ^ (a - 1)) * hid


/-- Mean value form: the damped truncated series at `q` is `1` minus a nonnegative remainder. -/
theorem damped_remainder (a : ℝ) (N : Nat) {q : ℝ} (hq0 : 0 < q) (hq1 : q < 1) :
    ∃ ξ ∈ Set.Ioo 0 q,
      (1 - q) ^ a * ∑ n in range (N + 1), nb_pmf 1 1 a n * q ^ n
        = 1 - q * ((1 - ξ) ^ (a - 1) * (((N + 1 : Nat) : ℝ) * nb_pmf 1 1 a (N + 1) * ξ ^ N)) := by
  have hcont : ContinuousOn
      (fun y : ℝ => (1 - y) ^ a * ∑ n in range (N + 1), nb_pmf 1 1 a n * y ^ n)
      (Set.Icc 0 q) := by
    intro y hy
    have hy1 : y < 1 := lt_of_le_of_lt hy.2 hq1
    exact (damped_hasDerivAt a (N + 1) hy1).continuousAt.continuousWithinAt
  obtain ⟨ξ, hξ, hslope⟩ := exists_hasDerivAt_eq_slope
    (fun y : ℝ => (1 - y) ^ a * ∑ n in range (N + 1), nb_pmf 1 1 a n * y ^ n)
    (fun x => -((1 - x) ^ (a - 1) * (((N + 1 : Nat) : ℝ) * nb_pmf 1 1 a (N + 1) * x ^ (N + 1 - 1))))
    hq0 hcont
    (fun x hx => damped_hasDerivAt a (N + 1) (lt_trans hx.2 hq1))
  refine ⟨ξ, hξ, ?_⟩
  have h0 : (1 - (0 : ℝ)) ^ a * ∑ n in range (N + 1), nb_pmf 1 1 a n * (0 : ℝ) ^ n = 1 := by
    simp [Finset.sum_range_succ', nb_pmf]
  rw [h0] at hslope
  simp only [Nat.add_sub_cancel, sub_zero] at hslope
  have := (eq_div_iff hq0.ne').mp hslope
  linarith


/-- The remainder coefficients die out geometrically. -/
theorem remainder_coeff_tendsto {a q : ℝ} (ha : 0 < a) (hq0 : 0 < q) (hq1 : q < 1) :
    Tendsto (fun N : ℕ => ((N + 1 : Nat) : ℝ) * nb_pmf 1 1 a (N + 1) * q ^ N) atTop (𝓝 0) := by
  have hpos : ∀ N : ℕ, 0 < ((N + 1 : Nat) : ℝ) * nb_pmf 1 1 a (N + 1) * q ^ N := by
    intro N
    have := nb_pmf_pos (zero_lt_one' ℝ) (zero_lt_one' ℝ) ha (N + 1)
    positivity
  have hratio : Tendsto (fun N : ℕ =>
      ‖((N + 1 + 1 : Nat) : ℝ) * nb_pmf 1 1 a (N + 1 + 1) * q ^ (N + 1)‖
        / ‖((N + 1 : Nat) : ℝ) * nb_pmf 1 1 a (N + 1) * q ^ N‖) atTop (𝓝 q) := by
    have hlim : Tendsto (fun N : ℕ => q * (1 + a * (1 / ((N : ℝ) + 1)))) atTop (𝓝 q) := by
      have h1 : Tendsto (fun N : ℕ => q * (1 + a * (1 / ((N : ℝ) + 1)))) atTop
          (𝓝 (q * (1 + a * 0))) :=
        (tendsto_const_nhds.add (tendsto_one_div_add_atTop_nhds_zero_nat.const_mul a)).const_mul q
      simpa using h1
    refine hlim.congr (fun N => ?_)
    rw [Real.norm_of_nonneg (hpos (N + 1)).le, Real.norm_of_nonneg (hpos N).le,
      nb_pmf_succ 1 1 a (N + 1)]
    have hc := nb_pmf_pos (zero_lt_one' ℝ) (zero_lt_one' ℝ) ha (N + 1)
    have hN : (0 : ℝ) < (N : ℝ) + 1 := by positivity
    have hqN : (0 : ℝ) < q ^ N := by positivity
    push_cast
    field_simp
    ring
  have hsum : Summable (fun N : ℕ => ((N + 1 : Nat) : ℝ) * nb_pmf 1 1 a (N + 1) * q ^ N) :=
    summable_of_ratio_test_tendsto_lt_one hq1
      (Filter.Eventually.of_forall (fun N => (hpos N).ne')) hratio
  exact hsum.tendsto_atTop_zero


theorem nb_mass_below_damped (a q : ℝ) (N : Nat) :
    nb_mass_below ((1 - q) ^ a) q a N = (1 - q) ^ a * ∑ n in range N, nb_pmf 1 1 a n * q ^ n := by
  rw [nb_mass_below_eq_sum, Finset.mul_sum]
  exact Finset.sum_congr rfl (fun n _ => nb_pmf_scale _ _ _ n)

/-- The mass below `N + 1` misses `1` by a nonnegative remainder that is at most a constant
times the `N`-th remainder coefficient. -/
theorem nb_mass_below_bounds {a q : ℝ} (ha : 0 < a) (hq0 : 0 < q) (hq1 : q < 1) (N : Nat) :
    nb_mass_below ((1 - q) ^ a) q a (N + 1) ≤ 1 ∧
    1 - q * max 1 ((1 - q) ^ (a - 1)) * (((N + 1 : Nat) : ℝ) * nb_pmf 1 1 a (N + 1) * q ^ N)
      ≤ nb_mass_below ((1 - q) ^ a) q a (N + 1) := by
  obtain ⟨ξ, hξ, heq⟩ := damped_remainder a N hq0 hq1
  rw [nb_mass_below_damped, heq]
  have hc := nb_pmf_pos (zero_lt_one' ℝ) (zero_lt_one' ℝ) ha (N + 1)
  have hξ0 : 0 < ξ := hξ.1
  have h1ξ : 0 < 1 - ξ := by linarith [hξ.2]
  have h1q : 0 < 1 - q := by linarith
  have hpow : 0 < (1 - ξ) ^ (a - 1) := Real.rpow_pos_of_pos h1ξ _
  have hcoef : 0 ≤ ((N + 1 : Nat) : ℝ) * nb_pmf 1 1 a (N + 1) := by positivity
  have hξN : ξ ^ N ≤ q ^ N := pow_le_pow_left₀ hξ0.le hξ.2.le N
  have hM : (1 - ξ) ^ (a - 1) ≤ max 1 ((1 - q) ^ (a - 1)) := by
    rcases le_total 1 a with h | h
    · exact le_trans (Real.rpow_le_one h1ξ.le (by linarith) (by linarith)) (le_max_left _ _)
    · exact le_trans
        (Real.rpow_le_rpow_of_exponent_nonpos h1q (by linarith [hξ.2]) (by linarith))
        (le_max_right _ _)
  constructor
  · have : 0 ≤ q * ((1 - ξ) ^ (a - 1) * (((N + 1 : Nat) : ℝ) * nb_pmf 1 1 a (N + 1) * ξ ^ N)) := by
      positivity
    linarith
  · have h1 : (1 - ξ) ^ (a - 1) * (((N + 1 : Nat) : ℝ) * nb_pmf 1 1 a (N + 1) * ξ ^ N)
        ≤ max 1 ((1 - q) ^ (a - 1)) * (((N + 1 : Nat) : ℝ) * nb_pmf 1 1 a (N + 1) * q ^ N) := by
      apply mul_le_mul hM _ (by positivity) (le_trans zero_le_one (le_max_left _ _))
      exact mul_le_mul_of_nonneg_left hξN hcoef
    have h2 := mul_le_mul_of_nonneg_left h1 hq0.le
    rw [mul_assoc]
    linarith

theorem nb_mass_below_le_one {a q : ℝ} (ha : 0 < a) (hq0 : 0 < q) (hq1 : q < 1) (N : Nat) :
    nb_mass_below ((1 - q) ^ a) q a N ≤ 1 := by
  cases N with
  | zero => simp [nb_mass_below]
  | succ N => exact (nb_mass_below_bounds ha hq0 hq1 N).1

theorem nb_mass_below_lt_one {a q : ℝ} (ha : 0 < a) (hq0 : 0 < q) (hq1 : q < 1) (N : Nat) :
    nb_mass_below ((1 - q) ^ a) q a N < 1 := by
  have h := nb_mass_below_le_one ha hq0 hq1 (N + 1)
  rw [nb_mass_below_succ] at h
  have hp : 0 < nb_pmf ((1 - q) ^ a) q a N :=
    nb_pmf_pos (Real.rpow_pos_of_pos (by linarith) _) hq0 ha N
  linarith

theorem nb_mass_below_tendsto_one {a q : ℝ} (ha : 0 < a) (hq0 : 0 < q) (hq1 : q < 1) :
    Tendsto (fun N : ℕ => nb_mass_below ((1 - q) ^ a) q a N) atTop (𝓝 1) := by
  rw [← tendsto_add_atTop_iff_nat 1]
  have hlow : Tendsto (fun N : ℕ =>
      1 - q * max 1 ((1 - q) ^ (a - 1)) * (((N + 1 : Nat) : ℝ) * nb_pmf 1 1 a (N + 1) * q ^ N))
      atTop (𝓝 1) := by
    have h := ((remainder_coeff_tendsto ha hq0 hq1).const_mul
      (q * max 1 ((1 - q) ^ (a - 1)))).const_sub 1
    simpa using h
  exact tendsto_of_tendsto_of_tendsto_of_le_of_le hlow tendsto_const_nhds
    (fun N => (nb_mass_below_bounds ha hq0 hq1 N).2)
    (fun N => (nb_mass_below_bounds ha hq0 hq1 N).1)

/-! ### The loop of `calculate_log_posterior_predictive_pdf` -/

theorem usub_one_eq_iff {r i : Nat} (hr : r < ULL) (hi : i < r) : i = usub r 1 ↔ i + 1 = r := by
  unfold usub ULL at *
  omega

/-- The running values of the `for` loop after `k` passes. -/
theorem pdf_loop_spec (E : Lib α) (q ltb e : α) (r : Nat) (m1 : pp_model α) (k : Nat) :
    ((List.range k).foldl (pdf_loop_body E q ltb e r) ⟨1, 1, m1⟩).pmf
        = nb_pmf 1 q m1.m_alpha_star k ∧
    ((List.range k).foldl (pdf_loop_body E q ltb e r) ⟨1, 1, m1⟩).pmf_sum
        = nb_mass_below 1 q m1.m_alpha_star (k + 1) ∧
    ((List.range k).foldl (pdf_loop_body E q ltb e r) ⟨1, 1, m1⟩).m.m_alpha_star
        = m1.m_alpha_star ∧
    ((List.range k).foldl (pdf_loop_body E q ltb e r) ⟨1, 1, m1⟩).m.m_beta_star
        = m1.m_beta_star ∧
    ((List.range k).foldl (pdf_loop_body E q ltb e r) ⟨1, 1, m1⟩).m.m_log_predictive_pdf
        = m1.m_log_predictive_pdf
          + ∑ i in range k, (ltb + E.log (m1.m_alpha_star + (i : α)) - E.log ((i : α) + 1)) := by
  induction k with
  | zero =>
    exact ⟨by simp [nb_pmf], by rw [nb_mass_below_succ]; simp [nb_mass_below, nb_pmf], rfl, rfl,
      by simp⟩
  | succ k ih =>
    obtain ⟨h1, h2, h3, h4, h5⟩ := ih
    rw [List.range_succ, List.foldl_append]
    simp only [List.foldl_cons, List.foldl_nil]
    generalize (List.range k).foldl (pdf_loop_body E q ltb e r) ⟨1, 1, m1⟩ = s at h1 h2 h3 h4 h5
    have hpmf : s.pmf * (q * (s.m.m_alpha_star + (k : α)) / ((k + 1 : Nat) : α))
        = nb_pmf 1 q m1.m_alpha_star (k + 1) := by
      rw [nb_pmf_succ, h1, h3]
      push_cast
      ring
    have hlog : s.m.m_log_predictive_pdf
          + (ltb + E.log (s.m.m_alpha_star + (k : α)) - E.log ((k + 1 : Nat) : α))
        = m1.m_log_predictive_pdf + ∑ i in range (k + 1),
            (ltb + E.log (m1.m_alpha_star + (i : α)) - E.log ((i : α) + 1)) := by
      simp only [Finset.sum_range_succ, h5, h3]
      push_cast
      ring
    have hsum : s.pmf_sum + nb_pmf 1 q m1.m_alpha_star (k + 1)
        = nb_mass_below 1 q m1.m_alpha_star (k + 1 + 1) := by
      rw [h2]
      exact (nb_mass_below_succ _ _ _ _).symm
    by_cases hu : k = usub r 1
    · unfold pdf_loop_body
      simp only [← hu, if_true, true_and]
      rw [hpmf, hlog, hsum]
      split_ifs <;> exact ⟨rfl, rfl, h3, h4, rfl⟩
    · unfold pdf_loop_body
      simp only [hu, if_false, false_and]
      rw [hpmf, hlog, hsum]
      exact ⟨rfl, rfl, h3, h4, rfl⟩

/-- The tracked minimum tail after `k` passes, `k ≤ r`. -/
theorem pdf_loop_minimum_tail (E : Lib α) (q ltb e : α) (r : Nat) (hr : r < ULL)
    (m1 : pp_model α) (k : Nat) (hk : k ≤ r) :
    ((List.range k).foldl (pdf_loop_body E q ltb e r) ⟨1, 1, m1⟩).m.m_minimum_tail
        = if k = r ∧ 0 < r then
            min (1 - e * nb_mass_below 1 q m1.m_alpha_star r)
              (e * nb_mass_below 1 q m1.m_alpha_star (r + 1))
          else m1.m_minimum_tail := by
  induction k with
  | zero =>
    rw [if_neg]
    · rfl
    · rintro ⟨h1, h2⟩
      omega
  | succ k ih =>
    have h6 := ih (by omega)
    obtain ⟨h1, h2, h3, -, -⟩ := pdf_loop_spec E q ltb e r m1 k
    rw [List.range_succ, List.foldl_append]
    simp only [List.foldl_cons, List.foldl_nil]
    generalize (List.range k).foldl (pdf_loop_body E q ltb e r) ⟨1, 1, m1⟩ = s at h1 h2 h3 h6
    have hiff := usub_one_eq_iff hr (show k < r by omega)
    have hk6 : s.m.m_minimum_tail = m1.m_minimum_tail := by
      rw [h6, if_neg]
      rintro ⟨h, -⟩
      omega
    have hpmf : s.pmf * (q * (s.m.m_alpha_star + (k : α)) / ((k + 1 : Nat) : α))
        = nb_pmf 1 q m1.m_alpha_star (k + 1) := by
      rw [nb_pmf_succ, h1, h3]
      push_cast
      ring
    have hsum : nb_mass_below 1 q m1.m_alpha_star (k + 1) + nb_pmf 1 q m1.m_alpha_star (k + 1)
        = nb_mass_below 1 q m1.m_alpha_star (k + 1 + 1) := (nb_mass_below_succ _ _ _ _).symm
    by_cases hlast : k + 1 = r
    · have hu : k = usub r 1 := hiff.mpr hlast
      have hr0 : 0 < r := by omega
      rw [if_pos ⟨hlast, hr0⟩]
      unfold pdf_loop_body
      simp only [← hu, if_true, true_and]
      rw [hpmf, h2, hsum]
      split_ifs with hgt
      · rw [← hlast]
        exact (min_eq_right (le_of_lt hgt)).symm
      · rw [← hlast]
        exact (min_eq_left (not_lt.mp hgt)).symm
    · have hu : ¬ k = usub r 1 := fun h => hlast (hiff.mp h)
      rw [if_neg (fun h => hlast h.1)]
      unfold pdf_loop_body
      simp only [hu, if_false, false_and]
      exact hk6

/-! ### Exact logarithms and exponentials -/

/-- The constant `exp(m_log_pdf_const)` is the probability of no event. -/
theorem exp_log_pdf_const {a b t : ℝ} (hb : 0 < b) (ht : 0 < t) :
    Real.exp (a * (Real.log b - Real.log (b + t))) = (1 - t / (b + t)) ^ a := by
  have hbt : 0 < b + t := by linarith
  have h1 : 1 - t / (b + t) = b / (b + t) := by
    field_simp
  rw [h1, Real.rpow_def_of_pos (div_pos hb hbt), Real.log_div hb.ne' hbt.ne']
  ring_nf

theorem ratio_pos_lt_one {b t : ℝ} (hb : 0 < b) (ht : 0 < t) :
    0 < t / (b + t) ∧ t / (b + t) < 1 := by
  have hbt : 0 < b + t := by linarith
  exact ⟨div_pos ht hbt, (div_lt_one hbt).mpr (by linarith)⟩

/-- The logarithm of a term of the recurrence, as the loop accumulates it. -/
theorem log_nb_pmf {p0 q a : ℝ} (hp : 0 < p0) (hq : 0 < q) (ha : 0 < a) (k : Nat) :
    Real.log (nb_pmf p0 q a k)
      = Real.log p0 + ∑ i in range k, (Real.log q + Real.log (a + (i : ℝ)) - Real.log ((i : ℝ) + 1)) := by
  induction k with
  | zero => simp [nb_pmf]
  | succ k ih =>
    have hk : (0 : ℝ) ≤ (k : ℝ) := Nat.cast_nonneg k
    have hpk := nb_pmf_pos hp hq ha k
    rw [nb_pmf_succ, Finset.sum_range_succ, ← add_assoc, ← ih,
      Real.log_div (by positivity) (by positivity),
      Real.log_mul (by positivity) (by positivity),
      Real.log_mul (by positivity) (by positivity)]
    ring

/-- The recurrence in closed form: the negative-binomial probability mass. -/
theorem nb_pmf_closed_form {p0 q a : ℝ} (ha : 0 < a) (k : Nat) :
    nb_pmf p0 q a k
      = Real.Gamma (a + (k : ℝ)) / (Real.Gamma a * (k.factorial : ℝ)) * p0 * q ^ k := by
  induction k with
  | zero =>
    have hG : Real.Gamma a ≠ 0 := (Real.Gamma_pos_of_pos ha).ne'
    simp [nb_pmf, hG]
  | succ k ih =>
    have hk : (0 : ℝ) ≤ (k : ℝ) := Nat.cast_nonneg k
    have hG : Real.Gamma a ≠ 0 := (Real.Gamma_pos_of_pos ha).ne'
    have hak : a + (k : ℝ) ≠ 0 := by positivity
    have hG1 : Real.Gamma (a + ((k + 1 : Nat) : ℝ)) = (a + (k : ℝ)) * Real.Gamma (a + (k : ℝ)) := by
      rw [← Real.Gamma_add_one hak]
      congr 1
      push_cast
      ring
    have hf : (((k + 1).factorial : Nat) : ℝ) = ((k : ℝ) + 1) * (k.factorial : ℝ) := by
      rw [Nat.factorial_succ]
      push_cast
      ring
    have hfact : ((k.factorial : Nat) : ℝ) ≠ 0 := by positivity
    have hk1 : (k : ℝ) + 1 ≠ 0 := by positivity
    rw [nb_pmf_succ, ih, hG1, hf]
    field_simp
    ring

/-- The value returned by `calculate_log_posterior_predictive_pdf` for `t > 0`, and the
posterior parameters it leaves untouched. -/
theorem calculate_log_posterior_predictive_pdf_value (E : Lib α) (m : pp_model α) (t : α)
    (r : Nat) (ht : 0 < t) :
    (calculate_log_posterior_predictive_pdf E m t r).1
      = m.m_alpha_star * (E.log m.m_beta_star - E.log (m.m_beta_star + t))
        + ∑ i in range r, (E.log t - E.log (m.m_beta_star + t)
            + E.log (m.m_alpha_star + (i : α)) - E.log ((i : α) + 1)) ∧
    (calculate_log_posterior_predictive_pdf E m t r).2.m_log_predictive_pdf
      = (calculate_log_posterior_predictive_pdf E m t r).1 ∧
    (calculate_log_posterior_predictive_pdf E m t r).2.m_alpha_star = m.m_alpha_star ∧
    (calculate_log_posterior_predictive_pdf E m t r).2.m_beta_star = m.m_beta_star := by
  unfold calculate_log_posterior_predictive_pdf
  rw [if_neg (not_le.mpr ht)]
  dsimp only
  obtain ⟨-, -, h3, h4, h5⟩ := pdf_loop_spec E (t / (m.m_beta_star + t))
    (E.log t - E.log (m.m_beta_star + t))
    (E.exp (m.m_alpha_star * (E.log m.m_beta_star - E.log (m.m_beta_star + t)))) r
    { m with
      m_log_pdf_const := m.m_alpha_star * (E.log m.m_beta_star - E.log (m.m_beta_star + t))
      m_log_predictive_pdf := m.m_alpha_star * (E.log m.m_beta_star - E.log (m.m_beta_star + t))
      m_minimum_tail :=
        E.exp (m.m_alpha_star * (E.log m.m_beta_star - E.log (m.m_beta_star + t))) * 1 } r
  exact ⟨h5, rfl, h3, h4⟩

/-- The value returned by `calculate_log_posterior_predictive_pdf` is the logarithm of the
term of the recurrence. -/
theorem pdf_value_eq_log_nb (E : Lib ℝ) (hE : E.Exact) (m : pp_model ℝ) (t : ℝ) (r : Nat)
    (ha : 0 < m.m_alpha_star) (hb : 0 < m.m_beta_star) (ht : 0 < t) :
    (calculate_log_posterior_predictive_pdf E m t r).1
      = Real.log (nb_pmf ((m.m_beta_star / (m.m_beta_star + t)) ^ m.m_alpha_star)
          (t / (m.m_beta_star + t)) m.m_alpha_star r) := by
  have hbt : 0 < m.m_beta_star + t := by linarith
  have hp : 0 < m.m_beta_star / (m.m_beta_star + t) := div_pos hb hbt
  have hq := (ratio_pos_lt_one hb ht).1
  rw [(calculate_log_posterior_predictive_pdf_value E m t r ht).1, hE.1,
    log_nb_pmf (Real.rpow_pos_of_pos hp _) hq ha, Real.log_rpow hp,
    Real.log_div hb.ne' hbt.ne', Real.log_div ht.ne' hbt.ne']

/-- C7: for `alpha_star, beta_star, t > 0`, `calculate_log_posterior_predictive_pdf(t, r)`
returns the logarithm of the `r`-th term of the recurrence
`pmf[0] = (beta_star/(beta_star+t))^alpha_star`,
`pmf[i] = pmf[i-1] * (t/(beta_star+t)) * (alpha_star+i-1)/i`, and that term is the
negative-binomial probability mass
`Gamma(alpha_star+r) / (Gamma(alpha_star) r!) * p^alpha_star * (1-p)^r` with
`p = beta_star/(beta_star+t)`. -/
theorem calculate_log_posterior_predictive_pdf_log_nb (E : Lib ℝ) (hE : E.Exact)
    (m : pp_model ℝ) (t : ℝ) (r : Nat)
    (ha : 0 < m.m_alpha_star) (hb : 0 < m.m_beta_star) (ht : 0 < t) :
    (calculate_log_posterior_predictive_pdf E m t r).1
      = Real.log (nb_pmf ((m.m_beta_star / (m.m_beta_star + t)) ^ m.m_alpha_star)
          (t / (m.m_beta_star + t)) m.m_alpha_star r) ∧
    nb_pmf ((m.m_beta_star / (m.m_beta_star + t)) ^ m.m_alpha_star)
        (t / (m.m_beta_star + t)) m.m_alpha_star r
      = Real.Gamma (m.m_alpha_star + (r : ℝ)) / (Real.Gamma m.m_alpha_star * (r.factorial : ℝ))
        * (m.m_beta_star / (m.m_beta_star + t)) ^ m.m_alpha_star
        * (1 - m.m_beta_star / (m.m_beta_star + t)) ^ r := by
  have hbt : 0 < m.m_beta_star + t := by linarith
  have h1q : 1 - m.m_beta_star / (m.m_beta_star + t) = t / (m.m_beta_star + t) := by
    field_simp
  refine ⟨pdf_value_eq_log_nb E hE m t r ha hb ht, ?_⟩
  rw [h1q]
  exact nb_pmf_closed_form ha r

/-- C7 at `alpha_star = beta_star = t = 1` and `r = 1`: the value returned is `log (1/4)`. -/
theorem calculate_log_posterior_predictive_pdf_log_nb_witness :
    (calculate_log_posterior_predictive_pdf (Lib.ofFns Real.log Real.exp (Real.log ∘ Real.Gamma))
      { (pp_model.blank : pp_model ℝ) with m_alpha_star := 1, m_beta_star := 1 } 1 1).1
      = Real.log (1 / 4) := by
  rw [(calculate_log_posterior_predictive_pdf_log_nb
    (Lib.ofFns Real.log Real.exp (Real.log ∘ Real.Gamma)) ⟨rfl, rfl, rfl⟩
    { (pp_model.blank : pp_model ℝ) with m_alpha_star := 1, m_beta_star := 1 } 1 1
    (by norm_num) (by norm_num) (by norm_num)).1]
  norm_num [nb_pmf]

theorem nb_pmf_scale_one (p0 q a : α) (n : Nat) :
    nb_pmf p0 q a n = p0 * nb_pmf 1 q a n := by
  rw [nb_pmf_scale p0 q a n, nb_pmf_scale 1 q a n]
  ring

theorem nb_mass_below_scale_one (p0 q a : α) (n : Nat) :
    nb_mass_below p0 q a n = p0 * nb_mass_below 1 q a n := by
  rw [nb_mass_below_eq_sum, nb_mass_below_eq_sum, Finset.mul_sum]
  exact Finset.sum_congr rfl (fun i _ => nb_pmf_scale_one p0 q a i)

theorem nb_mass_below_mono {p0 q a : α} (hp : 0 < p0) (hq : 0 < q) (ha : 0 < a) :
    Monotone (nb_mass_below p0 q a) := by
  refine monotone_nat_of_le_succ (fun n => ?_)
  rw [nb_mass_below_succ]
  have := nb_pmf_pos hp hq ha n
  linarith

/-- The exponential of the value returned by `calculate_log_posterior_predictive_pdf` is the
term of the recurrence. -/
theorem exp_calculate_log_posterior_predictive_pdf (E : Lib ℝ) (hE : E.Exact)
    (m : pp_model ℝ) (t : ℝ) (r : Nat)
    (ha : 0 < m.m_alpha_star) (hb : 0 < m.m_beta_star) (ht : 0 < t) :
    Real.exp (calculate_log_posterior_predictive_pdf E m t r).1
      = nb_pmf ((1 - t / (m.m_beta_star + t)) ^ m.m_alpha_star)
          (t / (m.m_beta_star + t)) m.m_alpha_star r := by
  have hbt : 0 < m.m_beta_star + t := by linarith
  have hp : 0 < m.m_beta_star / (m.m_beta_star + t) := div_pos hb hbt
  have hq := (ratio_pos_lt_one hb ht).1
  have h1q : 1 - t / (m.m_beta_star + t) = m.m_beta_star / (m.m_beta_star + t) := by
    field_simp
  rw [pdf_value_eq_log_nb E hE m t r ha hb ht, h1q]
  exact Real.exp_log (nb_pmf_pos (Real.rpow_pos_of_pos hp _) hq ha r)

/-- C8: for `alpha_star, beta_star, t > 0`, the truncated sums
`S_N = sum over r = 0..N of exp(calculate_log_posterior_predictive_pdf(t, r))`, each call made
on an object with these posterior parameters, are non-decreasing in `N`, never exceed `1`, and
converge to `1` as `N` tends to infinity. -/
theorem predictive_pmf_partial_sums (E : Lib ℝ) (hE : E.Exact) (a b t : ℝ)
    (ha : 0 < a) (hb : 0 < b) (ht : 0 < t) (ms : ℕ → pp_model ℝ)
    (hms : ∀ r, (ms r).m_alpha_star = a ∧ (ms r).m_beta_star = b) :
    Monotone (fun N : ℕ =>
      ∑ r in range (N + 1), Real.exp (calculate_log_posterior_predictive_pdf E (ms r) t r).1) ∧
    (∀ N : ℕ,
      ∑ r in range (N + 1), Real.exp (calculate_log_posterior_predictive_pdf E (ms r) t r).1
        ≤ 1) ∧
    Tendsto (fun N : ℕ =>
      ∑ r in range (N + 1), Real.exp (calculate_log_posterior_predictive_pdf E (ms r) t r).1)
      atTop (𝓝 1) := by
  obtain ⟨hq0, hq1⟩ := ratio_pos_lt_one hb ht
  have hp0 : 0 < (1 - t / (b + t)) ^ a := Real.rpow_pos_of_pos (by linarith) _
  have hsum : ∀ N : ℕ,
      ∑ r in range (N + 1), Real.exp (calculate_log_posterior_predictive_pdf E (ms r) t r).1
        = nb_mass_below ((1 - t / (b + t)) ^ a) (t / (b + t)) a (N + 1) := by
    intro N
    rw [nb_mass_below_eq_sum]
    refine Finset.sum_congr rfl (fun r _ => ?_)
    have h := exp_calculate_log_posterior_predictive_pdf E hE (ms r) t r
      (by rw [(hms r).1]; exact ha) (by rw [(hms r).2]; exact hb) ht
    rw [(hms r).1, (hms r).2] at h
    exact h
  simp only [hsum]
  refine ⟨?_, ?_, ?_⟩
  · exact (nb_mass_below_mono hp0 hq0 ha).comp (fun x y hxy => Nat.succ_le_succ hxy)
  · intro N
    exact nb_mass_below_le_one ha hq0 hq1 (N + 1)
  · exact (tendsto_add_atTop_iff_nat 1).mpr (nb_mass_below_tendsto_one ha hq0 hq1)

/-- C8 at `alpha_star = beta_star = t = 1`. -/
theorem predictive_pmf_partial_sums_witness :
    Monotone (fun N : ℕ => ∑ r in range (N + 1), Real.exp
      (calculate_log_posterior_predictive_pdf (Lib.ofFns Real.log Real.exp (Real.log ∘ Real.Gamma))
        { (pp_model.blank : pp_model ℝ) with m_alpha_star := 1, m_beta_star := 1 } 1 r).1) ∧
    (∀ N : ℕ, ∑ r in range (N + 1), Real.exp
      (calculate_log_posterior_predictive_pdf (Lib.ofFns Real.log Real.exp (Real.log ∘ Real.Gamma))
        { (pp_model.blank : pp_model ℝ) with m_alpha_star := 1, m_beta_star := 1 } 1 r).1 ≤ 1) ∧
    Tendsto (fun N : ℕ => ∑ r in range (N + 1), Real.exp
      (calculate_log_posterior_predictive_pdf (Lib.ofFns Real.log Real.exp (Real.log ∘ Real.Gamma))
        { (pp_model.blank : pp_model ℝ) with m_alpha_star := 1, m_beta_star := 1 } 1 r).1)
      atTop (𝓝 1) :=
  predictive_pmf_partial_sums (Lib.ofFns Real.log Real.exp (Real.log ∘ Real.Gamma))
    ⟨rfl, rfl, rfl⟩ 1 1 1 one_pos one_pos one_pos
    (fun _ => { (pp_model.blank : pp_model ℝ) with m_alpha_star := 1, m_beta_star := 1 })
    (fun _ => ⟨rfl, rfl⟩)

/-- C9, as written, fails: at `alpha_star = beta_star = 1`, `t = 1/3` and the observed count
`r = 0` the lower tail is `3/4`, so `min(lowerTail(0), 1 - lowerTail(0))` is `1/4`, while the
tracked minimum tail is `3/4`. -/
theorem minimum_tail_counterexample :
    (calculate_log_posterior_predictive_pdf (Lib.ofFns Real.log Real.exp (Real.log ∘ Real.Gamma))
      { (pp_model.blank : pp_model ℝ) with m_alpha_star := 1, m_beta_star := 1 }
      (1 / 3) 0).2.m_minimum_tail = 3 / 4 ∧
    min (lowerTail (((1 : ℝ) / (1 + 1 / 3)) ^ (1 : ℝ)) ((1 / 3) / (1 + 1 / 3)) 1 0)
      (1 - lowerTail (((1 : ℝ) / (1 + 1 / 3)) ^ (1 : ℝ)) ((1 / 3) / (1 + 1 / 3)) 1 0) = 1 / 4 := by
  constructor
  · have he := exp_log_pdf_const (a := 1) (b := 1) (t := 1 / 3) one_pos (by norm_num)
    simp only [calculate_log_posterior_predictive_pdf, Lib.ofFns, pp_model.blank]
    norm_num
    norm_num at he
    rw [Real.exp_neg, Real.exp_log (by norm_num)]
    norm_num
  · simp only [lowerTail, nb_mass_below_succ]
    norm_num [nb_mass_below, nb_pmf]

/-- C9, amended: for `alpha_star, beta_star, t > 0` and an observed count `r`, after
`calculate_log_posterior_predictive_pdf(t, r)` the tracked minimum tail is
`min(lowerTail(r), 1 - lowerTail(r - 1))`, the smaller of the masses of the counts `<= r` and
of the counts `>= r` (`lowerTail(-1) = 0`: the mass of the counts below `r` is
`nb_mass_below r`). -/
theorem minimum_tail_inclusive (E : Lib ℝ) (hE : E.Exact) (m : pp_model ℝ) (t : ℝ) (r : Nat)
    (ha : 0 < m.m_alpha_star) (hb : 0 < m.m_beta_star) (ht : 0 < t) (hr : r < ULL) :
    (calculate_log_posterior_predictive_pdf E m t r).2.m_minimum_tail
      = min
          (lowerTail ((m.m_beta_star / (m.m_beta_star + t)) ^ m.m_alpha_star)
            (t / (m.m_beta_star + t)) m.m_alpha_star r)
          (1 - nb_mass_below ((m.m_beta_star / (m.m_beta_star + t)) ^ m.m_alpha_star)
            (t / (m.m_beta_star + t)) m.m_alpha_star r) := by
  obtain ⟨hq0, hq1⟩ := ratio_pos_lt_one hb ht
  have h1q : m.m_beta_star / (m.m_beta_star + t) = 1 - t / (m.m_beta_star + t) := by
    have hbt : 0 < m.m_beta_star + t := by linarith
    field_simp
  have he : E.exp (m.m_alpha_star * (E.log m.m_beta_star - E.log (m.m_beta_star + t)))
      = (m.m_beta_star / (m.m_beta_star + t)) ^ m.m_alpha_star := by
    rw [hE.1, hE.2.1, exp_log_pdf_const hb ht, h1q]
  have hloop := pdf_loop_minimum_tail E (t / (m.m_beta_star + t))
    (E.log t - E.log (m.m_beta_star + t))
    (E.exp (m.m_alpha_star * (E.log m.m_beta_star - E.log (m.m_beta_star + t)))) r hr
    { m with
      m_log_pdf_const := m.m_alpha_star * (E.log m.m_beta_star - E.log (m.m_beta_star + t))
      m_log_predictive_pdf := m.m_alpha_star * (E.log m.m_beta_star - E.log (m.m_beta_star + t))
      m_minimum_tail :=
        E.exp (m.m_alpha_star * (E.log m.m_beta_star - E.log (m.m_beta_star + t))) * 1 }
    r le_rfl
  unfold calculate_log_posterior_predictive_pdf
  rw [if_neg (not_le.mpr ht)]
  dsimp only at hloop ⊢
  rw [lowerTail,
    nb_mass_below_scale_one ((m.m_beta_star / (m.m_beta_star + t)) ^ m.m_alpha_star) _ _ (r + 1),
    nb_mass_below_scale_one ((m.m_beta_star / (m.m_beta_star + t)) ^ m.m_alpha_star) _ _ r,
    hloop, he]
  rcases Nat.eq_zero_or_pos r with h0 | hpos
  · subst h0
    rw [if_neg (by simp)]
    have hle : (m.m_beta_star / (m.m_beta_star + t)) ^ m.m_alpha_star ≤ 1 := by
      rw [h1q]
      exact Real.rpow_le_one (by linarith) (by linarith) ha.le
    have h1 : nb_mass_below (1 : ℝ) (t / (m.m_beta_star + t)) m.m_alpha_star (0 + 1) = 1 := by
      rw [nb_mass_below_succ]
      simp [nb_mass_below, nb_pmf]
    have h0 : nb_mass_below (1 : ℝ) (t / (m.m_beta_star + t)) m.m_alpha_star 0 = 0 := by
      simp [nb_mass_below]
    rw [h1, h0]
    simp only [mul_one, mul_zero, sub_zero]
    exact (min_eq_left hle).symm
  · rw [if_pos ⟨rfl, hpos⟩]
    exact min_comm _ _

/-- C9, amended, at `alpha_star = beta_star = 1`, `t = 1/3`, `r = 0`: the tracked minimum tail
is the lower tail `3/4`. -/
theorem minimum_tail_inclusive_witness :
    (calculate_log_posterior_predictive_pdf (Lib.ofFns Real.log Real.exp (Real.log ∘ Real.Gamma))
      { (pp_model.blank : pp_model ℝ) with m_alpha_star := 1, m_beta_star := 1 }
      (1 / 3) 0).2.m_minimum_tail
      = min (3 / 4 : ℝ) (1 - 0) := by
  rw [minimum_tail_inclusive (Lib.ofFns Real.log Real.exp (Real.log ∘ Real.Gamma)) ⟨rfl, rfl, rfl⟩
    { (pp_model.blank : pp_model ℝ) with m_alpha_star := 1, m_beta_star := 1 } (1 / 3) 0
    (by norm_num) (by norm_num) (by norm_num) (by norm_num [ULL])]
  simp only [lowerTail, nb_mass_below_succ]
  norm_num [nb_mass_below, nb_pmf]

/-! ### The loop of `calculate_log_posterior_predictive_df` -/

theorem usub_one_ne (r : Nat) : usub r 1 ≠ r := by
  unfold usub ULL
  omega

/-- The running values after the update of lines 279-293. -/
theorem df_advance_spec (E : Lib α) (q ltb e : α) (s : DfLoop α) :
    (df_advance E q ltb e s).i = s.i ∧
    (df_advance E q ltb e s).keep_looping = s.keep_looping ∧
    (df_advance E q ltb e s).found_mid_point = s.found_mid_point ∧
    (df_advance E q ltb e s).m = s.m ∧
    (df_advance E q ltb e s).pmf
      = (if 0 < s.i then s.pmf * (q * (s.m.m_alpha_star + (s.i : α) - 1) / (s.i : α))
          else s.pmf) ∧
    (df_advance E q ltb e s).pmf_sum
      = (if 0 < s.i then
          s.pmf_sum + s.pmf * (q * (s.m.m_alpha_star + (s.i : α) - 1) / (s.i : α))
          else s.pmf_sum) ∧
    (df_advance E q ltb e s).g_i
      = (if 0 < s.i then
          (if s.found_mid_point = false ∧ 1 - e * s.pmf_sum
              > e * (s.pmf_sum + s.pmf * (q * (s.m.m_alpha_star + (s.i : α) - 1) / (s.i : α)))
            then e * (s.pmf_sum + s.pmf * (q * (s.m.m_alpha_star + (s.i : α) - 1) / (s.i : α)))
            else 1 - e * s.pmf_sum)
          else s.g_i) := by
  unfold df_advance
  by_cases hi : s.i > 0
  · simp only [hi, if_true]
    split_ifs <;> exact ⟨rfl, rfl, rfl, rfl, rfl, rfl, rfl⟩
  · simp [hi]

/-- The running values after the midpoint search of lines 294-299. -/
theorem df_midpoint_spec (E : Lib α) (s : DfLoop α) :
    (df_midpoint E s).i = s.i ∧
    (df_midpoint E s).keep_looping = s.keep_looping ∧
    (df_midpoint E s).pmf = s.pmf ∧
    (df_midpoint E s).pmf_sum = s.pmf_sum ∧
    (df_midpoint E s).g_i = s.g_i ∧
    (df_midpoint E s).m.m_alpha_star = s.m.m_alpha_star ∧
    (df_midpoint E s).m.m_log_pdf_const = s.m.m_log_pdf_const ∧
    (df_midpoint E s).m.m_minimum_tail = s.m.m_minimum_tail ∧
    (df_midpoint E s).m.m_log_predictive_df = s.m.m_log_predictive_df ∧
    (df_midpoint E s).m.m_predictive_two_sided_df = s.m.m_predictive_two_sided_df ∧
    (df_midpoint E s).m.m_predictive_two_sided_df2 = s.m.m_predictive_two_sided_df2 ∧
    ((df_midpoint E s).found_mid_point = true ↔
      (s.found_mid_point = true ∨ s.m.m_log_pdf_const + E.log s.pmf_sum ≥ -E.LOG_TWO)) := by
  unfold df_midpoint
  by_cases hf : s.found_mid_point = false
  · simp only [hf, if_true]
    split_ifs with hc
    · exact ⟨rfl, rfl, rfl, rfl, rfl, rfl, rfl, rfl, rfl, rfl, rfl, by simp [hc]⟩
    · exact ⟨rfl, rfl, rfl, rfl, rfl, rfl, rfl, rfl, rfl, rfl, rfl, by simp [hf, hc]⟩
  · simp only [hf, if_false]
    have ht : s.found_mid_point = true := by simpa using hf
    exact ⟨rfl, rfl, rfl, rfl, rfl, rfl, rfl, rfl, rfl, rfl, rfl, by simp [ht]⟩

/-- The two-sided sums after lines 302-311, when the round-off guard does not fire. -/
theorem df_two_sided_spec (e : α) (r : Nat) (s : DfLoop α)
    (hpmf : 0 < s.pmf) (hD2 : s.m.m_predictive_two_sided_df2 < 1) :
    (df_two_sided e r s).i = s.i ∧
    (df_two_sided e r s).keep_looping = s.keep_looping ∧
    (df_two_sided e r s).pmf = s.pmf ∧
    (df_two_sided e r s).pmf_sum = s.pmf_sum ∧
    (df_two_sided e r s).g_i = s.g_i ∧
    (df_two_sided e r s).found_mid_point = s.found_mid_point ∧
    (df_two_sided e r s).m.m_alpha_star = s.m.m_alpha_star ∧
    (df_two_sided e r s).m.m_log_pdf_const = s.m.m_log_pdf_const ∧
    (df_two_sided e r s).m.m_minimum_tail = s.m.m_minimum_tail ∧
    (df_two_sided e r s).m.m_log_predictive_df = s.m.m_log_predictive_df ∧
    (df_two_sided e r s).m.m_predictive_two_sided_df
      = s.m.m_predictive_two_sided_df
        + (if s.i ≠ r ∧ s.g_i > s.m.m_minimum_tail then s.pmf * e else 0) ∧
    (df_two_sided e r s).m.m_predictive_two_sided_df2
      = s.m.m_predictive_two_sided_df2
        + (if s.i = r ∨ s.g_i ≥ s.m.m_minimum_tail then s.pmf * e else 0) := by
  unfold df_two_sided
  have hguard : ¬ (s.pmf ≤ 0 ∨ s.m.m_predictive_two_sided_df2 ≥ 1) := by
    rintro (h | h)
    · exact absurd hpmf (not_lt.mpr h)
    · exact absurd hD2 (not_lt.mpr h)
  rw [if_neg hguard]
  dsimp only
  by_cases h1 : s.i ≠ r ∧ s.g_i > s.m.m_minimum_tail
  · simp only [if_pos h1]
    by_cases h2 : s.i = r ∨ s.g_i ≥ s.m.m_minimum_tail
    · simp [if_pos h2]
    · simp [if_neg h2]
  · simp only [if_neg h1]
    by_cases h2 : s.i = r ∨ s.g_i ≥ s.m.m_minimum_tail
    · simp [if_pos h2]
    · simp [if_neg h2]

/-- The running values after the one-sided bookkeeping of lines 312-334. -/
theorem df_one_sided_spec (E : Lib α) (r : Nat) (lower_tail : Bool) (s : DfLoop α) :
    (df_one_sided E r lower_tail s).i = s.i ∧
    (df_one_sided E r lower_tail s).keep_looping = s.keep_looping ∧
    (df_one_sided E r lower_tail s).pmf = s.pmf ∧
    (df_one_sided E r lower_tail s).pmf_sum = s.pmf_sum ∧
    (df_one_sided E r lower_tail s).g_i = s.g_i ∧
    (df_one_sided E r lower_tail s).found_mid_point = s.found_mid_point ∧
    (df_one_sided E r lower_tail s).m.m_alpha_star = s.m.m_alpha_star ∧
    (df_one_sided E r lower_tail s).m.m_log_pdf_const = s.m.m_log_pdf_const ∧
    (df_one_sided E r lower_tail s).m.m_minimum_tail = s.m.m_minimum_tail ∧
    (df_one_sided E r lower_tail s).m.m_predictive_two_sided_df
      = s.m.m_predictive_two_sided_df ∧
    (df_one_sided E r lower_tail s).m.m_predictive_two_sided_df2
      = s.m.m_predictive_two_sided_df2 ∧
    (df_one_sided E r lower_tail s).m.m_log_predictive_df
      = (if s.i = r then s.g_i else s.m.m_log_predictive_df) := by
  unfold df_one_sided
  by_cases h1 : s.i = usub r 1
  · have h2 : ¬ s.i = r := fun h => usub_one_ne r (h1.symm.trans h)
    simp only [h1.symm, if_true, h2, if_false]
    split_ifs <;> exact ⟨rfl, rfl, rfl, rfl, rfl, rfl, rfl, rfl, rfl, rfl, rfl, rfl⟩
  · simp only [h1, if_false]
    by_cases h2 : s.i = r
    · simp only [h2, if_true]
      split_ifs <;> exact ⟨rfl, rfl, rfl, rfl, rfl, rfl, rfl, rfl, rfl, rfl, rfl, rfl⟩
    · simp [h2]

/-- The running values after the increment and the loop test of lines 335-342. -/
theorem df_continue_spec (r : Nat) (s : DfLoop α) (hk : s.keep_looping = true) :
    (df_continue r s).i = s.i + 1 ∧
    (df_continue r s).pmf = s.pmf ∧
    (df_continue r s).pmf_sum = s.pmf_sum ∧
    (df_continue r s).g_i = s.g_i ∧
    (df_continue r s).found_mid_point = s.found_mid_point ∧
    (df_continue r s).m.m_alpha_star = s.m.m_alpha_star ∧
    (df_continue r s).m.m_log_pdf_const = s.m.m_log_pdf_const ∧
    (df_continue r s).m.m_minimum_tail = s.m.m_minimum_tail ∧
    (df_continue r s).m.m_log_predictive_df = s.m.m_log_predictive_df ∧
    ((s.i + 1 ≤ r ∨ s.found_mid_point = false ∨ s.g_i ≥ s.m.m_log_predictive_df) →
      (df_continue r s).keep_looping = true ∧
      (df_continue r s).m.m_predictive_two_sided_df = s.m.m_predictive_two_sided_df ∧
      (df_continue r s).m.m_predictive_two_sided_df2 = s.m.m_predictive_two_sided_df2) ∧
    (¬ (s.i + 1 ≤ r ∨ s.found_mid_point = false ∨ s.g_i ≥ s.m.m_log_predictive_df) →
      (df_continue r s).keep_looping = false ∧
      (df_continue r s).m.m_predictive_two_sided_df = 1 - s.m.m_predictive_two_sided_df ∧
      (df_continue r s).m.m_predictive_two_sided_df2 = 1 - s.m.m_predictive_two_sided_df2) := by
  unfold df_continue
  simp only [hk, if_true]
  by_cases hc : s.i + 1 ≤ r ∨ s.found_mid_point = false ∨ s.g_i ≥ s.m.m_log_predictive_df
  · simp only [hc, decide_True, if_false]
    simp
  · simp only [hc, decide_False, if_true]
    simp

/-- One pass through the loop body, when the loop is running and the round-off guard does not
fire: the new running values in terms of the values after the update of lines 279-293. -/
theorem df_loop_body_spec (E : Lib α) (q ltb e : α) (r : Nat) (lower_tail : Bool)
    (s : DfLoop α) (hk : s.keep_looping = true)
    (hpmf : 0 < (df_advance E q ltb e s).pmf)
    (hD2 : s.m.m_predictive_two_sided_df2 < 1) :
    (df_loop_body E q ltb e r lower_tail s).i = s.i + 1 ∧
    (df_loop_body E q ltb e r lower_tail s).pmf = (df_advance E q ltb e s).pmf ∧
    (df_loop_body E q ltb e r lower_tail s).pmf_sum = (df_advance E q ltb e s).pmf_sum ∧
    (df_loop_body E q ltb e r lower_tail s).g_i = (df_advance E q ltb e s).g_i ∧
    ((df_loop_body E q ltb e r lower_tail s).found_mid_point = true ↔
      (s.found_mid_point = true ∨
        s.m.m_log_pdf_const + E.log (df_advance E q ltb e s).pmf_sum ≥ -E.LOG_TWO)) ∧
    (df_loop_body E q ltb e r lower_tail s).m.m_alpha_star = s.m.m_alpha_star ∧
    (df_loop_body E q ltb e r lower_tail s).m.m_log_pdf_const = s.m.m_log_pdf_const ∧
    (df_loop_body E q ltb e r lower_tail s).m.m_minimum_tail = s.m.m_minimum_tail ∧
    (df_loop_body E q ltb e r lower_tail s).m.m_log_predictive_df
      = (if s.i = r then (df_advance E q ltb e s).g_i else s.m.m_log_predictive_df) ∧
    ((s.i + 1 ≤ r ∨ (df_loop_body E q ltb e r lower_tail s).found_mid_point = false ∨
        (df_advance E q ltb e s).g_i
          ≥ (df_loop_body E q ltb e r lower_tail s).m.m_log_predictive_df) →
      (df_loop_body E q ltb e r lower_tail s).keep_looping = true ∧
      (df_loop_body E q ltb e r lower_tail s).m.m_predictive_two_sided_df
        = s.m.m_predictive_two_sided_df
          + (if s.i ≠ r ∧ (df_advance E q ltb e s).g_i > s.m.m_minimum_tail
              then (df_advance E q ltb e s).pmf * e else 0) ∧
      (df_loop_body E q ltb e r lower_tail s).m.m_predictive_two_sided_df2
        = s.m.m_predictive_two_sided_df2
          + (if s.i = r ∨ (df_advance E q ltb e s).g_i ≥ s.m.m_minimum_tail
              then (df_advance E q ltb e s).pmf * e else 0)) ∧
    (¬ (s.i + 1 ≤ r ∨ (df_loop_body E q ltb e r lower_tail s).found_mid_point = false ∨
        (df_advance E q ltb e s).g_i
          ≥ (df_loop_body E q ltb e r lower_tail s).m.m_log_predictive_df) →
      (df_loop_body E q ltb e r lower_tail s).keep_looping = false ∧
      (df_loop_body E q ltb e r lower_tail s).m.m_predictive_two_sided_df
        = 1 - (s.m.m_predictive_two_sided_df
          + (if s.i ≠ r ∧ (df_advance E q ltb e s).g_i > s.m.m_minimum_tail
              then (df_advance E q ltb e s).pmf * e else 0)) ∧
      (df_loop_body E q ltb e r lower_tail s).m.m_predictive_two_sided_df2
        = 1 - (s.m.m_predictive_two_sided_df2
          + (if s.i = r ∨ (df_advance E q ltb e s).g_i ≥ s.m.m_minimum_tail
              then (df_advance E q ltb e s).pmf * e else 0))) := by
  obtain ⟨a_i, a_k, a_f, a_m, -, -, -⟩ := df_advance_spec E q ltb e s
  obtain ⟨b_i, b_k, b_pmf, b_sum, b_g, b_a, b_lc, b_mt, b_pd, b_D, b_D2, b_f⟩ :=
    df_midpoint_spec E (df_advance E q ltb e s)
  have hpmf2 : 0 < (df_midpoint E (df_advance E q ltb e s)).pmf := by rw [b_pmf]; exact hpmf
  have hD22 : (df_midpoint E (df_advance E q ltb e s)).m.m_predictive_two_sided_df2 < 1 := by
    rw [b_D2, a_m]; exact hD2
  obtain ⟨c_i, c_k, c_pmf, c_sum, c_g, c_f, c_a, c_lc, c_mt, c_pd, c_D, c_D2⟩ :=
    df_two_sided_spec e r (df_midpoint E (df_advance E q ltb e s)) hpmf2 hD22
  obtain ⟨d_i, d_k, d_pmf, d_sum, d_g, d_f, d_a, d_lc, d_mt, d_D, d_D2, d_pd⟩ :=
    df_one_sided_spec E r lower_tail
      (df_two_sided e r (df_midpoint E (df_advance E q ltb e s)))
  have hk4 : (df_one_sided E r lower_tail
      (df_two_sided e r (df_midpoint E (df_advance E q ltb e s)))).keep_looping = true := by
    rw [d_k, c_k, b_k, a_k]; exact hk
  obtain ⟨e_i, e_pmf, e_sum, e_g, e_f, e_a, e_lc, e_mt, e_pd, e_go, e_stop⟩ :=
    df_continue_spec r (df_one_sided E r lower_tail
      (df_two_sided e r (df_midpoint E (df_advance E q ltb e s)))) hk4
  rw [d_i, c_i, b_i, a_i, d_f, c_f, d_g, c_g, b_g, d_pd, c_i, b_i, a_i, c_g, b_g, c_pd, b_pd,
    a_m, d_D, d_D2, c_D, c_D2, b_D, b_D2, b_i, a_i, b_g, b_mt, b_pmf, a_m] at e_go e_stop
  have hf : (df_loop_body E q ltb e r lower_tail s).found_mid_point
      = (df_midpoint E (df_advance E q ltb e s)).found_mid_point := by
    unfold df_loop_body
    rw [e_f, d_f, c_f]
  have hpd : (df_loop_body E q ltb e r lower_tail s).m.m_log_predictive_df
      = (if s.i = r then (df_advance E q ltb e s).g_i else s.m.m_log_predictive_df) := by
    unfold df_loop_body
    rw [e_pd, d_pd, c_i, b_i, a_i, c_g, b_g, c_pd, b_pd, a_m]
  refine ⟨?_, ?_, ?_, ?_, ?_, ?_, ?_, ?_, hpd, ?_, ?_⟩
  · unfold df_loop_body
    rw [e_i, d_i, c_i, b_i, a_i]
  · unfold df_loop_body
    rw [e_pmf, d_pmf, c_pmf, b_pmf]
  · unfold df_loop_body
    rw [e_sum, d_sum, c_sum, b_sum]
  · unfold df_loop_body
    rw [e_g, d_g, c_g, b_g]
  · rw [hf, b_f, a_f, a_m]
  · unfold df_loop_body
    rw [e_a, d_a, c_a, b_a, a_m]
  · unfold df_loop_body
    rw [e_lc, d_lc, c_lc, b_lc, a_m]
  · unfold df_loop_body
    rw [e_mt, d_mt, c_mt, b_mt, a_m]
  · rw [hf, hpd]
    exact e_go
  · rw [hf, hpd]
    exact e_stop

/-- The running values after the update of lines 279-293, under the loop invariant. -/
theorem df_advance_running (E : Lib α) (q ltb a lc e mt : α) (r k : Nat) (s : DfLoop α)
    (hrun : df_running q a lc e mt r k s) :
    (df_advance E q ltb e s).pmf = nb_pmf 1 q a k ∧
    (df_advance E q ltb e s).pmf_sum = nb_mass_below 1 q a (k + 1) ∧
    (1 ≤ k → (df_advance E q ltb e s).g_i ≤ 1 - e * nb_mass_below 1 q a k) ∧
    min (1 - e * nb_mass_below 1 q a k) (e * nb_mass_below 1 q a (k + 1))
      ≤ (df_advance E q ltb e s).g_i := by
  obtain ⟨hi, -, hal, -, -, hpmf, hsum, -, -, -, hg0, -, -⟩ := hrun
  obtain ⟨-, -, -, -, a_pmf, a_sum, a_g⟩ := df_advance_spec E q ltb e s
  rw [a_pmf, a_sum, a_g, hi, hal, hpmf, hsum]
  rcases Nat.eq_zero_or_pos k with h0 | hpos
  · subst h0
    have h1 : nb_mass_below (1 : α) q a (0 + 1) = 1 := by
      rw [nb_mass_below_succ]
      simp [nb_mass_below, nb_pmf]
    simp only [lt_irrefl, if_false, Nat.zero_sub, max_eq_right (Nat.zero_le 1)]
    refine ⟨trivial, trivial, fun h => absurd h (by norm_num), ?_⟩
    rw [hg0 rfl, h1, mul_one]
    exact min_le_right _ _
  · obtain ⟨j, rfl⟩ : ∃ j, k = j + 1 := ⟨k - 1, by omega⟩
    have hstep : nb_pmf 1 q a (j + 1 - 1)
        * (q * (a + ((j + 1 : Nat) : α) - 1) / ((j + 1 : Nat) : α)) = nb_pmf 1 q a (j + 1) := by
      rw [Nat.add_sub_cancel, nb_pmf_succ]
      push_cast
      ring
    have hmax : max (j + 1) 1 = j + 1 := max_eq_left (by omega)
    simp only [hpos, if_true, hstep, hmax, ← nb_mass_below_succ]
    refine ⟨trivial, trivial, fun _ => ?_, ?_⟩
    · split_ifs with hc
      · exact le_of_lt hc.2
      · exact le_rfl
    · split_ifs with hc
      · exact min_le_right _ _
      · exact min_le_left _ _

/-- The midpoint test of line 295, in exact arithmetic: the lower tail has reached one half. -/
theorem midpoint_test_iff (E : Lib ℝ) (hE : E.Exact) {lc e S : ℝ} (hlc : Real.exp lc = e)
    (hS : 0 < S) : lc + E.log S ≥ -E.LOG_TWO ↔ 1 / 2 ≤ e * S := by
  have he : 0 < e := by rw [← hlc]; exact Real.exp_pos lc
  have h1 : lc + E.log S = Real.log (e * S) := by
    rw [hE.1, Real.log_mul he.ne' hS.ne', ← hlc, Real.log_exp]
  have h2 : -E.LOG_TWO = Real.log (1 / 2) := by
    rw [hE.2.2, one_div, Real.log_inv]
  rw [ge_iff_le, h1, h2, Real.log_le_log_iff (by norm_num) (mul_pos he hS)]

/-- One pass of the loop under the invariant: either the loop goes on and the invariant holds
again, or it stops with a valid pair of two-sided probabilities; and it stops once, past the
observed count, the lower tail has reached one half and the upper tail has fallen below the
bound on the staged tail value. -/
theorem df_pass (E : Lib ℝ) (hE : E.Exact) {a q : ℝ} (ha : 0 < a) (hq0 : 0 < q) (hq1 : q < 1)
    (lc mt ltb : ℝ) (hlc : Real.exp lc = (1 - q) ^ a) (r k : Nat) (lower_tail : Bool)
    (s : DfLoop ℝ) (hrun : df_running q a lc ((1 - q) ^ a) mt r k s) :
    (((df_loop_body E q ltb ((1 - q) ^ a) r lower_tail s).keep_looping = true ∧
        df_running q a lc ((1 - q) ^ a) mt r (k + 1)
          (df_loop_body E q ltb ((1 - q) ^ a) r lower_tail s)) ∨
      ((df_loop_body E q ltb ((1 - q) ^ a) r lower_tail s).keep_looping = false ∧
        0 ≤ (df_loop_body E q ltb ((1 - q) ^ a) r lower_tail s).m.m_predictive_two_sided_df2 ∧
        (df_loop_body E q ltb ((1 - q) ^ a) r lower_tail s).m.m_predictive_two_sided_df2
          ≤ (df_loop_body E q ltb ((1 - q) ^ a) r lower_tail s).m.m_predictive_two_sided_df ∧
        (df_loop_body E q ltb ((1 - q) ^ a) r lower_tail s).m.m_predictive_two_sided_df ≤ 1)) ∧
    (r < k → 1 / 2 ≤ (1 - q) ^ a * nb_mass_below 1 q a (k + 1) →
      1 - (1 - q) ^ a * nb_mass_below 1 q a k
        < min (1 - (1 - q) ^ a * nb_mass_below 1 q a r)
            ((1 - q) ^ a * nb_mass_below 1 q a (r + 1)) →
      (df_loop_body E q ltb ((1 - q) ^ a) r lower_tail s).keep_looping = false) := by
  have he0 : 0 < (1 - q) ^ a := Real.rpow_pos_of_pos (by linarith) _
  have hlt : ∀ n, (1 - q) ^ a * nb_mass_below 1 q a n < 1 := by
    intro n
    rw [← nb_mass_below_scale_one]
    exact nb_mass_below_lt_one ha hq0 hq1 n
  have hpk : 0 < nb_pmf 1 q a k := nb_pmf_pos one_pos hq0 ha k
  have hsucc : nb_mass_below 1 q a (k + 1) = nb_mass_below 1 q a k + nb_pmf 1 q a k :=
    nb_mass_below_succ _ _ _ _
  have hSpos : 0 < nb_mass_below 1 q a (k + 1) := by
    have h0 : nb_mass_below (1 : ℝ) q a 0 = 0 := by simp [nb_mass_below]
    have := nb_mass_below_mono (one_pos) hq0 ha (Nat.zero_le k)
    rw [h0] at this
    linarith
  obtain ⟨A_pmf, A_sum, A_gle, A_gge⟩ :=
    df_advance_running E q ltb a lc ((1 - q) ^ a) mt r k s hrun
  obtain ⟨hi, hk, hal, hlcs, hmt, -, -, hD0, hDD2, hD2, -, hfound, hpd⟩ := hrun
  obtain ⟨B_i, B_pmf, B_sum, B_g, B_f, B_a, B_lc, B_mt, B_pd, B_go, B_stop⟩ :=
    df_loop_body_spec E q ltb ((1 - q) ^ a) r lower_tail s hk (by rw [A_pmf]; exact hpk)
      (lt_of_le_of_lt hD2 (hlt k))
  rw [A_sum, hlcs, midpoint_test_iff E hE hlc hSpos] at B_f
  rw [A_pmf, hi, hmt] at B_go B_stop
  rw [hi] at B_pd B_i
  generalize (df_advance E q ltb ((1 - q) ^ a) s).g_i = g at A_gle A_gge B_g B_pd B_go B_stop
  have hadd1 : 0 ≤ (if k ≠ r ∧ g > mt then nb_pmf 1 q a k * (1 - q) ^ a else 0) := by
    split_ifs
    · positivity
    · exact le_rfl
  have hadd2 : (if k ≠ r ∧ g > mt then nb_pmf 1 q a k * (1 - q) ^ a else 0)
      ≤ (if k = r ∨ g ≥ mt then nb_pmf 1 q a k * (1 - q) ^ a else 0) := by
    by_cases h1 : k ≠ r ∧ g > mt
    · rw [if_pos h1, if_pos (Or.inr (le_of_lt h1.2))]
    · rw [if_neg h1]
      split_ifs
      · positivity
      · exact le_rfl
  have hadd3 : (if k = r ∨ g ≥ mt then nb_pmf 1 q a k * (1 - q) ^ a else 0)
      ≤ (1 - q) ^ a * nb_pmf 1 q a k := by
    split_ifs
    · rw [mul_comm]
    · positivity
  have hnext : (1 - q) ^ a * nb_mass_below 1 q a (k + 1)
      = (1 - q) ^ a * nb_mass_below 1 q a k + (1 - q) ^ a * nb_pmf 1 q a k := by
    rw [hsucc, mul_add]
  have hle1 := (hlt (k + 1)).le
  have hpd' : r < k + 1 →
      min (1 - (1 - q) ^ a * nb_mass_below 1 q a r) ((1 - q) ^ a * nb_mass_below 1 q a (r + 1))
        ≤ (df_loop_body E q ltb ((1 - q) ^ a) r lower_tail s).m.m_log_predictive_df := by
    intro hrk
    rw [B_pd]
    by_cases hkr : k = r
    · rw [if_pos hkr]
      rw [hkr] at A_gge
      exact A_gge
    · rw [if_neg hkr]
      exact hpd (by omega)
  constructor
  · by_cases hc : k + 1 ≤ r ∨
        (df_loop_body E q ltb ((1 - q) ^ a) r lower_tail s).found_mid_point = false ∨
        g ≥ (df_loop_body E q ltb ((1 - q) ^ a) r lower_tail s).m.m_log_predictive_df
    · left
      obtain ⟨hk', hD', hD2'⟩ := B_go hc
      refine ⟨hk', B_i, hk', B_a.trans hal, B_lc.trans hlcs, B_mt.trans hmt, ?_, ?_, ?_, ?_, ?_,
        ?_, ?_, hpd'⟩
      · rw [B_pmf, A_pmf, Nat.add_sub_cancel]
      · rw [B_sum, A_sum, max_eq_left (by omega : 1 ≤ k + 1)]
      · rw [hD']; linarith
      · rw [hD', hD2']; linarith
      · rw [hD2', hnext]; linarith
      · intro h; omega
      · intro _ hhalf
        exact B_f.mpr (Or.inr hhalf)
    · right
      obtain ⟨hk', hD', hD2'⟩ := B_stop hc
      refine ⟨hk', ?_, ?_, ?_⟩
      · rw [hD2']; linarith
      · rw [hD', hD2']; linarith
      · rw [hD']; linarith
  · intro hrk hhalf hsmall
    by_contra hne
    have hc : ¬ (k + 1 ≤ r ∨
        (df_loop_body E q ltb ((1 - q) ^ a) r lower_tail s).found_mid_point = false ∨
        g ≥ (df_loop_body E q ltb ((1 - q) ^ a) r lower_tail s).m.m_log_predictive_df) := by
      rintro (h | h | h)
      · omega
      · rw [B_f.mpr (Or.inr hhalf)] at h
        exact Bool.noConfusion h
      · have h1 := A_gle (by omega)
        have h2 := hpd' (by omega)
        linarith
    exact hne (B_stop hc).1

/-- A stopped loop returns its state, whatever the fuel. -/
theorem df_loop_stopped (E : Lib α) (q ltb e : α) (r : Nat) (lower_tail : Bool) (s : DfLoop α)
    (h : s.keep_looping = false) (fuel : Nat) :
    df_loop E q ltb e r lower_tail fuel s = some s := by
  cases fuel <;> simp [df_loop, h]

/-- A running loop makes one pass. -/
theorem df_loop_step (E : Lib α) (q ltb e : α) (r : Nat) (lower_tail : Bool) (s : DfLoop α)
    (h : s.keep_looping = true) (fuel : Nat) :
    df_loop E q ltb e r lower_tail (fuel + 1) s
      = df_loop E q ltb e r lower_tail fuel (df_loop_body E q ltb e r lower_tail s) := by
  simp [df_loop, h]

/-- Whatever the fuel, a loop that starts under the invariant can only end with a valid pair of
two-sided probabilities. -/
theorem df_loop_valid (E : Lib ℝ) (hE : E.Exact) {a q : ℝ} (ha : 0 < a) (hq0 : 0 < q)
    (hq1 : q < 1) (lc mt ltb : ℝ) (hlc : Real.exp lc = (1 - q) ^ a) (r : Nat)
    (lower_tail : Bool) (fuel : Nat) :
    ∀ (k : Nat) (s s' : DfLoop ℝ), df_running q a lc ((1 - q) ^ a) mt r k s →
      df_loop E q ltb ((1 - q) ^ a) r lower_tail fuel s = some s' →
      0 ≤ s'.m.m_predictive_two_sided_df2 ∧
      s'.m.m_predictive_two_sided_df2 ≤ s'.m.m_predictive_two_sided_df ∧
      s'.m.m_predictive_two_sided_df ≤ 1 := by
  induction fuel with
  | zero =>
    intro k s s' hrun hs
    have hk : s.keep_looping = true := hrun.2.1
    simp [df_loop, hk] at hs
  | succ fuel ih =>
    intro k s s' hrun hs
    rw [df_loop_step E q ltb _ r lower_tail s hrun.2.1] at hs
    rcases (df_pass E hE ha hq0 hq1 lc mt ltb hlc r k lower_tail s hrun).1 with
      ⟨-, hnext⟩ | ⟨hstop, hb⟩
    · exact ih (k + 1) _ s' hnext hs
    · rw [df_loop_stopped E q ltb _ r lower_tail _ hstop] at hs
      cases hs
      exact hb

/-- A loop that starts under the invariant `n` passes before an index at which it must stop
ends within `n + 1` passes. -/
theorem df_loop_ends (E : Lib ℝ) (hE : E.Exact) {a q : ℝ} (ha : 0 < a) (hq0 : 0 < q)
    (hq1 : q < 1) (lc mt ltb : ℝ) (hlc : Real.exp lc = (1 - q) ^ a) (r : Nat)
    (lower_tail : Bool) (K : Nat) (hrK : r < K)
    (hhalf : 1 / 2 ≤ (1 - q) ^ a * nb_mass_below 1 q a (K + 1))
    (hsmall : 1 - (1 - q) ^ a * nb_mass_below 1 q a K
        < min (1 - (1 - q) ^ a * nb_mass_below 1 q a r)
            ((1 - q) ^ a * nb_mass_below 1 q a (r + 1)))
    (n : Nat) :
    ∀ (k : Nat) (s : DfLoop ℝ), df_running q a lc ((1 - q) ^ a) mt r k s → k + n = K →
      ∃ s', df_loop E q ltb ((1 - q) ^ a) r lower_tail (n + 1) s = some s' := by
  induction n with
  | zero =>
    intro k s hrun hk
    have hkK : k = K := by omega
    subst hkK
    rw [df_loop_step E q ltb _ r lower_tail s hrun.2.1]
    have hstop := (df_pass E hE ha hq0 hq1 lc mt ltb hlc r k lower_tail s hrun).2
      hrK hhalf hsmall
    exact ⟨_, df_loop_stopped E q ltb _ r lower_tail _ hstop 0⟩
  | succ n ih =>
    intro k s hrun hk
    rw [df_loop_step E q ltb _ r lower_tail s hrun.2.1]
    rcases (df_pass E hE ha hq0 hq1 lc mt ltb hlc r k lower_tail s hrun).1 with
      ⟨-, hnext⟩ | ⟨hstop, -⟩
    · exact ih (k + 1) _ hnext (by omega)
    · exact ⟨_, df_loop_stopped E q ltb _ r lower_tail _ hstop (n + 1)⟩

/-- Past every observed count there is an index at which the loop must stop. -/
theorem exists_stop_index {a q : ℝ} (ha : 0 < a) (hq0 : 0 < q) (hq1 : q < 1) (r : Nat) :
    ∃ K, r < K ∧ 1 / 2 ≤ (1 - q) ^ a * nb_mass_below 1 q a (K + 1) ∧
      1 - (1 - q) ^ a * nb_mass_below 1 q a K
        < min (1 - (1 - q) ^ a * nb_mass_below 1 q a r)
            ((1 - q) ^ a * nb_mass_below 1 q a (r + 1)) := by
  have he0 : 0 < (1 - q) ^ a := Real.rpow_pos_of_pos (by linarith) _
  have hscale : ∀ n, (1 - q) ^ a * nb_mass_below 1 q a n
      = nb_mass_below ((1 - q) ^ a) q a n := fun n => (nb_mass_below_scale_one _ _ _ n).symm
  have hG : 0 < min (1 - (1 - q) ^ a * nb_mass_below 1 q a r)
      ((1 - q) ^ a * nb_mass_below 1 q a (r + 1)) := by
    apply lt_min
    · rw [hscale]
      linarith [nb_mass_below_lt_one ha hq0 hq1 r]
    · rw [hscale, nb_mass_below_succ]
      have h0 : nb_mass_below ((1 - q) ^ a) q a 0 = 0 := by simp [nb_mass_below]
      have h1 := nb_mass_below_mono he0 hq0 ha (Nat.zero_le r)
      rw [h0] at h1
      have h2 := nb_pmf_pos he0 hq0 ha r
      linarith
  have hlim := nb_mass_below_tendsto_one ha hq0 hq1
  have hev : ∀ᶠ n in atTop,
      max (1 / 2) (1 - min (1 - (1 - q) ^ a * nb_mass_below 1 q a r)
        ((1 - q) ^ a * nb_mass_below 1 q a (r + 1))) < nb_mass_below ((1 - q) ^ a) q a n :=
    hlim.eventually (lt_mem_nhds (max_lt (by norm_num) (by linarith)))
  obtain ⟨N0, hN0⟩ := Filter.eventually_atTop.mp hev
  refine ⟨max N0 (r + 1), lt_of_lt_of_le (Nat.lt_succ_self r) (le_max_right _ _), ?_, ?_⟩
  · have h := hN0 (max N0 (r + 1) + 1) (le_trans (le_max_left _ _) (Nat.le_succ _))
    rw [hscale]
    exact le_of_lt (lt_of_le_of_lt (le_max_left _ _) h)
  · have h := hN0 (max N0 (r + 1)) (le_max_left _ _)
    rw [hscale (max N0 (r + 1))]
    have h2 := lt_of_le_of_lt (le_max_right _ _) h
    linarith

/-- The loop is entered under the invariant. -/
theorem df_init_running (E : Lib ℝ) (m : pp_model ℝ) (t : ℝ) (r : Nat) :
    df_running (t / (m.m_beta_star + t)) m.m_alpha_star
      (m.m_alpha_star * (E.log m.m_beta_star - E.log (m.m_beta_star + t)))
      (E.exp (m.m_alpha_star * (E.log m.m_beta_star - E.log (m.m_beta_star + t))))
      m.m_minimum_tail r 0 (df_init E m t) := by
  unfold df_running df_init
  refine ⟨rfl, rfl, rfl, rfl, rfl, ?_, ?_, le_rfl, le_rfl, ?_, ?_, ?_, ?_⟩
  · simp [nb_pmf]
  · show (1 : ℝ) = nb_mass_below 1 _ _ (max 0 1)
    rw [max_eq_right (Nat.zero_le 1), nb_mass_below_succ]
    simp [nb_mass_below, nb_pmf]
  · simp [nb_mass_below]
  · intro _
    simp
  · intro h
    omega
  · intro h
    omega

/-- For `t > 0` and exact elementary functions, `calculate_log_posterior_predictive_df` is its
loop, entered at `df_init` with `e_log_pdf_const = (1 - t/(beta_star+t))^alpha_star`, followed by
the staging of the one-sided pair. -/
theorem calculate_log_posterior_predictive_df_eq (E : Lib ℝ) (hE : E.Exact) (m : pp_model ℝ)
    (t : ℝ) (r : Nat) (lower_tail : Bool) (hb : 0 < m.m_beta_star) (ht : 0 < t) (fuel : Nat) :
    calculate_log_posterior_predictive_df E m t r lower_tail fuel
      = (df_loop E (t / (m.m_beta_star + t)) (E.log t - E.log (m.m_beta_star + t))
          ((1 - t / (m.m_beta_star + t)) ^ m.m_alpha_star) r lower_tail fuel
          (df_init E m t)).map (df_finish E) := by
  have he : E.exp (df_init E m t).m.m_log_pdf_const
      = (1 - t / (m.m_beta_star + t)) ^ m.m_alpha_star := by
    show E.exp (m.m_alpha_star * (E.log m.m_beta_star - E.log (m.m_beta_star + t))) = _
    rw [hE.1, hE.2.1]
    exact exp_log_pdf_const hb ht
  unfold calculate_log_posterior_predictive_df
  rw [if_neg (not_le.mpr ht)]
  dsimp only
  rw [he]

/-- In exact arithmetic (a library whose `log` and `exp` are the real ones), for
`alpha_star, beta_star, t > 0`, every count `r`, either tail flag and every value staged in
`m_minimum_tail` (and in the other members), the loop of
`calculate_log_posterior_predictive_df(t, r, lower_tail)` ends without taking the guard of
line 302, and the two-sided probabilities it leaves form a valid pair:
`0 <= m_predictive_two_sided_df2 <= m_predictive_two_sided_df <= 1`. -/
theorem two_sided_pair_valid (E : Lib ℝ) (hE : E.Exact) (m : pp_model ℝ) (t : ℝ) (r : Nat)
    (lower_tail : Bool) (ha : 0 < m.m_alpha_star) (hb : 0 < m.m_beta_star) (ht : 0 < t) :
    (∃ fuel res, calculate_log_posterior_predictive_df E m t r lower_tail fuel = some res) ∧
    ∀ fuel res, calculate_log_posterior_predictive_df E m t r lower_tail fuel = some res →
      0 ≤ res.2.m_predictive_two_sided_df2 ∧
      res.2.m_predictive_two_sided_df2 ≤ res.2.m_predictive_two_sided_df ∧
      res.2.m_predictive_two_sided_df ≤ 1 := by
  obtain ⟨hq0, hq1⟩ := ratio_pos_lt_one hb ht
  have hlc : Real.exp (m.m_alpha_star * (E.log m.m_beta_star - E.log (m.m_beta_star + t)))
      = (1 - t / (m.m_beta_star + t)) ^ m.m_alpha_star := by
    rw [hE.1]
    exact exp_log_pdf_const hb ht
  have hrun := df_init_running E m t r
  rw [hE.2.1, hlc] at hrun
  constructor
  · obtain ⟨K, hrK, hhalf, hsmall⟩ := exists_stop_index ha hq0 hq1 r
    obtain ⟨s', hs'⟩ := df_loop_ends E hE ha hq0 hq1 _ m.m_minimum_tail
      (E.log t - E.log (m.m_beta_star + t)) hlc r lower_tail K hrK hhalf hsmall K 0
      (df_init E m t) hrun (by omega)
    refine ⟨K + 1, df_finish E s', ?_⟩
    rw [calculate_log_posterior_predictive_df_eq E hE m t r lower_tail hb ht, hs']
    rfl
  · intro fuel res hres
    rw [calculate_log_posterior_predictive_df_eq E hE m t r lower_tail hb ht] at hres
    obtain ⟨s', hs', rfl⟩ := Option.map_eq_some'.mp hres
    exact df_loop_valid E hE ha hq0 hq1 _ m.m_minimum_tail
      (E.log t - E.log (m.m_beta_star + t)) hlc r lower_tail fuel 0 (df_init E m t) s' hrun hs'

/-- The exact-arithmetic pair at `alpha_star = beta_star = t = 1`, the count `1`, the lower
tail and a staged minimum tail of `7`. -/
theorem two_sided_pair_valid_witness :
    (∃ fuel res, calculate_log_posterior_predictive_df
        (Lib.ofFns Real.log Real.exp (Real.log ∘ Real.Gamma))
        { (pp_model.blank : pp_model ℝ) with
          m_alpha_star := 1, m_beta_star := 1, m_minimum_tail := 7 } 1 1 true fuel
        = some res) ∧
    ∀ fuel res, calculate_log_posterior_predictive_df
        (Lib.ofFns Real.log Real.exp (Real.log ∘ Real.Gamma))
        { (pp_model.blank : pp_model ℝ) with
          m_alpha_star := 1, m_beta_star := 1, m_minimum_tail := 7 } 1 1 true fuel
        = some res →
      0 ≤ res.2.m_predictive_two_sided_df2 ∧
      res.2.m_predictive_two_sided_df2 ≤ res.2.m_predictive_two_sided_df ∧
      res.2.m_predictive_two_sided_df ≤ 1 :=
  two_sided_pair_valid (Lib.ofFns Real.log Real.exp (Real.log ∘ Real.Gamma)) ⟨rfl, rfl, rfl⟩
    { (pp_model.blank : pp_model ℝ) with
      m_alpha_star := 1, m_beta_star := 1, m_minimum_tail := 7 } 1 1 true
    one_pos one_pos one_pos

/-! ### Windows without duration -/

/-- C11: for every forward window duration `t <= 0`,
`calculate_log_posterior_predictive_pdf(t, r)` returns the log-probability `0` when `r == 0`
and the finite value `-DBL_MAX` when `r > 0`, and leaves the object as it was. -/
theorem predictive_pdf_empty_window (E : Lib α) (m : pp_model α) (t : α) (r : Nat)
    (ht : t ≤ 0) :
    (r = 0 → (calculate_log_posterior_predictive_pdf E m t r).1 = 0) ∧
    (0 < r → (calculate_log_posterior_predictive_pdf E m t r).1 = -E.DBL_MAX) ∧
    (calculate_log_posterior_predictive_pdf E m t r).2 = m := by
  unfold calculate_log_posterior_predictive_pdf
  rw [if_pos ht]
  refine ⟨fun h => by simp [h], fun h => ?_, rfl⟩
  have hr : r ≠ 0 := by omega
  simp [hr]

/-- C11 at `t = 0`: the count `0` gives `0`, whose exponential is the probability `1`, and the
count `3` gives `-DBL_MAX = -(2^53 - 1) * 2^971`. -/
theorem predictive_pdf_empty_window_witness :
    (calculate_log_posterior_predictive_pdf (Lib.ofFns Real.log Real.exp (Real.log ∘ Real.Gamma))
      { (pp_model.blank : pp_model ℝ) with m_alpha_star := 1, m_beta_star := 1 } 0 0).1 = 0 ∧
    Real.exp 0 = 1 ∧
    (calculate_log_posterior_predictive_pdf (Lib.ofFns Real.log Real.exp (Real.log ∘ Real.Gamma))
      { (pp_model.blank : pp_model ℝ) with m_alpha_star := 1, m_beta_star := 1 } 0 3).1
      = -((2 ^ 53 - 1) * 2 ^ 971) :=
  ⟨(predictive_pdf_empty_window _ _ 0 0 le_rfl).1 rfl, Real.exp_zero,
    (predictive_pdf_empty_window _ _ 0 3 le_rfl).2.1 (by norm_num)⟩

/-- The value of `calculate_log_posterior_predictive_df` for a window without duration. -/
theorem predictive_df_empty_window (E : Lib α) (m : pp_model α) (t : α) (r : Nat)
    (lower_tail : Bool) (fuel : Nat) (ht : t ≤ 0) :
    calculate_log_posterior_predictive_df E m t r lower_tail fuel = some (-E.LOG_TWO, m) := by
  unfold calculate_log_posterior_predictive_df
  rw [if_pos ht]

/-- C12, as written, fails: for `t = 0` and `r = 0`,
`calculate_log_posterior_predictive_df` returns `-log 2`, the logarithm of the probability
`1/2`, not of the probability `1`. -/
theorem predictive_df_empty_window_counterexample :
    calculate_log_posterior_predictive_df (Lib.ofFns Real.log Real.exp (Real.log ∘ Real.Gamma))
      { (pp_model.blank : pp_model ℝ) with m_alpha_star := 1, m_beta_star := 1 } 0 0 true 0
      = some (-Real.log 2,
          { (pp_model.blank : pp_model ℝ) with m_alpha_star := 1, m_beta_star := 1 }) ∧
    Real.exp (-Real.log 2) = 1 / 2 ∧ Real.exp (-Real.log 2) ≠ 1 := by
  have h : Real.exp (-Real.log 2) = 1 / 2 := by
    rw [Real.exp_neg, Real.exp_log (by norm_num)]
    norm_num
  refine ⟨predictive_df_empty_window _ _ 0 0 true 0 le_rfl, h, ?_⟩
  rw [h]
  norm_num

/-- C12, amended: for every forward window duration `t <= 0`,
`calculate_log_posterior_predictive_df(t, r, lower_tail)` returns `-LOG_TWO`, the logarithm of
the probability one half, whatever `r` and `lower_tail`, and leaves the object as it was;
likewise the event-count step whose window has no duration emits `-LOG_TWO` and is marked not
observable. -/
theorem empty_window_one_half (E : Lib α) (m : pp_model α) (t increment : α) (r : Nat)
    (lower_tail two_sided increment_parameters : Bool) (fuel : Nat)
    (ht : t ≤ 0) (hinc : event_count_t m increment ≤ 0) :
    calculate_log_posterior_predictive_df E m t r lower_tail fuel = some (-E.LOG_TWO, m) ∧
    ∃ s, calculate_event_count_log_predictive_df E m increment lower_tail two_sided
        increment_parameters fuel = some (-E.LOG_TWO, s) ∧
      s.m_currently_observable = false := by
  refine ⟨predictive_df_empty_window E m t r lower_tail fuel ht, ?_⟩
  unfold calculate_event_count_log_predictive_df
  simp only [gt_iff_lt, if_neg (not_lt.mpr hinc)]
  exact ⟨_, rfl, rfl⟩

/-- C12, amended, at `t = 0` and the increment `0` under linear time. -/
theorem empty_window_one_half_witness :
    calculate_log_posterior_predictive_df (Lib.ofFns Real.log Real.exp (Real.log ∘ Real.Gamma))
      { (pp_model.blank : pp_model ℝ) with m_alpha_star := 1, m_beta_star := 1 } 0 2 false 0
      = some (-Real.log 2,
          { (pp_model.blank : pp_model ℝ) with m_alpha_star := 1, m_beta_star := 1 }) ∧
    ∃ s, calculate_event_count_log_predictive_df
        (Lib.ofFns Real.log Real.exp (Real.log ∘ Real.Gamma))
        { (pp_model.blank : pp_model ℝ) with m_alpha_star := 1, m_beta_star := 1 } 0
        false false true 0 = some (-Real.log 2, s) ∧
      s.m_currently_observable = false :=
  empty_window_one_half (Lib.ofFns Real.log Real.exp (Real.log ∘ Real.Gamma))
    { (pp_model.blank : pp_model ℝ) with m_alpha_star := 1, m_beta_star := 1 } 0 0 2
    false false true 0 le_rfl (by simp [event_count_t, pp_model.blank])

/-! ### Regression mode -/

/-- The first pass of the loop of lines 55-56 reads `m_cum_intensity_multipliers[i-1]` at
`i = 0`, that is at the index `2^64 - 1`, outside every array. -/
theorem cum_multipliers_body_zero (im cum : List α) (hlen : cum.length < ULL) :
    cum_multipliers_body im cum 0 = .error (Fault.out_of_bounds (ULL - 1)) := by
  have hu : usub 0 1 = ULL - 1 := by
    unfold usub ULL
    norm_num
  have hget : cum.get? (ULL - 1) = none := by
    apply List.get?_eq_none.mpr
    omega
  unfold cum_multipliers_body array_read
  rw [hu, hget]

/-- On a non-empty multiplier array the precomputation of lines 53-56 stops at the first pass
of its loop, on the read before the start of the new array. -/
theorem cum_multipliers_fault (im fresh : List α) (n : Nat) (him : im ≠ [])
    (hfresh : fresh.length = n) (hn : 0 < n) (hrange : n < ULL) :
    cum_multipliers im fresh n = .error (Fault.out_of_bounds (ULL - 1)) := by
  obtain ⟨x0, rest, rfl⟩ := List.exists_cons_of_ne_nil him
  obtain ⟨k, rfl⟩ : ∃ k, n = k + 1 := ⟨n - 1, by omega⟩
  unfold cum_multipliers
  have hread : array_read (x0 :: rest) 0 = .ok x0 := rfl
  have hwrite : array_write fresh 0 x0 = .ok (fresh.set 0 x0) := by
    unfold array_write
    rw [if_pos (by omega)]
  rw [hread]
  dsimp only
  rw [hwrite]
  dsimp only
  rw [List.range_succ_eq_map, List.foldlM_cons,
    cum_multipliers_body_zero _ _ (by rw [List.length_set]; omega)]
  rfl

/-- C15, the failing run: for the multipliers `{1}` and one bin the constructor of lines 47-58
does not build the cumulative array `{1}`; the first pass of its loop reads
`m_cum_intensity_multipliers[-1]`. Claim C16 fails by the same defect. -/
theorem new_regression_one_bin :
    ∃ s, pp_model.new_regression (Lib.ofFns Real.log Real.exp (Real.log ∘ Real.Gamma))
        (pp_model.blank : pp_model ℝ) 1 1 1 (some [1]) [0]
      = .error (Fault.out_of_bounds 18446744073709551615, s) := by
  unfold pp_model.new_regression
  dsimp only
  rw [cum_multipliers_fault [1] [0] 1 (by simp) rfl (by norm_num) (by norm_num [ULL])]
  exact ⟨_, rfl⟩

/-- C16, the failing run: for the multipliers `{2, 3}` and two bins the precomputation of lines
53-56 reads the index `2^64 - 1`, the element before the start of the array, at `i = 0`: the
loop starts at `0`, so the assignment of line 54 does not guard the first index. Claim C15
fails by the same defect. -/
theorem cum_multipliers_two_bins :
    cum_multipliers ([2, 3] : List ℚ) [0, 0] 2
      = .error (Fault.out_of_bounds 18446744073709551615) ∧
    ¬ (18446744073709551615 < 2) := by
  refine ⟨?_, by norm_num⟩
  rw [cum_multipliers_fault [2, 3] [0, 0] 2 (by simp) rfl (by norm_num) (by norm_num [ULL])]
  rfl

theorem cum_multiplier_at_ok (cum : List α) (k : Nat) (hk : k ≤ cum.length) :
    cum_multiplier_at cum k = .ok (if k > 0 then cum.getD (k - 1) 0 else 0) := by
  unfold cum_multiplier_at
  by_cases h : k > 0
  · rw [if_pos h, if_pos h]
    unfold array_read
    have hlt : k - 1 < cum.length := by omega
    rw [List.getD_eq_getElem _ _ hlt, List.get?_eq_getElem?, List.getElem?_eq_getElem hlt]
  · rw [if_neg h, if_neg h]

/-- C17: for indices `i1 <= i2` within the bin count,
`poisson_regression_log_likelihood_interval(i1, i2)` returns `0` when `i1 == i2` and otherwise
`log_likelihood_length_and_count(d, c)`, where `c` is the difference of the cumulative counts
at `i2` and `i1` (the cumulative value at index `0` taken as `0`) and `d` is the same difference
of the cumulative multipliers when they are configured, and `i2 - i1` when they are not. -/
theorem poisson_regression_interval (E : Lib α) (m : pp_model α) (i1 i2 : Nat)
    (hle : i1 ≤ i2) (hrange : i2 < ULL)
    (hbins : ∀ cum, m.m_cum_intensity_multipliers = some cum → i2 ≤ cum.length)
    (hmono : cum_count_at m i1 ≤ cum_count_at m i2) (hcount : cum_count_at m i2 < ULL) :
    ∃ s, poisson_regression_log_likelihood_interval E m i1 i2
      = .ok (
          (if i1 = i2 then 0
           else log_likelihood_length_and_count E m
             (match m.m_cum_intensity_multipliers with
              | none => ((i2 - i1 : Nat) : α)
              | some cum =>
                (if i2 > 0 then cum.getD (i2 - 1) 0 else 0)
                  - (if i1 > 0 then cum.getD (i1 - 1) 0 else 0))
             (cum_count_at m i2 - cum_count_at m i1)), s) := by
  unfold poisson_regression_log_likelihood_interval
  by_cases heq : i1 = i2
  · rw [if_pos heq, if_pos heq]
    exact ⟨m, rfl⟩
  · rw [if_neg heq, if_neg heq]
    cases hm : m.m_cum_intensity_multipliers with
    | none =>
      dsimp only
      refine ⟨_, congrArg Except.ok (Prod.ext ?_ rfl)⟩
      show log_likelihood_length_and_count E _ ((usub i2 i1 : Nat) : α)
        (usub (cum_count_at m i2) (cum_count_at m i1)) = _
      rw [usub_of_le hle hrange, usub_of_le hmono hcount]
      rfl
    | some cum =>
      have h2 := hbins cum hm
      dsimp only
      rw [cum_multiplier_at_ok cum i2 h2, cum_multiplier_at_ok cum i1 (le_trans hle h2)]
      dsimp only
      refine ⟨_, congrArg Except.ok (Prod.ext ?_ rfl)⟩
      show log_likelihood_length_and_count E _ _
        (usub (cum_count_at m i2) (cum_count_at m i1)) = _
      rw [usub_of_le hmono hcount]
      rfl

/-- C17 on three bins with the cumulative counts `2, 3, 7` and no multipliers: the interval
from `1` to `3` has the length `2` and the count `5`. -/
theorem poisson_regression_interval_witness :
    ∃ s, poisson_regression_log_likelihood_interval
        (Lib.ofFns Real.log Real.exp (Real.log ∘ Real.Gamma))
        { (pp_model.blank : pp_model ℝ) with
          m_alpha := 1, m_beta := 1, m_poisson_regression := true,
          m_cum_counts := fun k => [2, 3, 7].getD k 0 } 1 3
      = .ok (log_likelihood_length_and_count
          (Lib.ofFns Real.log Real.exp (Real.log ∘ Real.Gamma))
          { (pp_model.blank : pp_model ℝ) with
            m_alpha := 1, m_beta := 1, m_poisson_regression := true,
            m_cum_counts := fun k => [2, 3, 7].getD k 0 } 2 5, s) := by
  obtain ⟨s, hs⟩ := poisson_regression_interval
    (Lib.ofFns Real.log Real.exp (Real.log ∘ Real.Gamma))
    { (pp_model.blank : pp_model ℝ) with
      m_alpha := 1, m_beta := 1, m_poisson_regression := true,
      m_cum_counts := fun k => [2, 3, 7].getD k 0 } 1 3
    (by norm_num) (by norm_num [ULL])
    (by intro cum h; simp [pp_model.blank] at h)
    (by simp [cum_count_at, pp_model.blank]) (by simp [cum_count_at, pp_model.blank, ULL])
  refine ⟨s, ?_⟩
  rw [hs]
  simp [cum_count_at, pp_model.blank]

/-! ### What the predictive calls leave untouched -/

theorem same_scan_refl {β : Type} (m : pp_model β) : same_scan m m :=
  ⟨rfl, rfl, rfl, rfl, rfl, rfl, rfl, rfl, rfl, rfl, rfl, rfl⟩

theorem same_scan_trans {β : Type} {m1 m2 m3 : pp_model β} (h12 : same_scan m1 m2)
    (h23 : same_scan m2 m3) : same_scan m1 m3 := by
  obtain ⟨a1, a2, a3, a4, a5, a6, a7, a8, a9, a10, a11, a12⟩ := h12
  obtain ⟨b1, b2, b3, b4, b5, b6, b7, b8, b9, b10, b11, b12⟩ := h23
  exact ⟨b1.trans a1, b2.trans a2, b3.trans a3, b4.trans a4, b5.trans a5, b6.trans a6,
    b7.trans a7, b8.trans a8, b9.trans a9, b10.trans a10, b11.trans a11, b12.trans a12⟩

theorem pdf_loop_body_same_scan (E : Lib α) (q ltb e : α) (r : Nat) (s : PdfLoop α) (i : Nat) :
    same_scan s.m (pdf_loop_body E q ltb e r s i).m := by
  unfold pdf_loop_body
  dsimp only
  split_ifs <;> exact same_scan_refl s.m

theorem pdf_loop_same_scan (E : Lib α) (q ltb e : α) (r : Nat) (l : List Nat) :
    ∀ s : PdfLoop α, same_scan s.m (l.foldl (pdf_loop_body E q ltb e r) s).m := by
  induction l with
  | nil => exact fun s => same_scan_refl s.m
  | cons i l ih =>
    intro s
    exact same_scan_trans (pdf_loop_body_same_scan E q ltb e r s i) (ih _)

/-- `calculate_log_posterior_predictive_pdf` leaves the scan untouched. -/
theorem calculate_log_posterior_predictive_pdf_same_scan (E : Lib α) (m : pp_model α) (t : α)
    (r : Nat) : same_scan m (calculate_log_posterior_predictive_pdf E m t r).2 := by
  unfold calculate_log_posterior_predictive_pdf
  by_cases ht : t ≤ 0
  · rw [if_pos ht]
    exact same_scan_refl m
  · rw [if_neg ht]
    dsimp only
    exact pdf_loop_same_scan E _ _ _ r _ _

theorem df_loop_body_same_scan (E : Lib α) (q ltb e : α) (r : Nat) (lower_tail : Bool)
    (s : DfLoop α) : same_scan s.m (df_loop_body E q ltb e r lower_tail s).m := by
  have h1 : same_scan s.m (df_advance E q ltb e s).m := by
    unfold df_advance
    dsimp only
    split_ifs <;> exact same_scan_refl s.m
  have h2 : ∀ s : DfLoop α, same_scan s.m (df_midpoint E s).m := by
    intro s
    unfold df_midpoint
    split_ifs <;> exact same_scan_refl s.m
  have h3 : ∀ s : DfLoop α, same_scan s.m (df_two_sided e r s).m := by
    intro s
    unfold df_two_sided
    dsimp only
    split_ifs <;> exact same_scan_refl s.m
  have h4 : ∀ s : DfLoop α, same_scan s.m (df_one_sided E r lower_tail s).m := by
    intro s
    unfold df_one_sided
    dsimp only
    split_ifs <;> exact same_scan_refl s.m
  have h5 : ∀ s : DfLoop α, same_scan s.m (df_continue r s).m := by
    intro s
    unfold df_continue
    dsimp only
    split_ifs <;> exact same_scan_refl s.m
  unfold df_loop_body
  exact same_scan_trans h1 (same_scan_trans (h2 _) (same_scan_trans (h3 _)
    (same_scan_trans (h4 _) (h5 _))))

theorem df_loop_same_scan (E : Lib α) (q ltb e : α) (r : Nat) (lower_tail : Bool)
    (fuel : Nat) : ∀ s s' : DfLoop α,
      df_loop E q ltb e r lower_tail fuel s = some s' → same_scan s.m s'.m := by
  induction fuel with
  | zero =>
    intro s s' h
    unfold df_loop at h
    split_ifs at h
    cases h
    exact same_scan_refl _
  | succ fuel ih =>
    intro s s' h
    unfold df_loop at h
    split_ifs at h
    · exact same_scan_trans (df_loop_body_same_scan E q ltb e r lower_tail s) (ih _ _ h)
    · cases h
      exact same_scan_refl _

/-- `calculate_log_posterior_predictive_df` leaves the scan untouched. -/
theorem calculate_log_posterior_predictive_df_same_scan (E : Lib α) (m : pp_model α) (t : α)
    (r : Nat) (lower_tail : Bool) (fuel : Nat) (res : α × pp_model α)
    (h : calculate_log_posterior_predictive_df E m t r lower_tail fuel = some res) :
    same_scan m res.2 := by
  unfold calculate_log_posterior_predictive_df at h
  by_cases ht : t ≤ 0
  · rw [if_pos ht] at h
    cases h
    exact same_scan_refl m
  · rw [if_neg ht] at h
    obtain ⟨s', hs', rfl⟩ := Option.map_eq_some'.mp h
    exact df_loop_same_scan E _ _ _ r lower_tail fuel _ _ hs'

/-- For `alpha_star, beta_star, t > 0` and exact elementary functions the loop of
`calculate_log_posterior_predictive_df` ends. -/
theorem calculate_log_posterior_predictive_df_returns (E : Lib ℝ) (hE : E.Exact)
    (m : pp_model ℝ) (t : ℝ) (r : Nat) (lower_tail : Bool)
    (ha : 0 < m.m_alpha_star) (hb : 0 < m.m_beta_star) (ht : 0 < t) :
    ∃ fuel res, calculate_log_posterior_predictive_df E m t r lower_tail fuel = some res := by
  obtain ⟨hq0, hq1⟩ := ratio_pos_lt_one hb ht
  have hlc : Real.exp (m.m_alpha_star * (E.log m.m_beta_star - E.log (m.m_beta_star + t)))
      = (1 - t / (m.m_beta_star + t)) ^ m.m_alpha_star := by
    rw [hE.1]
    exact exp_log_pdf_const hb ht
  have hrun := df_init_running E m t r
  rw [hE.2.1, hlc] at hrun
  obtain ⟨K, hrK, hhalf, hsmall⟩ := exists_stop_index ha hq0 hq1 r
  obtain ⟨s', hs'⟩ := df_loop_ends E hE ha hq0 hq1 _ m.m_minimum_tail
    (E.log t - E.log (m.m_beta_star + t)) hlc r lower_tail K hrK hhalf hsmall K 0
    (df_init E m t) hrun (by omega)
  refine ⟨K + 1, df_finish E s', ?_⟩
  rw [calculate_log_posterior_predictive_df_eq E hE m t r lower_tail hb ht, hs']
  rfl

/-- The event-count step, once its predictive call has returned `(v, m2)` (or has been skipped
with the placeholder): the scan of the object it returns. -/
theorem event_count_step_spec (E : Lib α) (m : pp_model α) (increment : α)
    (lower_tail two_sided increment_parameters : Bool) (fuel : Nat) (v : α) (s : pp_model α)
    (h : calculate_event_count_log_predictive_df E m increment lower_tail two_sided
      increment_parameters fuel = some (v, s)) :
    (s.m_currently_observable = true ↔ 0 < event_count_t m increment) ∧
    s.m_r = (m.m_r + event_count_r E m increment) % ULL ∧
    s.m_alpha_star = m.m_alpha_star + (event_count_r E m increment : α) ∧
    s.m_t = m.m_t + event_count_t m increment ∧
    s.m_beta_star = m.m_beta_star + event_count_t m increment ∧
    s.m_current_data_index = s.m_r ∧
    s.m_current_t = m.m_current_t ∧ s.m_data_cont = m.m_data_cont ∧
    s.m_pp_time_scale = m.m_pp_time_scale ∧ s.m_alpha = m.m_alpha ∧ s.m_beta = m.m_beta ∧
    s.m_p_value_alternative_style = m.m_p_value_alternative_style ∧
    v = s.m_log_predictive_df := by
  unfold calculate_event_count_log_predictive_df at h
  dsimp only at h
  by_cases ht : event_count_t m increment > 0
  · rw [if_pos ht] at h
    have h1 : same_scan m (if two_sided = true
        then (calculate_log_posterior_predictive_pdf E m (event_count_t m increment)
          (event_count_r E m increment)).2 else m) := by
      split_ifs
      · exact calculate_log_posterior_predictive_pdf_same_scan E m _ _
      · exact same_scan_refl m
    cases hdf : calculate_log_posterior_predictive_df E
        (if two_sided = true
          then (calculate_log_posterior_predictive_pdf E m (event_count_t m increment)
            (event_count_r E m increment)).2 else m)
        (event_count_t m increment) (event_count_r E m increment) lower_tail fuel with
    | none =>
      rw [hdf] at h
      cases h
    | some res =>
      rw [hdf] at h
      have h2 := calculate_log_posterior_predictive_df_same_scan E _ _ _ _ _ res hdf
      obtain ⟨c1, c2, c3, c4, c5, c6, c7, c8, c9, c10, c11, -⟩ := same_scan_trans h1 h2
      obtain ⟨v0, m2⟩ := res
      dsimp only at h c1 c2 c3 c4 c5 c6 c7 c8 c9 c10 c11
      cases two_sided
      · simp only [Bool.false_eq_true, if_false, Option.some.injEq, Prod.mk.injEq] at h
        obtain ⟨rfl, rfl⟩ := h
        dsimp only [event_count_update]
        exact ⟨by simp [ht], by rw [c3], by rw [c5], by rw [c4], by rw [c6], rfl, c7, c9, c10,
          c1, c2, c11, rfl⟩
      · simp only [if_true, Option.some.injEq, Prod.mk.injEq] at h
        obtain ⟨rfl, rfl⟩ := h
        dsimp only [event_count_update, event_count_two_sided]
        exact ⟨by simp [ht], by rw [c3], by rw [c5], by rw [c4], by rw [c6], rfl, c7, c9, c10,
          c1, c2, c11, rfl⟩
  · rw [if_neg ht] at h
    simp only [Option.some.injEq, Prod.mk.injEq] at h
    obtain ⟨rfl, rfl⟩ := h
    dsimp only [event_count_update]
    have ht' : ¬ 0 < event_count_t m increment := ht
    exact ⟨by simp [ht'], rfl, rfl, rfl, rfl, rfl, rfl, rfl, rfl, rfl, rfl, rfl, rfl⟩

/-- The event-count step returns as soon as its predictive call does. -/
theorem event_count_step_returns (E : Lib α) (m : pp_model α) (increment : α)
    (lower_tail two_sided increment_parameters : Bool) (fuel : Nat)
    (h : event_count_t m increment ≤ 0 ∨
      ∃ res, calculate_log_posterior_predictive_df E
        (if two_sided = true
          then (calculate_log_posterior_predictive_pdf E m (event_count_t m increment)
            (event_count_r E m increment)).2 else m)
        (event_count_t m increment) (event_count_r E m increment) lower_tail fuel = some res) :
    ∃ v s, calculate_event_count_log_predictive_df E m increment lower_tail two_sided
      increment_parameters fuel = some (v, s) := by
  unfold calculate_event_count_log_predictive_df
  dsimp only
  by_cases ht : event_count_t m increment > 0
  · rw [if_pos ht]
    rcases h with h | ⟨res, hres⟩
    · exact absurd ht (not_lt.mpr h)
    · rw [hres]
      exact ⟨_, _, rfl⟩
  · rw [if_neg ht]
    exact ⟨_, _, rfl⟩

/-- C18: whatever the flags, one event-count step marks the step observable if and only if the
new effective duration `t` of the window is `> 0`, and in both cases it adds the new event
count `r` to the running count (an `unsigned long long`) and to `alpha_star`, adds `t` to the
running duration and to `beta_star`, and sets the current data index to the new running count.
The step returns when `t <= 0`, and when `t > 0` for every valid posterior. -/
theorem event_count_step (E : Lib ℝ) (m : pp_model ℝ) (increment : ℝ)
    (lower_tail two_sided increment_parameters : Bool) :
    (∀ fuel v s, calculate_event_count_log_predictive_df E m increment lower_tail two_sided
        increment_parameters fuel = some (v, s) →
      (s.m_currently_observable = true ↔ 0 < event_count_t m increment) ∧
      s.m_r = (m.m_r + event_count_r E m increment) % ULL ∧
      s.m_alpha_star = m.m_alpha_star + (event_count_r E m increment : ℝ) ∧
      s.m_t = m.m_t + event_count_t m increment ∧
      s.m_beta_star = m.m_beta_star + event_count_t m increment ∧
      s.m_current_data_index = s.m_r) ∧
    (event_count_t m increment ≤ 0 →
      ∀ fuel, ∃ v s, calculate_event_count_log_predictive_df E m increment lower_tail two_sided
        increment_parameters fuel = some (v, s)) ∧
    (E.Exact → 0 < m.m_alpha_star → 0 < m.m_beta_star →
      ∃ fuel v s, calculate_event_count_log_predictive_df E m increment lower_tail two_sided
        increment_parameters fuel = some (v, s)) := by
  refine ⟨?_, ?_, ?_⟩
  · intro fuel v s h
    obtain ⟨h1, h2, h3, h4, h5, h6, -⟩ :=
      event_count_step_spec E m increment lower_tail two_sided increment_parameters fuel v s h
    exact ⟨h1, h2, h3, h4, h5, h6⟩
  · intro ht fuel
    exact event_count_step_returns E m increment lower_tail two_sided increment_parameters fuel
      (Or.inl ht)
  · intro hE ha hb
    by_cases ht : event_count_t m increment ≤ 0
    · exact ⟨0, event_count_step_returns E m increment lower_tail two_sided
        increment_parameters 0 (Or.inl ht)⟩
    · obtain ⟨c1, c2, c3, c4, c5, c6, -⟩ : same_scan m (if two_sided = true
          then (calculate_log_posterior_predictive_pdf E m (event_count_t m increment)
            (event_count_r E m increment)).2 else m) := by
        split_ifs
        · exact calculate_log_posterior_predictive_pdf_same_scan E m _ _
        · exact same_scan_refl m
      obtain ⟨fuel, res, hres⟩ := calculate_log_posterior_predictive_df_returns E hE
        (if two_sided = true
          then (calculate_log_posterior_predictive_pdf E m (event_count_t m increment)
            (event_count_r E m increment)).2 else m)
        (event_count_t m increment) (event_count_r E m increment) lower_tail
        (by rw [c5]; exact ha) (by rw [c6]; exact hb) (not_le.mp ht)
      exact ⟨fuel, event_count_step_returns E m increment lower_tail two_sided
        increment_parameters fuel (Or.inr ⟨res, hres⟩)⟩

/-! ### Waiting times -/

/-- The value of `calculate_log_posterior_predictive_pdf(t, 0)` for `t > 0`: the logarithm of
the probability of no event. -/
theorem predictive_pdf_no_event (E : Lib α) (m : pp_model α) (t : α) (ht : 0 < t) :
    (calculate_log_posterior_predictive_pdf E m t 0).1
      = m.m_alpha_star * (E.log m.m_beta_star - E.log (m.m_beta_star + t)) := by
  rw [(calculate_log_posterior_predictive_pdf_value E m t 0 ht).1]
  simp

/-- A step of the waiting-time mode whose window holds no event and has a residual gap of
duration `t > 0`. -/
theorem waiting_times_residual_only (E : Lib α) (m : pp_model α) (increment : α)
    (lower_tail increment_parameters : Bool)
    (hnone : waiting_i2 E m increment ≤ m.m_current_data_index)
    (ht : 0 < waiting_residual_t m m.m_current_t increment) :
    ∃ s, calculate_waiting_times_log_predictive_df E m increment lower_tail false
        increment_parameters
      = .ok (
          (if lower_tail then
            E.log (1 - E.exp (m.m_alpha_star * (E.log m.m_beta_star
              - E.log (m.m_beta_star + waiting_residual_t m m.m_current_t increment))
              - E.LOG_TWO))
          else
            m.m_alpha_star * (E.log m.m_beta_star
              - E.log (m.m_beta_star + waiting_residual_t m m.m_current_t increment))
              - E.LOG_TWO), s) ∧
      s.m_currently_observable = true := by
  have hn : waiting_i2 E m increment - m.m_current_data_index = 0 := by omega
  have hv := predictive_pdf_no_event E m _ ht
  unfold calculate_waiting_times_log_predictive_df
  dsimp only
  rw [hn]
  dsimp only [waiting_gaps]
  unfold waiting_residual
  dsimp only
  rw [if_pos ht, hv]
  cases lower_tail
  · refine ⟨_, congrArg Except.ok (Prod.ext ?_ rfl), ?_⟩
    · simp [waiting_combine, waiting_lower_tail, ULL]
    · simp [waiting_combine, waiting_lower_tail, ULL]
  · refine ⟨_, congrArg Except.ok (Prod.ext ?_ rfl), ?_⟩
    · simp [waiting_combine, waiting_lower_tail, ULL]
    · simp [waiting_combine, waiting_lower_tail, ULL]

/-- A step of the waiting-time mode whose window holds exactly one event, at its very end: one
complete gap of duration `t > 0` and no residual gap. -/
theorem waiting_times_one_gap (E : Lib α) (m : pp_model α) (increment : α)
    (lower_tail increment_parameters : Bool) (data : List α) (event : α)
    (hdata : m.m_data_cont = some data)
    (hevent : data.get? m.m_current_data_index = some event)
    (hone : waiting_i2 E m increment = m.m_current_data_index + 1)
    (ht : 0 < waiting_gap_t m m.m_current_t event)
    (hres : waiting_residual_t m event increment ≤ 0) :
    ∃ s, calculate_waiting_times_log_predictive_df E m increment lower_tail false
        increment_parameters
      = .ok (
          (if lower_tail then
            E.log (1 - E.exp (m.m_alpha_star * (E.log m.m_beta_star
              - E.log (m.m_beta_star + waiting_gap_t m m.m_current_t event))))
          else
            m.m_alpha_star * (E.log m.m_beta_star
              - E.log (m.m_beta_star + waiting_gap_t m m.m_current_t event))), s) ∧
      s.m_currently_observable = true := by
  have hn : waiting_i2 E m increment - m.m_current_data_index = 1 := by omega
  have hv := predictive_pdf_no_event E m _ ht
  obtain ⟨-, -, -, -, -, -, c7, c8, c9, c10, -, -⟩ :=
    calculate_log_posterior_predictive_pdf_same_scan E m (waiting_gap_t m m.m_current_t event) 0
  unfold calculate_waiting_times_log_predictive_df
  dsimp only
  rw [hn]
  unfold waiting_gaps waiting_gaps
  dsimp only
  rw [if_pos (by omega)]
  unfold waiting_gap
  dsimp only
  rw [hdata]
  dsimp only
  unfold array_read
  rw [hevent]
  dsimp only
  rw [if_neg (not_le.mpr ht), hv]
  generalize (calculate_log_posterior_predictive_pdf E m
    (waiting_gap_t m m.m_current_t event) 0).2 = m1 at c7 c8 c9 c10
  have hres1 : ∀ (m2 : pp_model α), m2.m_current_t = m1.m_current_t →
      m2.m_data_cont = m1.m_data_cont → m2.m_pp_time_scale = m1.m_pp_time_scale →
      waiting_residual_t m2 event increment ≤ 0 := by
    intro m2 e1 e2 e3
    unfold waiting_residual_t at hres ⊢
    rw [e1, e2, e3, c7, c9, c10]
    exact hres
  unfold waiting_residual
  dsimp only
  cases lower_tail
  · rw [if_neg (not_lt.mpr (hres1 _ (by simp [waiting_lower_tail]) (by simp [waiting_lower_tail])
      (by simp [waiting_lower_tail])))]
    refine ⟨_, congrArg Except.ok (Prod.ext ?_ rfl), ?_⟩
    · simp [waiting_combine, waiting_lower_tail, ULL]
    · simp [waiting_combine, waiting_lower_tail, ULL]
  · rw [if_neg (not_lt.mpr (hres1 _ (by simp [waiting_lower_tail]) (by simp [waiting_lower_tail])
      (by simp [waiting_lower_tail])))]
    refine ⟨_, congrArg Except.ok (Prod.ext ?_ rfl), ?_⟩
    · simp [waiting_combine, waiting_lower_tail, ULL]
    · simp [waiting_combine, waiting_lower_tail, ULL]

/-- C14, as written, fails for the residual gap: with `alpha_star = beta_star = 1`, no event in
the window `[0, 1]` (the only event is at time `10`) and the upper tail, the step consumes the
one residual gap of duration `1` and emits `log(1/2) - log 2`, not the gap's own
`alpha_star*(log(beta_star) - log(beta_star + t)) = log(1/2)`. -/
theorem waiting_times_residual_counterexample :
    ∃ s, calculate_waiting_times_log_predictive_df
        (Lib.ofFns Real.log Real.exp (Real.log ∘ Real.Gamma))
        { (pp_model.blank : pp_model ℝ) with
          m_alpha_star := 1, m_beta_star := 1, m_data_cont := some [10],
          m_p_value_alternative_style := true } 1 false false true
      = .ok (1 * (Real.log 1 - Real.log (1 + 1)) - Real.log 2, s) ∧
      1 * (Real.log 1 - Real.log (1 + 1)) - Real.log 2
        ≠ 1 * (Real.log 1 - Real.log (1 + 1)) := by
  obtain ⟨s, hs, -⟩ := waiting_times_residual_only
    (Lib.ofFns Real.log Real.exp (Real.log ∘ Real.Gamma))
    { (pp_model.blank : pp_model ℝ) with
      m_alpha_star := 1, m_beta_star := 1, m_data_cont := some [10],
      m_p_value_alternative_style := true } 1 false true
    (by norm_num [waiting_i2, Lib.ofFns, pp_model.blank, List.filter])
    (by norm_num [waiting_residual_t, pp_model.blank])
  refine ⟨s, ?_, ?_⟩
  · rw [hs]
    norm_num [waiting_residual_t, pp_model.blank, Lib.ofFns]
  · have h2 : Real.log 2 ≠ 0 := by
      have := Real.log_pos (by norm_num : (1 : ℝ) < 2)
      exact this.ne'
    intro h
    apply h2
    linarith

/-- C14, amended: in waiting-time mode with a one-sided configuration, a step that consumes
exactly one complete inter-event gap (of duration `t > 0`, the event closing the window) emits
that gap's own one-sided predictive probability at `r = 0` under the posterior in force, on the
log scale `u = alpha_star*(log(beta_star) - log(beta_star + t))` for the upper tail and
`log(1 - exp(u))` for the lower tail; a step that consumes only the residual partial gap at the
end of the window emits the value computed from `u - LOG_TWO`, half the gap's upper-tail
probability: `u - LOG_TWO` for the upper tail and `log(1 - exp(u - LOG_TWO))` for the lower
tail. In both cases the step is marked observable. -/
theorem waiting_times_single_gap (E : Lib α) (m : pp_model α) (increment : α)
    (lower_tail increment_parameters : Bool) :
    (∀ data event, m.m_data_cont = some data →
      data.get? m.m_current_data_index = some event →
      waiting_i2 E m increment = m.m_current_data_index + 1 →
      0 < waiting_gap_t m m.m_current_t event →
      waiting_residual_t m event increment ≤ 0 →
      ∃ s, calculate_waiting_times_log_predictive_df E m increment lower_tail false
          increment_parameters
        = .ok (
            (if lower_tail then
              E.log (1 - E.exp (m.m_alpha_star * (E.log m.m_beta_star
                - E.log (m.m_beta_star + waiting_gap_t m m.m_current_t event))))
            else
              m.m_alpha_star * (E.log m.m_beta_star
                - E.log (m.m_beta_star + waiting_gap_t m m.m_current_t event))), s) ∧
        s.m_currently_observable = true) ∧
    (waiting_i2 E m increment ≤ m.m_current_data_index →
      0 < waiting_residual_t m m.m_current_t increment →
      ∃ s, calculate_waiting_times_log_predictive_df E m increment lower_tail false
          increment_parameters
        = .ok (
            (if lower_tail then
              E.log (1 - E.exp (m.m_alpha_star * (E.log m.m_beta_star
                - E.log (m.m_beta_star + waiting_residual_t m m.m_current_t increment))
                - E.LOG_TWO))
            else
              m.m_alpha_star * (E.log m.m_beta_star
                - E.log (m.m_beta_star + waiting_residual_t m m.m_current_t increment))
                - E.LOG_TWO), s) ∧
        s.m_currently_observable = true) :=
  ⟨fun data event hdata hevent hone ht hres =>
      waiting_times_one_gap E m increment lower_tail increment_parameters data event hdata
        hevent hone ht hres,
    fun hnone ht =>
      waiting_times_residual_only E m increment lower_tail increment_parameters hnone ht⟩

/-- C14, amended, on the window `[0, 1]` whose only event is at time `1`, with
`alpha_star = beta_star = 1` and the upper tail: the step emits the gap's own `log(1/2)`. -/
theorem waiting_times_single_gap_witness :
    ∃ s, calculate_waiting_times_log_predictive_df
        (Lib.ofFns Real.log Real.exp (Real.log ∘ Real.Gamma))
        { (pp_model.blank : pp_model ℝ) with
          m_alpha_star := 1, m_beta_star := 1, m_data_cont := some [1],
          m_p_value_alternative_style := true } 1 false false true
      = .ok (Real.log (1 / 2), s) ∧ s.m_currently_observable = true := by
  obtain ⟨s, hs, hobs⟩ := (waiting_times_single_gap
    (Lib.ofFns Real.log Real.exp (Real.log ∘ Real.Gamma))
    { (pp_model.blank : pp_model ℝ) with
      m_alpha_star := 1, m_beta_star := 1, m_data_cont := some [1],
      m_p_value_alternative_style := true } 1 false true).1 [1] 1 rfl rfl
    (by norm_num [waiting_i2, Lib.ofFns, pp_model.blank, List.filter])
    (by norm_num [waiting_gap_t, pp_model.blank])
    (by norm_num [waiting_residual_t, pp_model.blank])
  refine ⟨s, ?_, hobs⟩
  rw [hs]
  have h : Real.log (1 / 2) = -Real.log 2 := by
    rw [one_div, Real.log_inv]
  rw [h]
  norm_num [waiting_gap_t, pp_model.blank, Lib.ofFns]

/-! ### The sequential scan -/

/-- More fuel does not change what the loop of `calculate_log_posterior_predictive_df`
returns. -/
theorem df_loop_fuel_mono (E : Lib α) (q ltb e : α) (r : Nat) (lower_tail : Bool) (k : Nat) :
    ∀ (n : Nat) (s s' : DfLoop α), df_loop E q ltb e r lower_tail n s = some s' →
      df_loop E q ltb e r lower_tail (n + k) s = some s' := by
  intro n
  induction n with
  | zero =>
    intro s s' h
    cases hk : s.keep_looping
    · rw [df_loop_stopped E q ltb e r lower_tail s hk] at h ⊢
      exact h
    · simp [df_loop, hk] at h
  | succ n ih =>
    intro s s' h
    cases hk : s.keep_looping
    · rw [df_loop_stopped E q ltb e r lower_tail s hk] at h ⊢
      exact h
    · rw [df_loop_step E q ltb e r lower_tail s hk] at h
      rw [Nat.add_right_comm, df_loop_step E q ltb e r lower_tail s hk]
      exact ih _ _ h

/-- More fuel does not change what `calculate_log_posterior_predictive_df` returns. -/
theorem calculate_log_posterior_predictive_df_fuel_mono (E : Lib α) (m : pp_model α) (t : α)
    (r : Nat) (lower_tail : Bool) (n k : Nat) (res : α × pp_model α)
    (h : calculate_log_posterior_predictive_df E m t r lower_tail n = some res) :
    calculate_log_posterior_predictive_df E m t r lower_tail (n + k) = some res := by
  unfold calculate_log_posterior_predictive_df at h ⊢
  by_cases ht : t ≤ 0
  · rw [if_pos ht] at h ⊢
    exact h
  · rw [if_neg ht] at h ⊢
    obtain ⟨s', hs', rfl⟩ := Option.map_eq_some'.mp h
    exact Option.map_eq_some'.mpr ⟨s', df_loop_fuel_mono E _ _ _ r lower_tail k n _ s' hs', rfl⟩

/-- More fuel does not change what the event-count step returns. -/
theorem event_count_step_fuel_mono (E : Lib α) (m : pp_model α) (increment : α)
    (lower_tail two_sided increment_parameters : Bool) (n k : Nat) (res : α × pp_model α)
    (h : calculate_event_count_log_predictive_df E m increment lower_tail two_sided
      increment_parameters n = some res) :
    calculate_event_count_log_predictive_df E m increment lower_tail two_sided
      increment_parameters (n + k) = some res := by
  unfold calculate_event_count_log_predictive_df at h ⊢
  dsimp only at h ⊢
  by_cases ht : event_count_t m increment > 0
  · rw [if_pos ht] at h ⊢
    cases hdf : calculate_log_posterior_predictive_df E
        (if two_sided = true
          then (calculate_log_posterior_predictive_pdf E m (event_count_t m increment)
            (event_count_r E m increment)).2 else m)
        (event_count_t m increment) (event_count_r E m increment) lower_tail n with
    | none =>
      rw [hdf] at h
      cases h
    | some res0 =>
      rw [calculate_log_posterior_predictive_df_fuel_mono E _ _ _ _ n k res0 hdf]
      rw [hdf] at h
      exact h
  · rw [if_neg ht] at h ⊢
    exact h

/-- A scan whose current time has reached the end returns what it has collected. -/
theorem sequential_loop_done (E : Lib α) (end_time increment : α)
    (lower_tail two_sided increment_parameters : Bool) (df_fuel fuel : Nat) (log : ScanLog α)
    (m : pp_model α) (h : ¬ m.m_current_t < end_time) :
    sequential_loop E end_time increment lower_tail two_sided increment_parameters df_fuel fuel
      log m = some (.ok (log, m)) := by
  cases fuel <;> simp [sequential_loop, h]

/-- A scan whose current time is before the end makes one step. -/
theorem sequential_loop_step (E : Lib α) (end_time increment : α)
    (lower_tail two_sided increment_parameters : Bool) (df_fuel fuel : Nat) (log : ScanLog α)
    (m : pp_model α) (v : α) (s : pp_model α) (hlt : m.m_current_t < end_time)
    (h : calculate_log_predictive_df_bounds E m increment lower_tail two_sided
      increment_parameters df_fuel = some (.ok (v, s))) :
    sequential_loop E end_time increment lower_tail two_sided increment_parameters df_fuel
        (fuel + 1) log m
      = sequential_loop E end_time increment lower_tail two_sided increment_parameters df_fuel
          fuel
          { dfs := log.dfs ++ [s.m_log_predictive_df],
            steps := log.steps ++ [(event_count_r E m increment, s.m_currently_observable)] }
          { s with m_current_t := s.m_current_t + increment } := by
  rw [sequential_loop, if_pos hlt, h]

/-- The number of event times `<= t` does not decrease with `t`. -/
theorem count_up_to_mono (data : List α) {t1 t2 : α} (h : t1 ≤ t2) :
    (data.filter (fun x => x ≤ t1)).length ≤ (data.filter (fun x => x ≤ t2)).length := by
  induction data with
  | nil => simp
  | cons x xs ih =>
    by_cases h1 : x ≤ t1
    · have h2 : x ≤ t2 := le_trans h1 h
      simp [List.filter_cons, h1, h2, ih]
    · by_cases h2 : x ≤ t2
      · simp only [List.filter_cons, h1, h2, decide_True, decide_False, if_true,
          List.length_cons]
        exact Nat.le_succ_of_le ih
      · simp [List.filter_cons, h1, h2, ih]

/-- One event-count step of a scan under linear elapsed time, with the counting
`find_data_index`, a running count equal to the number of events up to the current time and a
valid posterior: the count of line 395 is the number of events in the window, and with enough
fuel the step returns, observable, with the running count of the end of the window. -/
theorem scan_event_count_step (E : Lib ℝ) (hE : E.Exact) (data : List ℝ)
    (hlen : data.length < ULL)
    (hfind : ∀ t lo hi,
      E.find_data_index data t 0 lo hi = (data.filter (fun x => x ≤ t)).length)
    (m : pp_model ℝ) (increment : ℝ) (lower_tail two_sided increment_parameters : Bool)
    (hinc : 0 < increment) (hdata : m.m_data_cont = some data)
    (hscale : m.m_pp_time_scale = none)
    (hr : m.m_r = (data.filter (fun x => x ≤ m.m_current_t)).length)
    (ha : 0 < m.m_alpha_star) (hb : 0 < m.m_beta_star) :
    event_count_r E m increment
      = (data.filter (fun x => x ≤ m.m_current_t + increment)).length
        - (data.filter (fun x => x ≤ m.m_current_t)).length ∧
    ∃ df_fuel0 v s,
      calculate_event_count_log_predictive_df E m increment lower_tail two_sided
        increment_parameters df_fuel0 = some (v, s) ∧
      s.m_currently_observable = true ∧ s.m_data_cont = some data ∧
      s.m_pp_time_scale = none ∧
      s.m_p_value_alternative_style = m.m_p_value_alternative_style ∧
      s.m_current_t = m.m_current_t ∧
      s.m_r = (data.filter (fun x => x ≤ m.m_current_t + increment)).length ∧
      0 < s.m_alpha_star ∧ 0 < s.m_beta_star := by
  have ht : event_count_t m increment = increment := by
    unfold event_count_t
    rw [hscale]
  have hmono := count_up_to_mono data (le_of_lt (lt_add_of_pos_right m.m_current_t hinc))
  have hle : (data.filter (fun x => x ≤ m.m_current_t + increment)).length < ULL :=
    lt_of_le_of_lt (List.length_filter_le _ _) hlen
  have hcount : event_count_r E m increment
      = (data.filter (fun x => x ≤ m.m_current_t + increment)).length
        - (data.filter (fun x => x ≤ m.m_current_t)).length := by
    unfold event_count_r
    rw [hdata]
    dsimp only
    rw [hfind, hr, usub_of_le hmono hle]
  refine ⟨hcount, ?_⟩
  obtain ⟨c1, c2, c3, c4, c5, c6, -⟩ : same_scan m (if two_sided = true
      then (calculate_log_posterior_predictive_pdf E m (event_count_t m increment)
        (event_count_r E m increment)).2 else m) := by
    split_ifs
    · exact calculate_log_posterior_predictive_pdf_same_scan E m _ _
    · exact same_scan_refl m
  obtain ⟨fuel, res, hres⟩ := calculate_log_posterior_predictive_df_returns E hE
    (if two_sided = true
      then (calculate_log_posterior_predictive_pdf E m (event_count_t m increment)
        (event_count_r E m increment)).2 else m)
    (event_count_t m increment) (event_count_r E m increment) lower_tail
    (by rw [c5]; exact ha) (by rw [c6]; exact hb) (by rw [ht]; exact hinc)
  obtain ⟨v, s, hs⟩ := event_count_step_returns E m increment lower_tail two_sided
    increment_parameters fuel (Or.inr ⟨res, hres⟩)
  obtain ⟨s1, s2, s3, -, s5, -, s7, s8, s9, -, -, s12, -⟩ :=
    event_count_step_spec E m increment lower_tail two_sided increment_parameters fuel v s hs
  refine ⟨fuel, v, s, hs, s1.mpr (by rw [ht]; exact hinc), by rw [s8, hdata],
    by rw [s9, hscale], s12, s7, ?_, ?_, ?_⟩
  · rw [s2, hcount, hr, Nat.add_sub_cancel' hmono, Nat.mod_eq_of_lt hle]
  · rw [s3]
    exact add_pos_of_pos_of_nonneg ha (Nat.cast_nonneg _)
  · rw [s5, ht]
    exact add_pos hb hinc

/-- The first `k` steps of a scan under linear elapsed time in event-count mode, while the
current time stays before the end: with enough fuel for the predictive calls, the scan that
starts at `start` reaches the current time `start + k * increment` with the posterior still
valid, having logged for step `j` the number of events in the window
`(start + j * increment, start + j * increment + increment]` and the flag observable. -/
theorem sequential_loop_steps (E : Lib ℝ) (hE : E.Exact) (data : List ℝ)
    (hlen : data.length < ULL)
    (hfind : ∀ t lo hi,
      E.find_data_index data t 0 lo hi = (data.filter (fun x => x ≤ t)).length)
    (start end_time increment : ℝ) (lower_tail two_sided increment_parameters : Bool)
    (hinc : 0 < increment) (log0 : ScanLog ℝ) (m0 : pp_model ℝ)
    (hdata : m0.m_data_cont = some data) (hscale : m0.m_pp_time_scale = none)
    (hstyle : m0.m_p_value_alternative_style = false) (hcur : m0.m_current_t = start)
    (hr : m0.m_r = (data.filter (fun x => x ≤ start)).length)
    (ha : 0 < m0.m_alpha_star) (hb : 0 < m0.m_beta_star) :
    ∀ k : Nat, (∀ j : Nat, j < k → start + (j : ℝ) * increment < end_time) →
      ∃ df_fuel0 logk mk,
        mk.m_data_cont = some data ∧ mk.m_pp_time_scale = none ∧
        mk.m_p_value_alternative_style = false ∧
        mk.m_current_t = start + (k : ℝ) * increment ∧
        mk.m_r = (data.filter (fun x => x ≤ mk.m_current_t)).length ∧
        0 < mk.m_alpha_star ∧ 0 < mk.m_beta_star ∧
        logk.steps = log0.steps ++ (List.range k).map (fun j : Nat =>
          ((data.filter (fun x => x ≤ start + (j : ℝ) * increment + increment)).length
            - (data.filter (fun x => x ≤ start + (j : ℝ) * increment)).length, true)) ∧
        logk.dfs.length = log0.dfs.length + k ∧
        ∀ df_fuel fuel, df_fuel0 ≤ df_fuel →
          sequential_loop E end_time increment lower_tail two_sided increment_parameters df_fuel
              (fuel + k) log0 m0
            = sequential_loop E end_time increment lower_tail two_sided increment_parameters
                df_fuel fuel logk mk := by
  intro k
  induction k with
  | zero =>
    intro _
    refine ⟨0, log0, m0, hdata, hscale, hstyle, ?_, ?_, ha, hb, ?_, ?_, ?_⟩
    · rw [hcur]
      simp
    · rw [hcur]
      exact hr
    · simp
    · simp
    · intro df_fuel fuel _
      rfl
  | succ k ih =>
    intro hlt
    obtain ⟨f0, logk, mk, i1, i2, i3, i4, i5, i6, i7, i8, i9, i10⟩ :=
      ih (fun j hj => hlt j (Nat.lt_succ_of_lt hj))
    obtain ⟨hcount, f1, v, s, hs, s1, s2, s3, s4, s5, s6, s7, s8⟩ :=
      scan_event_count_step E hE data hlen hfind mk increment lower_tail two_sided
        increment_parameters hinc i1 i2 i5 i6 i7
    refine ⟨max f0 f1,
      { dfs := logk.dfs ++ [s.m_log_predictive_df],
        steps := logk.steps ++ [(event_count_r E mk increment, s.m_currently_observable)] },
      { s with m_current_t := s.m_current_t + increment },
      s2, s3, by rw [← i3]; exact s4, ?_, ?_, s7, s8, ?_, ?_, ?_⟩
    · show s.m_current_t + increment = _
      rw [s5, i4]
      push_cast
      ring
    · show s.m_r = (data.filter (fun x => x ≤ s.m_current_t + increment)).length
      rw [s6, s5]
    · show logk.steps ++ [(event_count_r E mk increment, s.m_currently_observable)] = _
      rw [i8, hcount, s1, i4, List.range_succ, List.map_append, List.append_assoc]
      rfl
    · show (logk.dfs ++ [s.m_log_predictive_df]).length = _
      rw [List.length_append, i9]
      rfl
    · intro df_fuel fuel hfuel
      have h1 := i10 df_fuel (fuel + 1) (le_trans (le_max_left _ _) hfuel)
      rw [Nat.add_right_comm] at h1
      rw [Nat.add_succ, Nat.succ_eq_add_one, h1]
      have hmk : mk.m_current_t < end_time := by
        rw [i4]
        exact hlt k (Nat.lt_succ_self k)
      have hf1 : f1 + (df_fuel - f1) = df_fuel :=
        Nat.add_sub_cancel' (le_trans (le_max_right _ _) hfuel)
      have hs' := event_count_step_fuel_mono E mk increment lower_tail two_sided
        increment_parameters f1 (df_fuel - f1) (v, s) hs
      rw [hf1] at hs'
      have hb' : calculate_log_predictive_df_bounds E mk increment lower_tail two_sided
          increment_parameters df_fuel = some (.ok (v, s)) := by
        unfold calculate_log_predictive_df_bounds
        rw [if_pos i3, hs']
        rfl
      exact sequential_loop_step E end_time increment lower_tail two_sided increment_parameters
        df_fuel fuel logk mk v s hmk hb'

/-- A scan under linear elapsed time in event-count mode, from `start` to an end first reached
after `n` increments, with the counting `find_data_index` and a valid prior: with enough fuel it
returns after exactly `n` steps, step `j` logging the number of events in the window
`(start + j * increment, start + j * increment + increment]`, every step observable. -/
theorem sequential_scan_steps (E : Lib ℝ) (hE : E.Exact) (data : List ℝ)
    (hlen : data.length < ULL)
    (hfind : ∀ t lo hi,
      E.find_data_index data t 0 lo hi = (data.filter (fun x => x ≤ t)).length)
    (m : pp_model ℝ) (start end_time increment : ℝ)
    (lower_tail two_sided increment_parameters : Bool) (n : Nat)
    (hdata : m.m_data_cont = some data) (hscale : m.m_pp_time_scale = none)
    (hstyle : m.m_p_value_alternative_style = false)
    (ha : 0 < m.m_alpha) (hb : 0 < m.m_beta + start) (hinc : 0 < increment)
    (hlt : ∀ j : Nat, j < n → start + (j : ℝ) * increment < end_time)
    (hge : end_time ≤ start + (n : ℝ) * increment) :
    ∃ df_fuel0, ∀ df_fuel fuel, df_fuel0 ≤ df_fuel → n ≤ fuel →
      ∃ log s, calculate_sequential_log_predictive_dfs E m start end_time increment lower_tail
          two_sided increment_parameters df_fuel fuel = some (.ok (log, s)) ∧
        log.steps = (List.range n).map (fun j : Nat =>
          ((data.filter (fun x => x ≤ start + (j : ℝ) * increment + increment)).length
            - (data.filter (fun x => x ≤ start + (j : ℝ) * increment)).length, true)) ∧
        log.dfs.length = n := by
  have h1 : (set_parameters_to_current_t_at E m start).m_data_cont = some data := hdata
  have h2 : (set_parameters_to_current_t_at E m start).m_pp_time_scale = none := hscale
  have h3 : (set_parameters_to_current_t_at E m start).m_p_value_alternative_style = false :=
    hstyle
  have h4 : (set_parameters_to_current_t_at E m start).m_current_t = start := rfl
  have h5 : (set_parameters_to_current_t_at E m start).m_r
      = (data.filter (fun x => x ≤ start)).length := by
    simp only [set_parameters_to_current_t_at, set_parameters_to_current_t, hdata]
    exact hfind start 0 none
  have h6 : 0 < (set_parameters_to_current_t_at E m start).m_alpha_star := by
    simp only [set_parameters_to_current_t_at, set_parameters_to_current_t]
    exact add_pos_of_pos_of_nonneg ha (Nat.cast_nonneg _)
  have h7 : 0 < (set_parameters_to_current_t_at E m start).m_beta_star := by
    simp only [set_parameters_to_current_t_at, set_parameters_to_current_t, hscale]
    exact hb
  obtain ⟨f0, logn, mn, -, -, -, i4, -, -, -, i8, i9, i10⟩ :=
    sequential_loop_steps E hE data hlen hfind start end_time increment lower_tail two_sided
      increment_parameters hinc { dfs := [], steps := [] }
      (set_parameters_to_current_t_at E m start) h1 h2 h3 h4 h5 h6 h7 n hlt
  refine ⟨f0, fun df_fuel fuel hdf hfuel => ⟨logn, mn, ?_, ?_, ?_⟩⟩
  · unfold calculate_sequential_log_predictive_dfs
    have hsplit : fuel = fuel - n + n := (Nat.sub_add_cancel hfuel).symm
    rw [hsplit, i10 df_fuel (fuel - n) hdf]
    apply sequential_loop_done
    rw [i4]
    exact not_lt.mpr hge
  · rw [i8]
    rfl
  · rw [i9]
    simp

/-- The windows of the scenario: the event times `0.5, 2.3, 2.7, 4.9` fall in the first, third,
third and fifth window of length `1` from `0`. -/
theorem scenario_counts :
    (List.range 5).map (fun j : Nat =>
      ((([1 / 2, 23 / 10, 27 / 10, 49 / 10] : List ℝ).filter
          (fun x => x ≤ 0 + (j : ℝ) * 1 + 1)).length
        - (([1 / 2, 23 / 10, 27 / 10, 49 / 10] : List ℝ).filter
          (fun x => x ≤ 0 + (j : ℝ) * 1)).length, true))
    = [(1, true), (0, true), (2, true), (0, true), (1, true)] := by
  simp only [List.range_succ, List.range_zero, List.nil_append, List.cons_append, List.map_cons,
    List.map_nil]
  norm_num [List.filter]

/-- C13, as written, fails: on the event times `{0.5, 2.3, 2.7, 4.9}`, with the prior
`alpha = beta = 1`, the scan from `0` to `5` with increment `1` in event-count mode returns
after 5 steps whose new-event counts are, in order, `1, 0, 2, 0, 1`, not `1, 2, 0, 1, 0`. -/
theorem sequential_scan_counterexample :
    ∃ df_fuel fuel log s,
      calculate_sequential_log_predictive_dfs
          (Lib.ofFns Real.log Real.exp (Real.log ∘ Real.Gamma))
          { (pp_model.blank : pp_model ℝ) with
            m_alpha := 1, m_beta := 1,
            m_data_cont := some [1 / 2, 23 / 10, 27 / 10, 49 / 10] }
          0 5 1 false false true df_fuel fuel = some (.ok (log, s)) ∧
      log.steps.map Prod.fst = [1, 0, 2, 0, 1] ∧
      log.steps.map Prod.fst ≠ [1, 2, 0, 1, 0] := by
  obtain ⟨f0, h⟩ := sequential_scan_steps
    (Lib.ofFns Real.log Real.exp (Real.log ∘ Real.Gamma)) ⟨rfl, rfl, rfl⟩
    [1 / 2, 23 / 10, 27 / 10, 49 / 10] (by norm_num [ULL]) (fun _ _ _ => rfl)
    { (pp_model.blank : pp_model ℝ) with
      m_alpha := 1, m_beta := 1,
      m_data_cont := some [1 / 2, 23 / 10, 27 / 10, 49 / 10] }
    0 5 1 false false true 5 rfl rfl rfl (by norm_num) (by norm_num) (by norm_num)
    (by
      intro j hj
      have : (j : ℝ) ≤ 4 := by exact_mod_cast Nat.lt_succ_iff.mp hj
      linarith)
    (by norm_num)
  obtain ⟨log, s, hrun, hsteps, -⟩ := h f0 5 le_rfl le_rfl
  rw [scenario_counts] at hsteps
  refine ⟨f0, 5, log, s, hrun, ?_, ?_⟩
  · rw [hsteps]
    rfl
  · rw [hsteps]
    decide

/-- C13, amended: for the event times `{0.5, 2.3, 2.7, 4.9}` under linear elapsed time (no time
scale) in event-count mode, with a `find_data_index` that counts the event times `<= t`, exact
elementary functions, a prior `alpha, beta > 0` and any flags, the scan from `0` to `5` with
increment `1` returns, once the fuel suffices, after exactly 5 steps whose new-event counts are,
in order, `1, 0, 2, 0, 1`, every step marked observable. -/
theorem sequential_scan_scenario (E : Lib ℝ) (hE : E.Exact)
    (hfind : ∀ t lo hi, E.find_data_index [1 / 2, 23 / 10, 27 / 10, 49 / 10] t 0 lo hi
      = (([1 / 2, 23 / 10, 27 / 10, 49 / 10] : List ℝ).filter (fun x => x ≤ t)).length)
    (m : pp_model ℝ) (lower_tail two_sided increment_parameters : Bool)
    (hdata : m.m_data_cont = some [1 / 2, 23 / 10, 27 / 10, 49 / 10])
    (hscale : m.m_pp_time_scale = none) (hstyle : m.m_p_value_alternative_style = false)
    (ha : 0 < m.m_alpha) (hb : 0 < m.m_beta) :
    ∃ df_fuel0, ∀ df_fuel fuel, df_fuel0 ≤ df_fuel → 5 ≤ fuel →
      ∃ log s, calculate_sequential_log_predictive_dfs E m 0 5 1 lower_tail two_sided
          increment_parameters df_fuel fuel = some (.ok (log, s)) ∧
        log.steps = [(1, true), (0, true), (2, true), (0, true), (1, true)] ∧
        log.dfs.length = 5 := by
  obtain ⟨f0, h⟩ := sequential_scan_steps E hE [1 / 2, 23 / 10, 27 / 10, 49 / 10]
    (by norm_num [ULL]) hfind m 0 5 1 lower_tail two_sided increment_parameters 5 hdata hscale
    hstyle ha (by linarith) (by norm_num)
    (by
      intro j hj
      have : (j : ℝ) ≤ 4 := by exact_mod_cast Nat.lt_succ_iff.mp hj
      linarith)
    (by norm_num)
  refine ⟨f0, fun df_fuel fuel hdf hfuel => ?_⟩
  obtain ⟨log, s, hrun, hsteps, hlen⟩ := h df_fuel fuel hdf hfuel
  rw [scenario_counts] at hsteps
  exact ⟨log, s, hrun, hsteps, hlen⟩

/-- C13, amended, with the real logarithm and exponential, the prior `alpha = beta = 1` and a
two-sided lower-tail scan. -/
theorem sequential_scan_scenario_witness :
    ∃ df_fuel0, ∀ df_fuel fuel, df_fuel0 ≤ df_fuel → 5 ≤ fuel →
      ∃ log s, calculate_sequential_log_predictive_dfs
          (Lib.ofFns Real.log Real.exp (Real.log ∘ Real.Gamma))
          { (pp_model.blank : pp_model ℝ) with
            m_alpha := 1, m_beta := 1,
            m_data_cont := some [1 / 2, 23 / 10, 27 / 10, 49 / 10] }
          0 5 1 true true true df_fuel fuel = some (.ok (log, s)) ∧
        log.steps = [(1, true), (0, true), (2, true), (0, true), (1, true)] ∧
        log.dfs.length = 5 :=
  sequential_scan_scenario (Lib.ofFns Real.log Real.exp (Real.log ∘ Real.Gamma))
    ⟨rfl, rfl, rfl⟩ (fun _ _ _ => rfl)
    { (pp_model.blank : pp_model ℝ) with
      m_alpha := 1, m_beta := 1,
      m_data_cont := some [1 / 2, 23 / 10, 27 / 10, 49 / 10] }
    true true true rfl rfl rfl (by norm_num) (by norm_num)

/-! ### The two-sided sums in exact arithmetic -/

/-- Under the invariant, the value `g_i` of pass `k` is the tail value of the count `k`. -/
theorem df_advance_tail_value (E : Lib α) (q ltb a lc e mt : α) (r k : Nat) (s : DfLoop α)
    (hq : 0 < q) (ha : 0 < a) (he0 : 0 < e) (he1 : e ≤ 1)
    (hrun : df_running q a lc e mt r k s)
    (hfound : s.found_mid_point = true → 1 / 2 ≤ e * nb_mass_below 1 q a k) :
    (df_advance E q ltb e s).g_i = tail_value q a e k := by
  obtain ⟨hi, -, hal, -, -, hpmf, hsum, -, -, -, hg0, -, -⟩ := hrun
  obtain ⟨-, -, -, -, -, -, a_g⟩ := df_advance_spec E q ltb e s
  rw [a_g, hi, hal, hpmf, hsum]
  unfold tail_value
  rcases Nat.eq_zero_or_pos k with h0 | hpos
  · subst h0
    have h1 : nb_mass_below (1 : α) q a (0 + 1) = 1 := by
      rw [nb_mass_below_succ]
      simp [nb_mass_below, nb_pmf]
    have h0 : nb_mass_below (1 : α) q a 0 = 0 := by simp [nb_mass_below]
    simp only [lt_irrefl, if_false]
    rw [hg0 rfl, h1, h0, mul_one, mul_zero, sub_zero]
    exact (min_eq_right he1).symm
  · obtain ⟨j, rfl⟩ : ∃ j, k = j + 1 := ⟨k - 1, by omega⟩
    have hstep : nb_pmf 1 q a (j + 1 - 1)
        * (q * (a + ((j + 1 : Nat) : α) - 1) / ((j + 1 : Nat) : α)) = nb_pmf 1 q a (j + 1) := by
      rw [Nat.add_sub_cancel, nb_pmf_succ]
      push_cast
      ring
    have hmax : max (j + 1) 1 = j + 1 := max_eq_left (by omega)
    have hmono : nb_mass_below 1 q a (j + 1) ≤ nb_mass_below 1 q a (j + 1 + 1) :=
      nb_mass_below_mono one_pos hq ha (Nat.le_succ _)
    have hmono' := mul_le_mul_of_nonneg_left hmono he0.le
    simp only [hpos, if_true, hstep, hmax, ← nb_mass_below_succ]
    split_ifs with hc
    · exact (min_eq_right (le_of_lt hc.2)).symm
    · refine (min_eq_left ?_).symm
      by_cases hf : s.found_mid_point = true
      · have := hfound hf
        linarith
      · have hf' : s.found_mid_point = false := by simpa using hf
        exact not_lt.mp (fun h => hc ⟨hf', h⟩)

/-- One pass of the loop under the exact invariant: either the loop goes on and the invariant
holds again, or it stops, at a count `k` past `r` whose tail value is below that of `r`, and the
two-sided probabilities are the complements of the two sums over the counts `0, ..., k`. -/
theorem df_pass_exact (E : Lib ℝ) (hE : E.Exact) {a q : ℝ} (ha : 0 < a) (hq0 : 0 < q)
    (hq1 : q < 1) (lc mt ltb : ℝ) (hlc : Real.exp lc = (1 - q) ^ a) (r k : Nat)
    (lower_tail : Bool) (s : DfLoop ℝ) (hex : df_exact q a lc ((1 - q) ^ a) mt r k s) :
    ((df_loop_body E q ltb ((1 - q) ^ a) r lower_tail s).keep_looping = true ∧
      df_exact q a lc ((1 - q) ^ a) mt r (k + 1)
        (df_loop_body E q ltb ((1 - q) ^ a) r lower_tail s)) ∨
    ((df_loop_body E q ltb ((1 - q) ^ a) r lower_tail s).keep_looping = false ∧ r < k ∧
      tail_value q a ((1 - q) ^ a) k < tail_value q a ((1 - q) ^ a) r ∧
      (df_loop_body E q ltb ((1 - q) ^ a) r lower_tail s).m.m_predictive_two_sided_df
        = 1 - Finset.sum (Finset.range (k + 1)) (fun j =>
            if j ≠ r ∧ tail_value q a ((1 - q) ^ a) j > mt
              then nb_pmf 1 q a j * (1 - q) ^ a else 0) ∧
      (df_loop_body E q ltb ((1 - q) ^ a) r lower_tail s).m.m_predictive_two_sided_df2
        = 1 - Finset.sum (Finset.range (k + 1)) (fun j =>
            if j = r ∨ tail_value q a ((1 - q) ^ a) j ≥ mt
              then nb_pmf 1 q a j * (1 - q) ^ a else 0)) := by
  have he0 : 0 < (1 - q) ^ a := Real.rpow_pos_of_pos (by linarith) _
  have hlt : ∀ n, (1 - q) ^ a * nb_mass_below 1 q a n < 1 := by
    intro n
    rw [← nb_mass_below_scale_one]
    exact nb_mass_below_lt_one ha hq0 hq1 n
  have he1 : (1 - q) ^ a ≤ 1 := Real.rpow_le_one (by linarith) (by linarith) ha.le
  have hpk : 0 < nb_pmf 1 q a k := nb_pmf_pos one_pos hq0 ha k
  have hmono : nb_mass_below 1 q a k ≤ nb_mass_below 1 q a (k + 1) :=
    nb_mass_below_mono one_pos hq0 ha (Nat.le_succ _)
  have hSpos : 0 < nb_mass_below 1 q a (k + 1) := by
    have h0 : nb_mass_below (1 : ℝ) q a 0 = 0 := by simp [nb_mass_below]
    have := nb_mass_below_mono (one_pos) hq0 ha (Nat.zero_le k)
    rw [h0] at this
    rw [nb_mass_below_succ]
    linarith
  obtain ⟨hrun, hfnd, hD, hD2, hpd⟩ := hex
  have hg := df_advance_tail_value E q ltb a lc _ mt r k s hq0 ha he0 he1 hrun hfnd
  obtain ⟨A_pmf, A_sum, -, -⟩ := df_advance_running E q ltb a lc ((1 - q) ^ a) mt r k s hrun
  have hpass := (df_pass E hE ha hq0 hq1 lc mt ltb hlc r k lower_tail s hrun).1
  obtain ⟨hi, hk, hal, hlcs, hmt, -, -, -, -, hD2le, -, -, -⟩ := hrun
  obtain ⟨B_i, B_pmf, B_sum, B_g, B_f, B_a, B_lc, B_mt, B_pd, B_go, B_stop⟩ :=
    df_loop_body_spec E q ltb ((1 - q) ^ a) r lower_tail s hk (by rw [A_pmf]; exact hpk)
      (lt_of_le_of_lt hD2le (hlt k))
  rw [A_sum, hlcs, midpoint_test_iff E hE hlc hSpos] at B_f
  rw [A_pmf, hi, hmt, hg, hD, hD2] at B_go B_stop
  rw [hi, hg] at B_pd
  have hpd' : r < k + 1 →
      (df_loop_body E q ltb ((1 - q) ^ a) r lower_tail s).m.m_log_predictive_df
        = tail_value q a ((1 - q) ^ a) r := by
    intro hrk
    rw [B_pd]
    by_cases hkr : k = r
    · rw [if_pos hkr, hkr]
    · rw [if_neg hkr]
      exact hpd (by omega)
  by_cases hc : k + 1 ≤ r ∨
      (df_loop_body E q ltb ((1 - q) ^ a) r lower_tail s).found_mid_point = false ∨
      tail_value q a ((1 - q) ^ a) k
        ≥ (df_loop_body E q ltb ((1 - q) ^ a) r lower_tail s).m.m_log_predictive_df
  · left
    obtain ⟨hk', hD', hD2'⟩ := B_go hc
    rcases hpass with ⟨-, hnext⟩ | ⟨hstop, -⟩
    · refine ⟨hk', hnext, ?_, ?_, ?_, hpd'⟩
      · intro hf
        rcases B_f.mp hf with h | h
        · have h1 := hfnd h
          have h2 := mul_le_mul_of_nonneg_left hmono he0.le
          linarith
        · exact h
      · rw [hD', Finset.sum_range_succ]
      · rw [hD2', Finset.sum_range_succ]
    · rw [hk'] at hstop
      cases hstop
  · right
    obtain ⟨hk', hD', hD2'⟩ := B_stop hc
    have h1 : r < k + 1 := by
      by_contra h
      exact hc (Or.inl (by omega))
    have h3 : tail_value q a ((1 - q) ^ a) k < tail_value q a ((1 - q) ^ a) r := by
      by_contra h
      exact hc (Or.inr (Or.inr (by rw [hpd' h1]; exact not_lt.mp h)))
    have hrk : r < k := by
      rcases Nat.lt_succ_iff_lt_or_eq.mp h1 with h | h
      · exact h
      · subst h
        exact absurd h3 (lt_irrefl _)
    refine ⟨hk', hrk, h3, ?_, ?_⟩
    · rw [hD', Finset.sum_range_succ]
    · rw [hD2', Finset.sum_range_succ]

/-- A loop that starts under the exact invariant and returns has stopped at a count `K` past
`r` whose tail value is below that of `r`, with the two-sided probabilities the complements of
the two sums over the counts `0, ..., K`. -/
theorem df_loop_exact (E : Lib ℝ) (hE : E.Exact) {a q : ℝ} (ha : 0 < a) (hq0 : 0 < q)
    (hq1 : q < 1) (lc mt ltb : ℝ) (hlc : Real.exp lc = (1 - q) ^ a) (r : Nat)
    (lower_tail : Bool) (fuel : Nat) :
    ∀ (k : Nat) (s s' : DfLoop ℝ), df_exact q a lc ((1 - q) ^ a) mt r k s →
      df_loop E q ltb ((1 - q) ^ a) r lower_tail fuel s = some s' →
      ∃ K, K < k + fuel ∧ r < K ∧
        tail_value q a ((1 - q) ^ a) K < tail_value q a ((1 - q) ^ a) r ∧
        s'.m.m_predictive_two_sided_df
          = 1 - Finset.sum (Finset.range (K + 1)) (fun j =>
              if j ≠ r ∧ tail_value q a ((1 - q) ^ a) j > mt
                then nb_pmf 1 q a j * (1 - q) ^ a else 0) ∧
        s'.m.m_predictive_two_sided_df2
          = 1 - Finset.sum (Finset.range (K + 1)) (fun j =>
              if j = r ∨ tail_value q a ((1 - q) ^ a) j ≥ mt
                then nb_pmf 1 q a j * (1 - q) ^ a else 0) := by
  induction fuel with
  | zero =>
    intro k s s' hex hs
    have hk : s.keep_looping = true := hex.1.2.1
    simp [df_loop, hk] at hs
  | succ fuel ih =>
    intro k s s' hex hs
    rw [df_loop_step E q ltb _ r lower_tail s hex.1.2.1] at hs
    rcases df_pass_exact E hE ha hq0 hq1 lc mt ltb hlc r k lower_tail s hex with
      ⟨-, hnext⟩ | ⟨hstop, hb⟩
    · obtain ⟨K, hK, hrest⟩ := ih (k + 1) _ s' hnext hs
      exact ⟨K, by omega, hrest⟩
    · rw [df_loop_stopped E q ltb _ r lower_tail _ hstop] at hs
      cases hs
      exact ⟨k, by omega, hb⟩

/-- The loop is entered under the exact invariant. -/
theorem df_init_exact (E : Lib ℝ) (m : pp_model ℝ) (t : ℝ) (r : Nat) :
    df_exact (t / (m.m_beta_star + t)) m.m_alpha_star
      (m.m_alpha_star * (E.log m.m_beta_star - E.log (m.m_beta_star + t)))
      (E.exp (m.m_alpha_star * (E.log m.m_beta_star - E.log (m.m_beta_star + t))))
      m.m_minimum_tail r 0 (df_init E m t) := by
  refine ⟨df_init_running E m t r, ?_, ?_, ?_, ?_⟩
  · intro h
    exact absurd h (by simp [df_init])
  · simp [df_init]
  · simp [df_init]
  · intro h
    omega

/-- The two-sided probabilities left by `calculate_log_posterior_predictive_df`, for
`alpha_star, beta_star, t > 0` and exact elementary functions, in terms of the staged minimum
tail it found at entry: the loop has stopped at a count `K` past `r` whose tail value is below
that of `r`, and the probabilities are the complements of the two sums over `0, ..., K`. -/
theorem calculate_log_posterior_predictive_df_two_sided (E : Lib ℝ) (hE : E.Exact)
    (m : pp_model ℝ) (t : ℝ) (r : Nat) (lower_tail : Bool)
    (ha : 0 < m.m_alpha_star) (hb : 0 < m.m_beta_star) (ht : 0 < t) (fuel : Nat)
    (res : ℝ × pp_model ℝ)
    (h : calculate_log_posterior_predictive_df E m t r lower_tail fuel = some res) :
    ∃ K, K < fuel ∧ r < K ∧
      tail_value (t / (m.m_beta_star + t)) m.m_alpha_star
          ((1 - t / (m.m_beta_star + t)) ^ m.m_alpha_star) K
        < tail_value (t / (m.m_beta_star + t)) m.m_alpha_star
          ((1 - t / (m.m_beta_star + t)) ^ m.m_alpha_star) r ∧
      res.2.m_predictive_two_sided_df
        = 1 - Finset.sum (Finset.range (K + 1)) (fun j =>
            if j ≠ r ∧ tail_value (t / (m.m_beta_star + t)) m.m_alpha_star
                ((1 - t / (m.m_beta_star + t)) ^ m.m_alpha_star) j > m.m_minimum_tail
              then nb_pmf 1 (t / (m.m_beta_star + t)) m.m_alpha_star j
                * (1 - t / (m.m_beta_star + t)) ^ m.m_alpha_star else 0) ∧
      res.2.m_predictive_two_sided_df2
        = 1 - Finset.sum (Finset.range (K + 1)) (fun j =>
            if j = r ∨ tail_value (t / (m.m_beta_star + t)) m.m_alpha_star
                ((1 - t / (m.m_beta_star + t)) ^ m.m_alpha_star) j ≥ m.m_minimum_tail
              then nb_pmf 1 (t / (m.m_beta_star + t)) m.m_alpha_star j
                * (1 - t / (m.m_beta_star + t)) ^ m.m_alpha_star else 0) := by
  obtain ⟨hq0, hq1⟩ := ratio_pos_lt_one hb ht
  have hlc : Real.exp (m.m_alpha_star * (E.log m.m_beta_star - E.log (m.m_beta_star + t)))
      = (1 - t / (m.m_beta_star + t)) ^ m.m_alpha_star := by
    rw [hE.1]
    exact exp_log_pdf_const hb ht
  have hex := df_init_exact E m t r
  rw [hE.2.1, hlc] at hex
  rw [calculate_log_posterior_predictive_df_eq E hE m t r lower_tail hb ht] at h
  obtain ⟨s', hs', rfl⟩ := Option.map_eq_some'.mp h
  obtain ⟨K, hK, hrest⟩ := df_loop_exact E hE ha hq0 hq1 _ m.m_minimum_tail
    (E.log t - E.log (m.m_beta_star + t)) hlc r lower_tail fuel 0 (df_init E m t) s' hex hs'
  exact ⟨K, by omega, hrest⟩

/-- After `calculate_log_posterior_predictive_pdf(t, r)`, for `alpha_star, beta_star, t > 0`,
the staged minimum tail is the tail value of `r`. -/
theorem pdf_stages_tail_value (E : Lib ℝ) (hE : E.Exact) (m : pp_model ℝ) (t : ℝ) (r : Nat)
    (ha : 0 < m.m_alpha_star) (hb : 0 < m.m_beta_star) (ht : 0 < t) (hr : r < ULL) :
    (calculate_log_posterior_predictive_pdf E m t r).2.m_minimum_tail
      = tail_value (t / (m.m_beta_star + t)) m.m_alpha_star
          ((1 - t / (m.m_beta_star + t)) ^ m.m_alpha_star) r := by
  obtain ⟨hq0, hq1⟩ := ratio_pos_lt_one hb ht
  have he : E.exp (m.m_alpha_star * (E.log m.m_beta_star - E.log (m.m_beta_star + t)))
      = (1 - t / (m.m_beta_star + t)) ^ m.m_alpha_star := by
    rw [hE.1, hE.2.1, exp_log_pdf_const hb ht]
  have hloop := pdf_loop_minimum_tail E (t / (m.m_beta_star + t))
    (E.log t - E.log (m.m_beta_star + t))
    (E.exp (m.m_alpha_star * (E.log m.m_beta_star - E.log (m.m_beta_star + t)))) r hr
    { m with
      m_log_pdf_const := m.m_alpha_star * (E.log m.m_beta_star - E.log (m.m_beta_star + t))
      m_log_predictive_pdf := m.m_alpha_star * (E.log m.m_beta_star - E.log (m.m_beta_star + t))
      m_minimum_tail :=
        E.exp (m.m_alpha_star * (E.log m.m_beta_star - E.log (m.m_beta_star + t))) * 1 }
    r le_rfl
  unfold calculate_log_posterior_predictive_pdf
  rw [if_neg (not_le.mpr ht)]
  dsimp only at hloop ⊢
  rw [hloop, he]
  unfold tail_value
  rcases Nat.eq_zero_or_pos r with h0 | hpos
  · subst h0
    rw [if_neg (by simp)]
    have hle : (1 - t / (m.m_beta_star + t)) ^ m.m_alpha_star ≤ 1 :=
      Real.rpow_le_one (by linarith) (by linarith) ha.le
    have h1 : nb_mass_below (1 : ℝ) (t / (m.m_beta_star + t)) m.m_alpha_star (0 + 1) = 1 := by
      rw [nb_mass_below_succ]
      simp [nb_mass_below, nb_pmf]
    have h0 : nb_mass_below (1 : ℝ) (t / (m.m_beta_star + t)) m.m_alpha_star 0 = 0 := by
      simp [nb_mass_below]
    rw [h1, h0]
    simp only [mul_one, mul_zero, sub_zero]
    exact (min_eq_right hle).symm
  · rw [if_pos ⟨rfl, hpos⟩]

theorem df_advance_same_run (E : Lib α) (q ltb e : α) (c : Prop) (s1 s2 : DfLoop α)
    (h : df_same_run c s1 s2) :
    df_same_run c (df_advance E q ltb e s1) (df_advance E q ltb e s2) := by
  obtain ⟨i1, ps1, p1, lp1, d1, d21, f1, k1, g1, m1⟩ := s1
  obtain ⟨i2, ps2, p2, lp2, d2, d22, f2, k2, g2, m2⟩ := s2
  obtain ⟨h1, h2, h3, h4, h5, h6, h7, h8, h9, ha, hlc, hmt, hsm, hD, hD2, hpd⟩ := h
  dsimp only at h1 h2 h3 h4 h5 h6 h7 h8 h9 ha hlc hmt hsm hD hD2 hpd
  subst h1 h2 h3 h4 h5 h6 h7 h8 h9
  unfold df_advance
  dsimp only
  rw [ha]
  split_ifs <;>
    exact ⟨rfl, rfl, rfl, rfl, rfl, rfl, rfl, rfl, rfl, ha, hlc, hmt, hsm, hD, hD2, hpd⟩

theorem df_midpoint_same_run (E : Lib α) (c : Prop) (s1 s2 : DfLoop α)
    (h : df_same_run c s1 s2) :
    df_same_run c (df_midpoint E s1) (df_midpoint E s2) := by
  obtain ⟨i1, ps1, p1, lp1, d1, d21, f1, k1, g1, m1⟩ := s1
  obtain ⟨i2, ps2, p2, lp2, d2, d22, f2, k2, g2, m2⟩ := s2
  obtain ⟨h1, h2, h3, h4, h5, h6, h7, h8, h9, ha, hlc, hmt, hsm, hD, hD2, hpd⟩ := h
  dsimp only at h1 h2 h3 h4 h5 h6 h7 h8 h9 ha hlc hmt hsm hD hD2 hpd
  subst h1 h2 h3 h4 h5 h6 h7 h8 h9
  unfold df_midpoint
  dsimp only
  by_cases hf : f1 = false
  · rw [if_pos hf, if_pos hf]
    by_cases ht : m2.m_log_pdf_const + E.log ps1 ≥ -E.LOG_TWO
    · have ht1 : m1.m_log_pdf_const + E.log ps1 ≥ -E.LOG_TWO := by rw [hlc]; exact ht
      rw [if_pos ht1, if_pos ht]
      exact ⟨rfl, rfl, rfl, rfl, rfl, rfl, rfl, rfl, rfl, ha, hlc, hmt, rfl, hD, hD2, hpd⟩
    · have ht1 : ¬ m1.m_log_pdf_const + E.log ps1 ≥ -E.LOG_TWO := by rw [hlc]; exact ht
      rw [if_neg ht1, if_neg ht]
      exact ⟨rfl, rfl, rfl, rfl, rfl, rfl, rfl, rfl, rfl, ha, hlc, hmt, hsm, hD, hD2, hpd⟩
  · rw [if_neg hf, if_neg hf]
    exact ⟨rfl, rfl, rfl, rfl, rfl, rfl, rfl, rfl, rfl, ha, hlc, hmt, hsm, hD, hD2, hpd⟩

theorem df_two_sided_same_run (e : α) (r : Nat) (c : Prop) (s1 s2 : DfLoop α)
    (h : df_same_run c s1 s2) :
    df_same_run c (df_two_sided e r s1) (df_two_sided e r s2) := by
  obtain ⟨i1, ps1, p1, lp1, d1, d21, f1, k1, g1, m1⟩ := s1
  obtain ⟨i2, ps2, p2, lp2, d2, d22, f2, k2, g2, m2⟩ := s2
  obtain ⟨h1, h2, h3, h4, h5, h6, h7, h8, h9, ha, hlc, hmt, hsm, hD, hD2, hpd⟩ := h
  dsimp only at h1 h2 h3 h4 h5 h6 h7 h8 h9 ha hlc hmt hsm hD hD2 hpd
  subst h1 h2 h3 h4 h5 h6 h7 h8 h9
  unfold df_two_sided
  dsimp only
  by_cases hguard : p1 ≤ 0 ∨ m2.m_predictive_two_sided_df2 ≥ 1
  · have hguard1 : p1 ≤ 0 ∨ m1.m_predictive_two_sided_df2 ≥ 1 := by rw [hD2]; exact hguard
    rw [if_pos hguard1, if_pos hguard]
    exact ⟨rfl, rfl, rfl, rfl, rfl, rfl, rfl, rfl, rfl, ha, hlc, hmt, hsm,
      congrArg (fun x => x + e) hmt, hmt, hpd⟩
  · have hguard1 : ¬ (p1 ≤ 0 ∨ m1.m_predictive_two_sided_df2 ≥ 1) := by
      rw [hD2]
      exact hguard
    rw [if_neg hguard1, if_neg hguard]
    by_cases hc1 : i1 ≠ r ∧ g1 > m2.m_minimum_tail
    · have hc11 : i1 ≠ r ∧ g1 > m1.m_minimum_tail := by rw [hmt]; exact hc1
      rw [if_pos hc11, if_pos hc1]
      by_cases hc2 : i1 = r ∨ g1 ≥ m2.m_minimum_tail
      · have hc21 : i1 = r ∨ g1 ≥ m1.m_minimum_tail := by rw [hmt]; exact hc2
        rw [if_pos hc21, if_pos hc2]
        exact ⟨rfl, rfl, rfl, rfl, rfl, rfl, rfl, rfl, rfl, ha, hlc, hmt, hsm,
          congrArg (fun x => x + p1 * e) hD, congrArg (fun x => x + p1 * e) hD2, hpd⟩
      · have hc21 : ¬ (i1 = r ∨ g1 ≥ m1.m_minimum_tail) := by rw [hmt]; exact hc2
        rw [if_neg hc21, if_neg hc2]
        exact ⟨rfl, rfl, rfl, rfl, rfl, rfl, rfl, rfl, rfl, ha, hlc, hmt, hsm,
          congrArg (fun x => x + p1 * e) hD, hD2, hpd⟩
    · have hc11 : ¬ (i1 ≠ r ∧ g1 > m1.m_minimum_tail) := by rw [hmt]; exact hc1
      rw [if_neg hc11, if_neg hc1]
      by_cases hc2 : i1 = r ∨ g1 ≥ m2.m_minimum_tail
      · have hc21 : i1 = r ∨ g1 ≥ m1.m_minimum_tail := by rw [hmt]; exact hc2
        rw [if_pos hc21, if_pos hc2]
        exact ⟨rfl, rfl, rfl, rfl, rfl, rfl, rfl, rfl, rfl, ha, hlc, hmt, hsm,
          hD, congrArg (fun x => x + p1 * e) hD2, hpd⟩
      · have hc21 : ¬ (i1 = r ∨ g1 ≥ m1.m_minimum_tail) := by rw [hmt]; exact hc2
        rw [if_neg hc21, if_neg hc2]
        exact ⟨rfl, rfl, rfl, rfl, rfl, rfl, rfl, rfl, rfl, ha, hlc, hmt, hsm, hD, hD2, hpd⟩

theorem df_same_run_of_imp {β : Type} {c c' : Prop} (hcc : c' → c) {s1 s2 : DfLoop β}
    (h : df_same_run c s1 s2) : df_same_run c' s1 s2 := by
  obtain ⟨h1, h2, h3, h4, h5, h6, h7, h8, h9, ha, hlc, hmt, hsm, hD, hD2, hpd⟩ := h
  exact ⟨h1, h2, h3, h4, h5, h6, h7, h8, h9, ha, hlc, hmt, hsm, hD, hD2, fun hc => hpd (hcc hc)⟩

theorem df_one_sided_same_run (E : Lib α) (r : Nat) (lower_tail : Bool) (c : Prop)
    (s1 s2 : DfLoop α) (h : df_same_run c s1 s2) :
    df_same_run (c ∨ s1.i = r) (df_one_sided E r lower_tail s1)
      (df_one_sided E r lower_tail s2) := by
  obtain ⟨i1, ps1, p1, lp1, d1, d21, f1, k1, g1, m1⟩ := s1
  obtain ⟨i2, ps2, p2, lp2, d2, d22, f2, k2, g2, m2⟩ := s2
  obtain ⟨h1, h2, h3, h4, h5, h6, h7, h8, h9, ha, hlc, hmt, hsm, hD, hD2, hpd⟩ := h
  dsimp only at h1 h2 h3 h4 h5 h6 h7 h8 h9 ha hlc hmt hsm hD hD2 hpd ⊢
  subst h1 h2 h3 h4 h5 h6 h7 h8 h9
  unfold df_one_sided
  dsimp only
  rw [hlc]
  by_cases hu : i1 = usub r 1
  · have hne : ¬ i1 = r := fun h => usub_one_ne r (hu.symm.trans h)
    rw [if_pos hu, if_pos hu]
    split_ifs <;>
      exact ⟨rfl, rfl, rfl, rfl, rfl, rfl, rfl, rfl, rfl, ha, hlc, hmt, hsm, hD, hD2,
        fun hc => hpd (hc.resolve_right hne)⟩
  · rw [if_neg hu, if_neg hu]
    by_cases hr : i1 = r
    · rw [if_pos hr, if_pos hr]
      split_ifs <;>
        exact ⟨rfl, rfl, rfl, rfl, rfl, rfl, rfl, rfl, rfl, ha, rfl, hmt, hsm, hD, hD2,
          fun _ => rfl⟩
    · rw [if_neg hr, if_neg hr]
      exact ⟨rfl, rfl, rfl, rfl, rfl, rfl, rfl, rfl, rfl, ha, hlc, hmt, hsm, hD, hD2,
        fun hc => hpd (hc.resolve_right hr)⟩

theorem df_continue_same_run (r : Nat) (s1 s2 : DfLoop α)
    (h : df_same_run (r ≤ s1.i) s1 s2) :
    df_same_run (r < (df_continue r s1).i) (df_continue r s1) (df_continue r s2) := by
  obtain ⟨i1, ps1, p1, lp1, d1, d21, f1, k1, g1, m1⟩ := s1
  obtain ⟨i2, ps2, p2, lp2, d2, d22, f2, k2, g2, m2⟩ := s2
  obtain ⟨h1, h2, h3, h4, h5, h6, h7, h8, h9, ha, hlc, hmt, hsm, hD, hD2, hpd⟩ := h
  dsimp only at h1 h2 h3 h4 h5 h6 h7 h8 h9 ha hlc hmt hsm hD hD2 hpd
  subst h1 h2 h3 h4 h5 h6 h7 h8 h9
  have hi : ∀ s : DfLoop α, (df_continue r s).i = s.i + 1 := by
    intro s
    unfold df_continue
    dsimp only
    split_ifs <;> rfl
  rw [hi]
  dsimp only
  have hdec : decide (i1 + 1 ≤ r ∨ f1 = false ∨ g1 ≥ m1.m_log_predictive_df)
      = decide (i1 + 1 ≤ r ∨ f1 = false ∨ g1 ≥ m2.m_log_predictive_df) := by
    by_cases hr : i1 + 1 ≤ r
    · simp [hr]
    · rw [hpd (by omega)]
  unfold df_continue
  dsimp only
  rw [hdec]
  by_cases hk : k1 = true
  · rw [if_pos hk, if_pos hk]
    by_cases hd : decide (i1 + 1 ≤ r ∨ f1 = false ∨ g1 ≥ m2.m_log_predictive_df) = false
    · rw [if_pos hd, if_pos hd]
      exact ⟨rfl, rfl, rfl, rfl, rfl, rfl, rfl, rfl, rfl, ha, hlc, hmt, hsm,
        congrArg (fun x => 1 - x) hD, congrArg (fun x => 1 - x) hD2,
        fun hc => hpd (by omega)⟩
    · rw [if_neg hd, if_neg hd]
      exact ⟨rfl, rfl, rfl, rfl, rfl, rfl, rfl, rfl, rfl, ha, hlc, hmt, hsm, hD, hD2,
        fun hc => hpd (by omega)⟩
  · rw [if_neg hk, if_neg hk]
    exact ⟨rfl, rfl, rfl, rfl, rfl, rfl, rfl, rfl, rfl, ha, hlc, hmt, hsm, hD, hD2,
      fun hc => hpd (by omega)⟩

/-- One pass of the loop keeps two runs together. -/
theorem df_loop_body_same_run (E : Lib α) (q ltb e : α) (r : Nat) (lower_tail : Bool)
    (s1 s2 : DfLoop α) (h : df_same_run (r < s1.i) s1 s2) :
    df_same_run (r < (df_loop_body E q ltb e r lower_tail s1).i)
      (df_loop_body E q ltb e r lower_tail s1) (df_loop_body E q ltb e r lower_tail s2) := by
  have hA := df_advance_same_run E q ltb e _ s1 s2 h
  have hB := df_midpoint_same_run E _ _ _ hA
  have hC := df_two_sided_same_run e r _ _ _ hB
  have hD := df_one_sided_same_run E r lower_tail _ _ _ hC
  have hi : (df_one_sided E r lower_tail
      (df_two_sided e r (df_midpoint E (df_advance E q ltb e s1)))).i = s1.i := by
    rw [(df_one_sided_spec E r lower_tail _).1]
    have hC2 : (df_two_sided e r (df_midpoint E (df_advance E q ltb e s1))).i
        = (df_midpoint E (df_advance E q ltb e s1)).i := by
      unfold df_two_sided
      dsimp only
      split_ifs <;> rfl
    rw [hC2, (df_midpoint_spec E _).1, (df_advance_spec E q ltb e s1).1]
  have hi2 : (df_two_sided e r (df_midpoint E (df_advance E q ltb e s1))).i = s1.i := by
    have hC2 : (df_two_sided e r (df_midpoint E (df_advance E q ltb e s1))).i
        = (df_midpoint E (df_advance E q ltb e s1)).i := by
      unfold df_two_sided
      dsimp only
      split_ifs <;> rfl
    rw [hC2, (df_midpoint_spec E _).1, (df_advance_spec E q ltb e s1).1]
  have hD' : df_same_run (r ≤ (df_one_sided E r lower_tail
      (df_two_sided e r (df_midpoint E (df_advance E q ltb e s1)))).i)
      (df_one_sided E r lower_tail (df_two_sided e r (df_midpoint E (df_advance E q ltb e s1))))
      (df_one_sided E r lower_tail
        (df_two_sided e r (df_midpoint E (df_advance E q ltb e s2)))) := by
    refine df_same_run_of_imp ?_ hD
    intro hle
    rw [hi] at hle
    rw [hi2]
    omega
  exact df_continue_same_run r _ _ hD'

/-- Two runs that start together end together, or are both still running when the fuel is
spent. -/
theorem df_loop_same_run (E : Lib α) (q ltb e : α) (r : Nat) (lower_tail : Bool) (fuel : Nat) :
    ∀ (s1 s2 : DfLoop α), df_same_run (r < s1.i) s1 s2 →
      (df_loop E q ltb e r lower_tail fuel s1 = none ∧
        df_loop E q ltb e r lower_tail fuel s2 = none) ∨
      ∃ s1' s2', df_loop E q ltb e r lower_tail fuel s1 = some s1' ∧
        df_loop E q ltb e r lower_tail fuel s2 = some s2' ∧
        df_same_run (r < s1'.i) s1' s2' := by
  induction fuel with
  | zero =>
    intro s1 s2 h
    have hk : s1.keep_looping = s2.keep_looping := h.2.2.2.2.2.2.2.1
    cases hk2 : s2.keep_looping
    · right
      rw [hk2] at hk
      exact ⟨s1, s2, df_loop_stopped E q ltb e r lower_tail s1 hk 0,
        df_loop_stopped E q ltb e r lower_tail s2 hk2 0, h⟩
    · left
      rw [hk2] at hk
      simp [df_loop, hk, hk2]
  | succ fuel ih =>
    intro s1 s2 h
    have hk : s1.keep_looping = s2.keep_looping := h.2.2.2.2.2.2.2.1
    cases hk2 : s2.keep_looping
    · right
      rw [hk2] at hk
      exact ⟨s1, s2, df_loop_stopped E q ltb e r lower_tail s1 hk _,
        df_loop_stopped E q ltb e r lower_tail s2 hk2 _, h⟩
    · rw [hk2] at hk
      rw [df_loop_step E q ltb e r lower_tail s1 hk, df_loop_step E q ltb e r lower_tail s2 hk2]
      exact ih _ _ (df_loop_body_same_run E q ltb e r lower_tail s1 s2 h)

/-- The predictive masses and tail values at `alpha_star = beta_star = 1`, `t = 1`, where
`t_b = 1/2` and `e_log_pdf_const = 1/2`: the masses are `1/2, 1/4, 1/8` (here without the factor
`1/2`) and the tail values `1/2, 1/2, 1/4`. -/
theorem unit_tail_values :
    nb_pmf (1 : ℝ) (1 / 2) 1 0 = 1 ∧ nb_pmf (1 : ℝ) (1 / 2) 1 1 = 1 / 2 ∧
    nb_pmf (1 : ℝ) (1 / 2) 1 2 = 1 / 4 ∧
    nb_mass_below (1 : ℝ) (1 / 2) 1 0 = 0 ∧ nb_mass_below (1 : ℝ) (1 / 2) 1 1 = 1 ∧
    nb_mass_below (1 : ℝ) (1 / 2) 1 2 = 3 / 2 ∧ nb_mass_below (1 : ℝ) (1 / 2) 1 3 = 7 / 4 ∧
    tail_value (1 / 2 : ℝ) 1 (1 / 2) 0 = 1 / 2 ∧ tail_value (1 / 2 : ℝ) 1 (1 / 2) 1 = 1 / 2 ∧
    tail_value (1 / 2 : ℝ) 1 (1 / 2) 2 = 1 / 4 := by
  have hmb0 : nb_mass_below (1 : ℝ) (1 / 2) 1 0 = 0 := by simp [nb_mass_below]
  have hp0 : nb_pmf (1 : ℝ) (1 / 2) 1 0 = 1 := rfl
  have hp1 : nb_pmf (1 : ℝ) (1 / 2) 1 1 = 1 / 2 := by
    rw [nb_pmf_succ, hp0]
    norm_num
  have hp2 : nb_pmf (1 : ℝ) (1 / 2) 1 2 = 1 / 4 := by
    rw [nb_pmf_succ, hp1]
    norm_num
  have hmb1 : nb_mass_below (1 : ℝ) (1 / 2) 1 1 = 1 := by
    rw [nb_mass_below_succ, hmb0, hp0]
    norm_num
  have hmb2 : nb_mass_below (1 : ℝ) (1 / 2) 1 2 = 3 / 2 := by
    rw [nb_mass_below_succ, hmb1, hp1]
    norm_num
  have hmb3 : nb_mass_below (1 : ℝ) (1 / 2) 1 3 = 7 / 4 := by
    rw [nb_mass_below_succ, hmb2, hp2]
    norm_num
  refine ⟨hp0, hp1, hp2, hmb0, hmb1, hmb2, hmb3, ?_, ?_, ?_⟩
  · unfold tail_value
    rw [hmb0, hmb1]
    norm_num
  · unfold tail_value
    rw [hmb1, hmb2]
    norm_num
  · unfold tail_value
    rw [hmb2, hmb3]
    norm_num

/-- The call with `alpha_star = beta_star = 1`, `t = 1`, `r = 0`, traced: the predictive masses
are `1/2, 1/4, 1/8, ...`, the tail values `1/2, 1/2, 1/4, ...`, the loop stops in its third
pass, and the upper two-sided endpoint is the complement of the masses `1/4` and `1/8` of the
counts `1` and `2`, each counted only if its tail value exceeds the staged minimum tail. -/
theorem df_unit_trace (E : Lib ℝ) (hE : E.Exact) (m : pp_model ℝ) (lower_tail : Bool)
    (ha : m.m_alpha_star = 1) (hb : m.m_beta_star = 1) :
    ∃ res, calculate_log_posterior_predictive_df E m 1 0 lower_tail 3 = some res ∧
      res.2.m_predictive_two_sided_df
        = 1 - ((if 1 / 2 > m.m_minimum_tail then 1 / 4 else 0)
          + (if 1 / 4 > m.m_minimum_tail then 1 / 8 else 0)) := by
  have ha0 : 0 < m.m_alpha_star := by rw [ha]; exact one_pos
  have hb0 : 0 < m.m_beta_star := by rw [hb]; exact one_pos
  obtain ⟨hq0, hq1⟩ := ratio_pos_lt_one hb0 (one_pos : (0 : ℝ) < 1)
  have hqv : (1 : ℝ) / (m.m_beta_star + 1) = 1 / 2 := by rw [hb]; norm_num
  have hev : (1 - (1 : ℝ) / 2) ^ (1 : ℝ) = 1 / 2 := by rw [Real.rpow_one]; norm_num
  obtain ⟨hp0, hp1, hp2, hmb0, hmb1, hmb2, hmb3, hT0, hT1, hT2⟩ := unit_tail_values
  have hlc : Real.exp (m.m_alpha_star * (E.log m.m_beta_star - E.log (m.m_beta_star + 1)))
      = (1 - 1 / (m.m_beta_star + 1)) ^ m.m_alpha_star := by
    rw [hE.1]
    exact exp_log_pdf_const hb0 one_pos
  have hrun := df_init_running E m 1 0
  rw [hE.2.1, hlc] at hrun
  obtain ⟨s', hs'⟩ := df_loop_ends E hE ha0 hq0 hq1 _ m.m_minimum_tail
    (E.log 1 - E.log (m.m_beta_star + 1)) hlc 0 lower_tail 2 (by norm_num)
    (by rw [hqv, ha, hev, hmb3]; norm_num)
    (by rw [hqv, ha, hev, hmb2, hmb0, hmb1]; norm_num)
    2 0 (df_init E m 1) hrun (by norm_num)
  have hres : calculate_log_posterior_predictive_df E m 1 0 lower_tail 3
      = some (df_finish E s') := by
    rw [calculate_log_posterior_predictive_df_eq E hE m 1 0 lower_tail hb0 one_pos, hs']
    rfl
  refine ⟨df_finish E s', hres, ?_⟩
  obtain ⟨K, hK3, hK0, hK, hD, -⟩ := calculate_log_posterior_predictive_df_two_sided E hE m 1 0
    lower_tail ha0 hb0 one_pos 3 _ hres
  rw [hqv, ha, hev] at hK hD
  have hK2 : K = 2 := by
    rcases Nat.lt_or_ge K 2 with h | h
    · have hK1 : K = 1 := by omega
      rw [hK1, hT1, hT0] at hK
      exact absurd hK (lt_irrefl _)
    · omega
  rw [hD, hK2]
  simp only [Finset.sum_range_succ, Finset.sum_range_zero, hT0, hT1, hT2, hp0, hp1, hp2]
  norm_num

/-- C19, as written, fails: two objects with `alpha_star = beta_star = 1` that differ only in
what an earlier query staged (`calculate_log_posterior_predictive_pdf(1, 0)` left the minimum
tail `1/2`, `calculate_log_posterior_predictive_pdf(1, 2)` left `1/4`) give, for the same call
`calculate_log_posterior_predictive_df(1, 0, false)`, the upper two-sided endpoints `1` and
`3/4`. -/
theorem predictive_df_staging_counterexample :
    ∃ res1 res2,
      calculate_log_posterior_predictive_df (Lib.ofFns Real.log Real.exp (Real.log ∘ Real.Gamma))
        (calculate_log_posterior_predictive_pdf
          (Lib.ofFns Real.log Real.exp (Real.log ∘ Real.Gamma))
          { (pp_model.blank : pp_model ℝ) with m_alpha_star := 1, m_beta_star := 1 } 1 0).2
        1 0 false 3 = some res1 ∧
      calculate_log_posterior_predictive_df (Lib.ofFns Real.log Real.exp (Real.log ∘ Real.Gamma))
        (calculate_log_posterior_predictive_pdf
          (Lib.ofFns Real.log Real.exp (Real.log ∘ Real.Gamma))
          { (pp_model.blank : pp_model ℝ) with m_alpha_star := 1, m_beta_star := 1 } 1 2).2
        1 0 false 3 = some res2 ∧
      (calculate_log_posterior_predictive_pdf
          (Lib.ofFns Real.log Real.exp (Real.log ∘ Real.Gamma))
          { (pp_model.blank : pp_model ℝ) with m_alpha_star := 1, m_beta_star := 1 } 1 0).2.m_alpha_star
        = (calculate_log_posterior_predictive_pdf
          (Lib.ofFns Real.log Real.exp (Real.log ∘ Real.Gamma))
          { (pp_model.blank : pp_model ℝ) with m_alpha_star := 1, m_beta_star := 1 } 1 2).2.m_alpha_star ∧
      (calculate_log_posterior_predictive_pdf
          (Lib.ofFns Real.log Real.exp (Real.log ∘ Real.Gamma))
          { (pp_model.blank : pp_model ℝ) with m_alpha_star := 1, m_beta_star := 1 } 1 0).2.m_beta_star
        = (calculate_log_posterior_predictive_pdf
          (Lib.ofFns Real.log Real.exp (Real.log ∘ Real.Gamma))
          { (pp_model.blank : pp_model ℝ) with m_alpha_star := 1, m_beta_star := 1 } 1 2).2.m_beta_star ∧
      res1.2.m_predictive_two_sided_df = 1 ∧ res2.2.m_predictive_two_sided_df = 3 / 4 := by
  obtain ⟨-, -, -, -, -, -, -, hT0, -, hT2⟩ := unit_tail_values
  have h12 : (1 : ℝ) / (1 + 1) = 1 / 2 := by norm_num
  have hev : (1 - (1 : ℝ) / 2) ^ (1 : ℝ) = 1 / 2 := by rw [Real.rpow_one]; norm_num
  obtain ⟨-, -, -, -, a5, a6, -⟩ := calculate_log_posterior_predictive_pdf_same_scan
    (Lib.ofFns Real.log Real.exp (Real.log ∘ Real.Gamma))
    { (pp_model.blank : pp_model ℝ) with m_alpha_star := 1, m_beta_star := 1 } 1 0
  obtain ⟨-, -, -, -, b5, b6, -⟩ := calculate_log_posterior_predictive_pdf_same_scan
    (Lib.ofFns Real.log Real.exp (Real.log ∘ Real.Gamma))
    { (pp_model.blank : pp_model ℝ) with m_alpha_star := 1, m_beta_star := 1 } 1 2
  have hmtA : (calculate_log_posterior_predictive_pdf
      (Lib.ofFns Real.log Real.exp (Real.log ∘ Real.Gamma))
      { (pp_model.blank : pp_model ℝ) with m_alpha_star := 1, m_beta_star := 1 }
      1 0).2.m_minimum_tail
      = tail_value ((1 : ℝ) / (1 + 1)) 1 ((1 - 1 / (1 + 1)) ^ (1 : ℝ)) 0 :=
    pdf_stages_tail_value (Lib.ofFns Real.log Real.exp (Real.log ∘ Real.Gamma)) ⟨rfl, rfl, rfl⟩
      { (pp_model.blank : pp_model ℝ) with m_alpha_star := 1, m_beta_star := 1 } 1 0
      one_pos one_pos one_pos (by norm_num [ULL])
  have hmtB : (calculate_log_posterior_predictive_pdf
      (Lib.ofFns Real.log Real.exp (Real.log ∘ Real.Gamma))
      { (pp_model.blank : pp_model ℝ) with m_alpha_star := 1, m_beta_star := 1 }
      1 2).2.m_minimum_tail
      = tail_value ((1 : ℝ) / (1 + 1)) 1 ((1 - 1 / (1 + 1)) ^ (1 : ℝ)) 2 :=
    pdf_stages_tail_value (Lib.ofFns Real.log Real.exp (Real.log ∘ Real.Gamma)) ⟨rfl, rfl, rfl⟩
      { (pp_model.blank : pp_model ℝ) with m_alpha_star := 1, m_beta_star := 1 } 1 2
      one_pos one_pos one_pos (by norm_num [ULL])
  rw [h12, hev, hT0] at hmtA
  rw [h12, hev, hT2] at hmtB
  obtain ⟨res1, hres1, hD1⟩ := df_unit_trace
    (Lib.ofFns Real.log Real.exp (Real.log ∘ Real.Gamma)) ⟨rfl, rfl, rfl⟩ _ false a5 a6
  obtain ⟨res2, hres2, hD2⟩ := df_unit_trace
    (Lib.ofFns Real.log Real.exp (Real.log ∘ Real.Gamma)) ⟨rfl, rfl, rfl⟩ _ false b5 b6
  refine ⟨res1, res2, hres1, hres2, a5.trans b5.symm, a6.trans b6.symm, ?_, ?_⟩
  · rw [hD1, hmtA]
    norm_num
  · rw [hD2, hmtB]
    norm_num

/-- Two calls of `calculate_log_posterior_predictive_df` with `t > 0` on objects that agree on
`alpha_star`, `beta_star` and the staged minimum tail run together: both are still running when
the fuel is spent, or both return, with the same value, one-sided pair, two-sided probabilities
and survivor midpoint. -/
theorem calculate_log_posterior_predictive_df_same_run (E : Lib α) (m1 m2 : pp_model α)
    (t : α) (r : Nat) (lower_tail : Bool) (fuel : Nat)
    (ha : m1.m_alpha_star = m2.m_alpha_star) (hb : m1.m_beta_star = m2.m_beta_star)
    (hmt : m1.m_minimum_tail = m2.m_minimum_tail) (ht : 0 < t) :
    (calculate_log_posterior_predictive_df E m1 t r lower_tail fuel = none ∧
      calculate_log_posterior_predictive_df E m2 t r lower_tail fuel = none) ∨
    ∃ res1 res2, calculate_log_posterior_predictive_df E m1 t r lower_tail fuel = some res1 ∧
      calculate_log_posterior_predictive_df E m2 t r lower_tail fuel = some res2 ∧
      res1.1 = res2.1 ∧ res1.2.m_pvalue_pair = res2.2.m_pvalue_pair ∧
      res1.2.m_predictive_two_sided_df = res2.2.m_predictive_two_sided_df ∧
      res1.2.m_predictive_two_sided_df2 = res2.2.m_predictive_two_sided_df2 ∧
      res1.2.m_survivor_midpoint = res2.2.m_survivor_midpoint := by
  have hlc : (df_init E m1 t).m.m_log_pdf_const = (df_init E m2 t).m.m_log_pdf_const := by
    show m1.m_alpha_star * (E.log m1.m_beta_star - E.log (m1.m_beta_star + t))
      = m2.m_alpha_star * (E.log m2.m_beta_star - E.log (m2.m_beta_star + t))
    rw [ha, hb]
  have hinit : df_same_run (0 < (df_init E m1 t).i) (df_init E m1 t) (df_init E m2 t) := by
    refine ⟨rfl, rfl, rfl, rfl, rfl, rfl, rfl, rfl, ?_, ha, hlc, hmt, rfl, rfl, rfl, ?_⟩
    · show E.exp (df_init E m1 t).m.m_log_pdf_const * 1
        = E.exp (df_init E m2 t).m.m_log_pdf_const * 1
      rw [hlc]
    · intro h
      exact absurd h (lt_irrefl 0)
  have hinit' : df_same_run (r < (df_init E m1 t).i) (df_init E m1 t) (df_init E m2 t) :=
    df_same_run_of_imp (fun h => absurd h (Nat.not_lt_zero r)) hinit
  unfold calculate_log_posterior_predictive_df
  rw [if_neg (not_le.mpr ht), if_neg (not_le.mpr ht)]
  dsimp only
  rw [hlc, hb]
  rcases df_loop_same_run E (t / (m2.m_beta_star + t)) (E.log t - E.log (m2.m_beta_star + t))
      (E.exp (df_init E m2 t).m.m_log_pdf_const) r lower_tail fuel _ _ hinit' with
    ⟨h1, h2⟩ | ⟨s1, s2, h1, h2, -, -, -, -, e5, e6, -, -, -, -, -, -, e13, e14, e15, -⟩
  · left
    rw [h1, h2]
    exact ⟨rfl, rfl⟩
  · right
    rw [h1, h2]
    refine ⟨df_finish E s1, df_finish E s2, rfl, rfl, ?_, ?_, e14, e15, e13⟩
    · unfold df_finish
      dsimp only
      rw [e5, e6]
    · unfold df_finish
      dsimp only
      rw [e5, e6]

/-- C19, amended: besides `alpha_star`, `beta_star` and its arguments,
`calculate_log_posterior_predictive_df` reads the minimum tail that an earlier
`calculate_log_posterior_predictive_pdf` staged. For `t > 0` and any two objects that agree on
`alpha_star`, `beta_star` and `m_minimum_tail`, whatever the other members hold
(`m_log_predictive_df` included, which the loop reads only after writing it), the two calls with
equal arguments make the same number of passes and return the same value, one-sided pair and
two-sided probabilities, and they do return for `alpha_star, beta_star > 0` in exact arithmetic;
for `t <= 0` the call returns `-LOG_TWO` and leaves the object as it found it. -/
theorem predictive_df_staged_inputs (E : Lib ℝ) (m1 m2 : pp_model ℝ) (t : ℝ) (r : Nat)
    (lower_tail : Bool) (ha : m1.m_alpha_star = m2.m_alpha_star)
    (hb : m1.m_beta_star = m2.m_beta_star) (hmt : m1.m_minimum_tail = m2.m_minimum_tail) :
    (0 < t → ∀ fuel,
      (calculate_log_posterior_predictive_df E m1 t r lower_tail fuel = none ∧
        calculate_log_posterior_predictive_df E m2 t r lower_tail fuel = none) ∨
      ∃ res1 res2, calculate_log_posterior_predictive_df E m1 t r lower_tail fuel = some res1 ∧
        calculate_log_posterior_predictive_df E m2 t r lower_tail fuel = some res2 ∧
        res1.1 = res2.1 ∧ res1.2.m_pvalue_pair = res2.2.m_pvalue_pair ∧
        res1.2.m_predictive_two_sided_df = res2.2.m_predictive_two_sided_df ∧
        res1.2.m_predictive_two_sided_df2 = res2.2.m_predictive_two_sided_df2) ∧
    (0 < t → E.Exact → 0 < m1.m_alpha_star → 0 < m1.m_beta_star →
      ∃ fuel res1 res2, calculate_log_posterior_predictive_df E m1 t r lower_tail fuel = some res1 ∧
        calculate_log_posterior_predictive_df E m2 t r lower_tail fuel = some res2) ∧
    (t ≤ 0 → ∀ fuel,
      calculate_log_posterior_predictive_df E m1 t r lower_tail fuel = some (-E.LOG_TWO, m1) ∧
      calculate_log_posterior_predictive_df E m2 t r lower_tail fuel = some (-E.LOG_TWO, m2)) := by
  refine ⟨?_, ?_, ?_⟩
  · intro ht fuel
    rcases calculate_log_posterior_predictive_df_same_run E m1 m2 t r lower_tail fuel ha hb hmt ht
      with h | ⟨res1, res2, h1, h2, e1, e2, e3, e4, -⟩
    · exact Or.inl h
    · exact Or.inr ⟨res1, res2, h1, h2, e1, e2, e3, e4⟩
  · intro ht hE ha0 hb0
    obtain ⟨fuel, res1, h1⟩ := calculate_log_posterior_predictive_df_returns E hE m1 t r
      lower_tail ha0 hb0 ht
    rcases calculate_log_posterior_predictive_df_same_run E m1 m2 t r lower_tail fuel ha hb hmt ht
      with ⟨hn, -⟩ | ⟨r1, r2, -, h2, -⟩
    · rw [h1] at hn
      cases hn
    · exact ⟨fuel, res1, r2, h1, h2⟩
  · intro ht fuel
    exact ⟨predictive_df_empty_window E m1 t r lower_tail fuel ht,
      predictive_df_empty_window E m2 t r lower_tail fuel ht⟩

/-- C19, amended, on two objects with `alpha_star = beta_star = 1` and no staged minimum tail
that differ in the staged `m_log_predictive_df`, for the call with `t = 1`, `r = 0`, upper
tail, its loop run for at most 3 passes. -/
theorem predictive_df_staged_inputs_witness :
    (calculate_log_posterior_predictive_df (Lib.ofFns Real.log Real.exp (Real.log ∘ Real.Gamma))
        { (pp_model.blank : pp_model ℝ) with
          m_alpha_star := 1, m_beta_star := 1, m_log_predictive_df := 0 }
        1 0 false 3 = none ∧
      calculate_log_posterior_predictive_df (Lib.ofFns Real.log Real.exp (Real.log ∘ Real.Gamma))
        { (pp_model.blank : pp_model ℝ) with
          m_alpha_star := 1, m_beta_star := 1, m_log_predictive_df := 7 }
        1 0 false 3 = none) ∨
    ∃ res1 res2,
      calculate_log_posterior_predictive_df (Lib.ofFns Real.log Real.exp (Real.log ∘ Real.Gamma))
        { (pp_model.blank : pp_model ℝ) with
          m_alpha_star := 1, m_beta_star := 1, m_log_predictive_df := 0 }
        1 0 false 3 = some res1 ∧
      calculate_log_posterior_predictive_df (Lib.ofFns Real.log Real.exp (Real.log ∘ Real.Gamma))
        { (pp_model.blank : pp_model ℝ) with
          m_alpha_star := 1, m_beta_star := 1, m_log_predictive_df := 7 }
        1 0 false 3 = some res2 ∧
      res1.1 = res2.1 ∧ res1.2.m_pvalue_pair = res2.2.m_pvalue_pair ∧
      res1.2.m_predictive_two_sided_df = res2.2.m_predictive_two_sided_df ∧
      res1.2.m_predictive_two_sided_df2 = res2.2.m_predictive_two_sided_df2 :=
  (predictive_df_staged_inputs (Lib.ofFns Real.log Real.exp (Real.log ∘ Real.Gamma))
    { (pp_model.blank : pp_model ℝ) with
      m_alpha_star := 1, m_beta_star := 1, m_log_predictive_df := 0 }
    { (pp_model.blank : pp_model ℝ) with
      m_alpha_star := 1, m_beta_star := 1, m_log_predictive_df := 7 }
    1 0 false rfl rfl rfl).1 one_pos 3

/-! ### The locals and the survivor midpoint through one pass -/

/-- The update of lines 279-293 leaves `df` and `df2` and adds the logarithm of the ratio to
`log_pmf`. -/
theorem df_advance_locals (E : Lib α) (q ltb e : α) (s : DfLoop α) :
    (df_advance E q ltb e s).df = s.df ∧ (df_advance E q ltb e s).df2 = s.df2 ∧
    (df_advance E q ltb e s).log_pmf
      = (if 0 < s.i then
          s.log_pmf + (ltb + E.log (s.m.m_alpha_star + (s.i : α) - 1) - E.log (s.i : α))
          else s.log_pmf) := by
  unfold df_advance
  by_cases hi : s.i > 0
  · simp only [hi, if_true]
    split_ifs <;> exact ⟨rfl, rfl, rfl⟩
  · simp [hi]

/-- The midpoint search of lines 294-299 leaves the one-sided locals and records `g_i` as the
survivor midpoint when it finds the midpoint. -/
theorem df_midpoint_locals (E : Lib α) (s : DfLoop α) :
    (df_midpoint E s).df = s.df ∧ (df_midpoint E s).df2 = s.df2 ∧
    (df_midpoint E s).log_pmf = s.log_pmf ∧
    (df_midpoint E s).m.m_survivor_midpoint
      = (if s.found_mid_point = false ∧ s.m.m_log_pdf_const + E.log s.pmf_sum ≥ -E.LOG_TWO
          then s.g_i else s.m.m_survivor_midpoint) := by
  unfold df_midpoint
  by_cases hf : s.found_mid_point = false
  · by_cases hc : s.m.m_log_pdf_const + E.log s.pmf_sum ≥ -E.LOG_TWO
    · rw [if_pos hf, if_pos hc, if_pos ⟨hf, hc⟩]
      exact ⟨rfl, rfl, rfl, rfl⟩
    · rw [if_pos hf, if_neg hc, if_neg (fun h => hc h.2)]
      exact ⟨rfl, rfl, rfl, rfl⟩
  · rw [if_neg hf, if_neg (fun h => hf h.1)]
    exact ⟨rfl, rfl, rfl, rfl⟩

/-- The two-sided accumulation of lines 302-311, guard included, leaves the counter, the running
sum, the one-sided locals, `m_log_pdf_const` and the survivor midpoint. -/
theorem df_two_sided_locals (e : α) (r : Nat) (s : DfLoop α) :
    (df_two_sided e r s).i = s.i ∧ (df_two_sided e r s).pmf_sum = s.pmf_sum ∧
    (df_two_sided e r s).log_pmf = s.log_pmf ∧ (df_two_sided e r s).df = s.df ∧
    (df_two_sided e r s).df2 = s.df2 ∧
    (df_two_sided e r s).m.m_log_pdf_const = s.m.m_log_pdf_const ∧
    (df_two_sided e r s).m.m_survivor_midpoint = s.m.m_survivor_midpoint := by
  unfold df_two_sided
  dsimp only
  split_ifs <;> exact ⟨rfl, rfl, rfl, rfl, rfl, rfl, rfl⟩

/-- The one-sided bookkeeping of lines 312-334: the values of `df` and `df2` after it. -/
theorem df_one_sided_values (E : Lib α) (r : Nat) (lower_tail : Bool) (s : DfLoop α) :
    (df_one_sided E r lower_tail s).log_pmf = s.log_pmf ∧
    (df_one_sided E r lower_tail s).m.m_survivor_midpoint = s.m.m_survivor_midpoint ∧
    (df_one_sided E r lower_tail s).df
      = (if s.i = usub r 1 then
          (if lower_tail = true then s.df
           else if s.m.m_log_pdf_const + E.log (E.exp (-s.m.m_log_pdf_const) - s.pmf_sum) ≥ 0
             then -E.exp s.m.m_log_pdf_const * s.pmf_sum
             else s.m.m_log_pdf_const + E.log (E.exp (-s.m.m_log_pdf_const) - s.pmf_sum))
         else if s.i = r then
          (if lower_tail = true then s.m.m_log_pdf_const + E.log s.pmf_sum
           else if s.log_pmf + s.m.m_log_pdf_const > s.df
             then s.log_pmf + s.m.m_log_pdf_const else s.df)
         else s.df) ∧
    (df_one_sided E r lower_tail s).df2
      = (if s.i = usub r 1 then
          (if lower_tail = true then s.m.m_log_pdf_const + E.log s.pmf_sum else s.df2)
         else if s.i = r then
          (if lower_tail = true then s.df2
           else if s.m.m_log_pdf_const + E.log (E.exp (-s.m.m_log_pdf_const) - s.pmf_sum) ≥ 0
             then -E.exp s.m.m_log_pdf_const * s.pmf_sum
             else s.m.m_log_pdf_const + E.log (E.exp (-s.m.m_log_pdf_const) - s.pmf_sum))
         else s.df2) := by
  unfold df_one_sided
  by_cases h1 : s.i = usub r 1
  · simp only [h1.symm, if_true]
    cases lower_tail
    · simp only [Bool.false_eq_true, if_false]
      split_ifs <;> exact ⟨rfl, rfl, rfl, rfl⟩
    · simp only [if_true]
      refine ⟨?_, ?_, ?_, ?_⟩ <;> first | rfl | trivial
  · simp only [h1, if_false]
    by_cases h2 : s.i = r
    · simp only [h2, if_true]
      cases lower_tail
      · simp only [Bool.false_eq_true, if_false]
        split_ifs <;> exact ⟨rfl, rfl, rfl, rfl⟩
      · simp only [if_true]
        refine ⟨?_, ?_, ?_, ?_⟩ <;> first | rfl | trivial
    · simp only [h2, if_false]
      refine ⟨?_, ?_, ?_, ?_⟩ <;> first | rfl | trivial

/-- The increment and the loop test of lines 335-342 leave the one-sided locals and the
survivor midpoint. -/
theorem df_continue_locals (r : Nat) (s : DfLoop α) :
    (df_continue r s).df = s.df ∧ (df_continue r s).df2 = s.df2 ∧
    (df_continue r s).log_pmf = s.log_pmf ∧
    (df_continue r s).m.m_survivor_midpoint = s.m.m_survivor_midpoint := by
  unfold df_continue
  dsimp only
  split_ifs <;> exact ⟨rfl, rfl, rfl, rfl⟩

/-- The survivor midpoint after one pass of the loop. -/
theorem df_loop_body_midpoint (E : Lib α) (q ltb e : α) (r : Nat) (lower_tail : Bool)
    (s : DfLoop α) :
    (df_loop_body E q ltb e r lower_tail s).m.m_survivor_midpoint
      = (if s.found_mid_point = false ∧
            s.m.m_log_pdf_const + E.log (df_advance E q ltb e s).pmf_sum ≥ -E.LOG_TWO
          then (df_advance E q ltb e s).g_i else s.m.m_survivor_midpoint) := by
  obtain ⟨-, -, a_f, a_m, -, -, -⟩ := df_advance_spec E q ltb e s
  unfold df_loop_body
  rw [(df_continue_locals r _).2.2.2, (df_one_sided_values E r lower_tail _).2.1,
    (df_two_sided_locals e r _).2.2.2.2.2.2, (df_midpoint_locals E _).2.2.2, a_f, a_m]

/-- The tests of one pass of the loop under the exact invariant: the midpoint has been found
before the pass exactly when the mass of the counts below `k` has reached one half, after it
exactly when the mass of the counts up to `k` has; the loop stops with this pass exactly when
`k` is past `r`, the midpoint has been found and the tail value of `k` is strictly below that of
`r`; and the pass records the tail value of `k` as the survivor midpoint exactly when it finds
the midpoint; the counter is then `k + 1`. -/
theorem df_pass_test (E : Lib ℝ) (hE : E.Exact) {a q : ℝ} (ha : 0 < a) (hq0 : 0 < q)
    (hq1 : q < 1) (lc mt ltb : ℝ) (hlc : Real.exp lc = (1 - q) ^ a) (r k : Nat)
    (lower_tail : Bool) (s : DfLoop ℝ) (hex : df_exact q a lc ((1 - q) ^ a) mt r k s) :
    (s.found_mid_point = true ↔ 1 / 2 ≤ (1 - q) ^ a * nb_mass_below 1 q a k) ∧
    ((df_loop_body E q ltb ((1 - q) ^ a) r lower_tail s).found_mid_point = true ↔
      1 / 2 ≤ (1 - q) ^ a * nb_mass_below 1 q a (k + 1)) ∧
    ((df_loop_body E q ltb ((1 - q) ^ a) r lower_tail s).keep_looping = false ↔
      (r < k ∧ 1 / 2 ≤ (1 - q) ^ a * nb_mass_below 1 q a (k + 1) ∧
        tail_value q a ((1 - q) ^ a) k < tail_value q a ((1 - q) ^ a) r)) ∧
    (df_loop_body E q ltb ((1 - q) ^ a) r lower_tail s).m.m_survivor_midpoint
      = (if s.found_mid_point = false ∧ 1 / 2 ≤ (1 - q) ^ a * nb_mass_below 1 q a (k + 1)
          then tail_value q a ((1 - q) ^ a) k else s.m.m_survivor_midpoint) ∧
    (df_loop_body E q ltb ((1 - q) ^ a) r lower_tail s).i = k + 1 := by
  have he0 : 0 < (1 - q) ^ a := Real.rpow_pos_of_pos (by linarith) _
  have hlt : ∀ n, (1 - q) ^ a * nb_mass_below 1 q a n < 1 := by
    intro n
    rw [← nb_mass_below_scale_one]
    exact nb_mass_below_lt_one ha hq0 hq1 n
  have he1 : (1 - q) ^ a ≤ 1 := Real.rpow_le_one (by linarith) (by linarith) ha.le
  have hpk : 0 < nb_pmf 1 q a k := nb_pmf_pos one_pos hq0 ha k
  have hmono : nb_mass_below 1 q a k ≤ nb_mass_below 1 q a (k + 1) :=
    nb_mass_below_mono one_pos hq0 ha (Nat.le_succ _)
  have hSpos : 0 < nb_mass_below 1 q a (k + 1) := by
    have h0 : nb_mass_below (1 : ℝ) q a 0 = 0 := by simp [nb_mass_below]
    have := nb_mass_below_mono (one_pos) hq0 ha (Nat.zero_le k)
    rw [h0] at this
    rw [nb_mass_below_succ]
    linarith
  obtain ⟨hrun, hfnd, -, -, hpd⟩ := hex
  have hg := df_advance_tail_value E q ltb a lc _ mt r k s hq0 ha he0 he1 hrun hfnd
  obtain ⟨A_pmf, A_sum, -, -⟩ := df_advance_running E q ltb a lc ((1 - q) ^ a) mt r k s hrun
  have hmid := df_loop_body_midpoint E q ltb ((1 - q) ^ a) r lower_tail s
  obtain ⟨hi, hk, hal, hlcs, hmt, -, -, -, -, hD2le, -, hfound, -⟩ := hrun
  obtain ⟨B_i, B_pmf, B_sum, B_g, B_f, B_a, B_lc, B_mt, B_pd, B_go, B_stop⟩ :=
    df_loop_body_spec E q ltb ((1 - q) ^ a) r lower_tail s hk (by rw [A_pmf]; exact hpk)
      (lt_of_le_of_lt hD2le (hlt k))
  rw [A_sum, hlcs, midpoint_test_iff E hE hlc hSpos] at B_f
  rw [A_sum, hlcs, hg] at hmid
  simp only [midpoint_test_iff E hE hlc hSpos] at hmid
  rw [hi, hg] at B_go B_stop
  rw [hi, hg] at B_pd
  have hpd' : r < k + 1 →
      (df_loop_body E q ltb ((1 - q) ^ a) r lower_tail s).m.m_log_predictive_df
        = tail_value q a ((1 - q) ^ a) r := by
    intro hrk
    rw [B_pd]
    by_cases hkr : k = r
    · rw [if_pos hkr, hkr]
    · rw [if_neg hkr]
      exact hpd (by omega)
  have hs : s.found_mid_point = true ↔ 1 / 2 ≤ (1 - q) ^ a * nb_mass_below 1 q a k := by
    constructor
    · exact hfnd
    · intro h
      rcases Nat.eq_zero_or_pos k with h0 | hpos
      · subst h0
        have h0 : nb_mass_below (1 : ℝ) q a 0 = 0 := by simp [nb_mass_below]
        rw [h0, mul_zero] at h
        norm_num at h
      · exact hfound hpos h
  have hb : (df_loop_body E q ltb ((1 - q) ^ a) r lower_tail s).found_mid_point = true ↔
      1 / 2 ≤ (1 - q) ^ a * nb_mass_below 1 q a (k + 1) := by
    rw [B_f]
    constructor
    · rintro (h | h)
      · have h1 := hfnd h
        have h2 := mul_le_mul_of_nonneg_left hmono he0.le
        linarith
      · exact h
    · exact fun h => Or.inr h
  refine ⟨hs, hb, ?_, hmid, by rw [B_i, hi]⟩
  by_cases hc : k + 1 ≤ r ∨
      (df_loop_body E q ltb ((1 - q) ^ a) r lower_tail s).found_mid_point = false ∨
      tail_value q a ((1 - q) ^ a) k
        ≥ (df_loop_body E q ltb ((1 - q) ^ a) r lower_tail s).m.m_log_predictive_df
  · have hkeep := (B_go hc).1
    constructor
    · intro h
      rw [hkeep] at h
      cases h
    · rintro ⟨h1, h2, h3⟩
      exfalso
      rcases hc with h | h | h
      · omega
      · rw [hb.mpr h2] at h
        cases h
      · rw [hpd' (by omega)] at h
        exact absurd h3 (not_lt.mpr h)
  · have hkeep := (B_stop hc).1
    have h1 : r < k + 1 := by
      by_contra h
      exact hc (Or.inl (by omega))
    have h2 : (df_loop_body E q ltb ((1 - q) ^ a) r lower_tail s).found_mid_point = true := by
      by_contra h
      exact hc (Or.inr (Or.inl (by simpa using h)))
    have h3 : tail_value q a ((1 - q) ^ a) k < tail_value q a ((1 - q) ^ a) r := by
      by_contra h
      exact hc (Or.inr (Or.inr (by rw [hpd' h1]; exact not_lt.mp h)))
    have hrk : r < k := by
      rcases Nat.lt_succ_iff_lt_or_eq.mp h1 with h | h
      · exact h
      · subst h
        exact absurd h3 (lt_irrefl _)
    exact ⟨fun _ => ⟨hrk, hb.mp h2, h3⟩, fun _ => hkeep⟩

/-! ### Where the loop stops -/

/-- There is a first count past `r` at which the midpoint has been found and the tail value is
strictly below that of `r`. -/
theorem exists_first_stop {a q : ℝ} (ha : 0 < a) (hq0 : 0 < q) (hq1 : q < 1) (r : Nat) :
    ∃ K, (r < K ∧ 1 / 2 ≤ (1 - q) ^ a * nb_mass_below 1 q a (K + 1) ∧
        tail_value q a ((1 - q) ^ a) K < tail_value q a ((1 - q) ^ a) r) ∧
      ∀ j, j < K → ¬ (r < j ∧ 1 / 2 ≤ (1 - q) ^ a * nb_mass_below 1 q a (j + 1) ∧
        tail_value q a ((1 - q) ^ a) j < tail_value q a ((1 - q) ^ a) r) := by
  classical
  obtain ⟨K0, hrK, hhalf, hsmall⟩ := exists_stop_index ha hq0 hq1 r
  have hex : ∃ K, r < K ∧ 1 / 2 ≤ (1 - q) ^ a * nb_mass_below 1 q a (K + 1) ∧
      tail_value q a ((1 - q) ^ a) K < tail_value q a ((1 - q) ^ a) r :=
    ⟨K0, hrK, hhalf, lt_of_le_of_lt (min_le_left _ _) hsmall⟩
  exact ⟨Nat.find hex, Nat.find_spec hex, fun j hj => Nat.find_min hex hj⟩

/-- A loop that starts under the exact invariant `n` passes before the first count `K` at which
it must stop is still running after `n` passes and has stopped after `n + 1`, its counter at
`K + 1`. -/
theorem df_loop_runs (E : Lib ℝ) (hE : E.Exact) {a q : ℝ} (ha : 0 < a) (hq0 : 0 < q)
    (hq1 : q < 1) (lc mt ltb : ℝ) (hlc : Real.exp lc = (1 - q) ^ a) (r : Nat)
    (lower_tail : Bool) (K : Nat)
    (hstop : r < K ∧ 1 / 2 ≤ (1 - q) ^ a * nb_mass_below 1 q a (K + 1) ∧
      tail_value q a ((1 - q) ^ a) K < tail_value q a ((1 - q) ^ a) r)
    (hfirst : ∀ j, j < K → ¬ (r < j ∧ 1 / 2 ≤ (1 - q) ^ a * nb_mass_below 1 q a (j + 1) ∧
      tail_value q a ((1 - q) ^ a) j < tail_value q a ((1 - q) ^ a) r))
    (n : Nat) :
    ∀ (k : Nat) (s : DfLoop ℝ), df_exact q a lc ((1 - q) ^ a) mt r k s → k + n = K →
      (∀ fuel, fuel ≤ n → df_loop E q ltb ((1 - q) ^ a) r lower_tail fuel s = none) ∧
      (∀ fuel, n < fuel →
        ∃ s', df_loop E q ltb ((1 - q) ^ a) r lower_tail fuel s = some s' ∧ s'.i = K + 1) := by
  induction n with
  | zero =>
    intro k s hex hk
    have hkK : k = K := by omega
    subst hkK
    have hkeep : s.keep_looping = true := hex.1.2.1
    obtain ⟨-, -, htest, -, hi⟩ := df_pass_test E hE ha hq0 hq1 lc mt ltb hlc r k lower_tail s hex
    constructor
    · intro fuel hfuel
      have h0 : fuel = 0 := by omega
      subst h0
      simp [df_loop, hkeep]
    · intro fuel hfuel
      obtain ⟨f, rfl⟩ : ∃ f, fuel = f + 1 := ⟨fuel - 1, by omega⟩
      rw [df_loop_step E q ltb _ r lower_tail s hkeep,
        df_loop_stopped E q ltb _ r lower_tail _ (htest.mpr hstop)]
      exact ⟨_, rfl, hi⟩
  | succ n ih =>
    intro k s hex hk
    have hkeep : s.keep_looping = true := hex.1.2.1
    obtain ⟨-, -, htest, -, -⟩ := df_pass_test E hE ha hq0 hq1 lc mt ltb hlc r k lower_tail s hex
    have hgo : ¬ (df_loop_body E q ltb ((1 - q) ^ a) r lower_tail s).keep_looping = false :=
      fun h => hfirst k (by omega) (htest.mp h)
    have hnext : df_exact q a lc ((1 - q) ^ a) mt r (k + 1)
        (df_loop_body E q ltb ((1 - q) ^ a) r lower_tail s) := by
      rcases df_pass_exact E hE ha hq0 hq1 lc mt ltb hlc r k lower_tail s hex with
        ⟨-, h⟩ | ⟨h, -⟩
      · exact h
      · exact absurd h hgo
    obtain ⟨ih1, ih2⟩ := ih (k + 1) _ hnext (by omega)
    constructor
    · intro fuel hfuel
      rcases Nat.eq_zero_or_pos fuel with h0 | hpos
      · subst h0
        simp [df_loop, hkeep]
      · obtain ⟨f, rfl⟩ : ∃ f, fuel = f + 1 := ⟨fuel - 1, by omega⟩
        rw [df_loop_step E q ltb _ r lower_tail s hkeep]
        exact ih1 f (by omega)
    · intro fuel hfuel
      obtain ⟨f, rfl⟩ : ∃ f, fuel = f + 1 := ⟨fuel - 1, by omega⟩
      rw [df_loop_step E q ltb _ r lower_tail s hkeep]
      exact ih2 f (by omega)

/-- C23: for `alpha_star, beta_star, t > 0` and every count `r`, with exact elementary
functions, the loop of `calculate_log_posterior_predictive_df` terminates: there is a first
count `K > r` at which the midpoint has been found (the mass of the counts up to `K` is at least
one half) and whose tail value is strictly below that of `r`, and the loop stops after the pass
of that count: it is still running after `K` passes and the call returns once `K + 1` passes are
allowed. -/
theorem df_loop_stops_at_first (E : Lib ℝ) (hE : E.Exact) (m : pp_model ℝ) (t : ℝ) (r : Nat)
    (lower_tail : Bool) (ha : 0 < m.m_alpha_star) (hb : 0 < m.m_beta_star) (ht : 0 < t) :
    ∃ K, r < K ∧
      1 / 2 ≤ (1 - t / (m.m_beta_star + t)) ^ m.m_alpha_star
        * nb_mass_below 1 (t / (m.m_beta_star + t)) m.m_alpha_star (K + 1) ∧
      tail_value (t / (m.m_beta_star + t)) m.m_alpha_star
          ((1 - t / (m.m_beta_star + t)) ^ m.m_alpha_star) K
        < tail_value (t / (m.m_beta_star + t)) m.m_alpha_star
          ((1 - t / (m.m_beta_star + t)) ^ m.m_alpha_star) r ∧
      (∀ j, r < j → j < K →
        ¬ (1 / 2 ≤ (1 - t / (m.m_beta_star + t)) ^ m.m_alpha_star
            * nb_mass_below 1 (t / (m.m_beta_star + t)) m.m_alpha_star (j + 1) ∧
          tail_value (t / (m.m_beta_star + t)) m.m_alpha_star
              ((1 - t / (m.m_beta_star + t)) ^ m.m_alpha_star) j
            < tail_value (t / (m.m_beta_star + t)) m.m_alpha_star
              ((1 - t / (m.m_beta_star + t)) ^ m.m_alpha_star) r)) ∧
      (∀ fuel, fuel ≤ K →
        calculate_log_posterior_predictive_df E m t r lower_tail fuel = none) ∧
      (∀ fuel, K < fuel →
        ∃ res, calculate_log_posterior_predictive_df E m t r lower_tail fuel = some res) := by
  obtain ⟨hq0, hq1⟩ := ratio_pos_lt_one hb ht
  have hlc : Real.exp (m.m_alpha_star * (E.log m.m_beta_star - E.log (m.m_beta_star + t)))
      = (1 - t / (m.m_beta_star + t)) ^ m.m_alpha_star := by
    rw [hE.1]
    exact exp_log_pdf_const hb ht
  have hex := df_init_exact E m t r
  rw [hE.2.1, hlc] at hex
  obtain ⟨K, hstop, hfirst⟩ := exists_first_stop ha hq0 hq1 r
  obtain ⟨hnone, hsome⟩ := df_loop_runs E hE ha hq0 hq1 _ m.m_minimum_tail
    (E.log t - E.log (m.m_beta_star + t)) hlc r lower_tail K hstop hfirst K 0 (df_init E m t)
    hex (by omega)
  refine ⟨K, hstop.1, hstop.2.1, hstop.2.2, fun j hrj hjK h => hfirst j hjK ⟨hrj, h⟩, ?_, ?_⟩
  · intro fuel hfuel
    rw [calculate_log_posterior_predictive_df_eq E hE m t r lower_tail hb ht, hnone fuel hfuel]
    rfl
  · intro fuel hfuel
    obtain ⟨s', hs', -⟩ := hsome fuel hfuel
    rw [calculate_log_posterior_predictive_df_eq E hE m t r lower_tail hb ht, hs']
    exact ⟨_, rfl⟩

/-- C23 at `alpha_star = beta_star = 1`, `t = 1`, `r = 0`, upper tail. -/
theorem df_loop_stops_at_first_witness :
    ∃ K, 0 < K ∧
      1 / 2 ≤ (1 - 1 / ((1 : ℝ) + 1)) ^ (1 : ℝ)
        * nb_mass_below 1 (1 / ((1 : ℝ) + 1)) 1 (K + 1) ∧
      tail_value (1 / ((1 : ℝ) + 1)) 1 ((1 - 1 / ((1 : ℝ) + 1)) ^ (1 : ℝ)) K
        < tail_value (1 / ((1 : ℝ) + 1)) 1 ((1 - 1 / ((1 : ℝ) + 1)) ^ (1 : ℝ)) 0 ∧
      (∀ j, 0 < j → j < K →
        ¬ (1 / 2 ≤ (1 - 1 / ((1 : ℝ) + 1)) ^ (1 : ℝ)
            * nb_mass_below 1 (1 / ((1 : ℝ) + 1)) 1 (j + 1) ∧
          tail_value (1 / ((1 : ℝ) + 1)) 1 ((1 - 1 / ((1 : ℝ) + 1)) ^ (1 : ℝ)) j
            < tail_value (1 / ((1 : ℝ) + 1)) 1 ((1 - 1 / ((1 : ℝ) + 1)) ^ (1 : ℝ)) 0)) ∧
      (∀ fuel, fuel ≤ K →
        calculate_log_posterior_predictive_df
          (Lib.ofFns Real.log Real.exp (Real.log ∘ Real.Gamma))
          { (pp_model.blank : pp_model ℝ) with m_alpha_star := 1, m_beta_star := 1 }
          1 0 false fuel = none) ∧
      (∀ fuel, K < fuel →
        ∃ res, calculate_log_posterior_predictive_df
          (Lib.ofFns Real.log Real.exp (Real.log ∘ Real.Gamma))
          { (pp_model.blank : pp_model ℝ) with m_alpha_star := 1, m_beta_star := 1 }
          1 0 false fuel = some res) :=
  df_loop_stops_at_first (Lib.ofFns Real.log Real.exp (Real.log ∘ Real.Gamma)) ⟨rfl, rfl, rfl⟩
    { (pp_model.blank : pp_model ℝ) with m_alpha_star := 1, m_beta_star := 1 } 1 0 false
    one_pos one_pos one_pos

/-! ### The survivor midpoint -/

/-- One pass of the loop keeps the record of the survivor midpoint. -/
theorem df_pass_midpoint (E : Lib ℝ) (hE : E.Exact) {a q : ℝ} (ha : 0 < a) (hq0 : 0 < q)
    (hq1 : q < 1) (lc mt ltb : ℝ) (hlc : Real.exp lc = (1 - q) ^ a) (r k : Nat)
    (lower_tail : Bool) (s : DfLoop ℝ) (hex : df_exact q a lc ((1 - q) ^ a) mt r k s)
    (hmid : df_midpoint_found q a ((1 - q) ^ a) k s) :
    df_midpoint_found q a ((1 - q) ^ a) (k + 1)
      (df_loop_body E q ltb ((1 - q) ^ a) r lower_tail s) := by
  have he0 : 0 < (1 - q) ^ a := Real.rpow_pos_of_pos (by linarith) _
  obtain ⟨hs, hb, -, hval, -⟩ :=
    df_pass_test E hE ha hq0 hq1 lc mt ltb hlc r k lower_tail s hex
  intro hf
  by_cases hfs : s.found_mid_point = true
  · obtain ⟨i, hik, h1, h2, h3⟩ := hmid hfs
    refine ⟨i, Nat.lt_succ_of_lt hik, h1, h2, ?_⟩
    rw [hval, if_neg, h3]
    rintro ⟨h, -⟩
    rw [hfs] at h
    cases h
  · have hfs' : s.found_mid_point = false := by simpa using hfs
    have hhalf := hb.mp hf
    have hbelow : (1 - q) ^ a * nb_mass_below 1 q a k < 1 / 2 :=
      not_le.mp (fun h => hfs (hs.mpr h))
    refine ⟨k, Nat.lt_succ_self k, hhalf, ?_, ?_⟩
    · intro j hj
      have hmono : nb_mass_below 1 q a (j + 1) ≤ nb_mass_below 1 q a k :=
        nb_mass_below_mono one_pos hq0 ha hj
      have := mul_le_mul_of_nonneg_left hmono he0.le
      linarith
    · rw [hval, if_pos ⟨hfs', hhalf⟩]

/-- A loop that starts under the exact invariant and returns has found the midpoint, at the
smallest count whose lower-tail mass is at least one half, within the passes it made, and has
recorded the tail value of that count. -/
theorem df_loop_midpoint (E : Lib ℝ) (hE : E.Exact) {a q : ℝ} (ha : 0 < a) (hq0 : 0 < q)
    (hq1 : q < 1) (lc mt ltb : ℝ) (hlc : Real.exp lc = (1 - q) ^ a) (r : Nat)
    (lower_tail : Bool) (fuel : Nat) :
    ∀ (k : Nat) (s s' : DfLoop ℝ), df_exact q a lc ((1 - q) ^ a) mt r k s →
      df_midpoint_found q a ((1 - q) ^ a) k s →
      df_loop E q ltb ((1 - q) ^ a) r lower_tail fuel s = some s' →
      s'.found_mid_point = true ∧
      ∃ i, i < k + fuel ∧ 1 / 2 ≤ (1 - q) ^ a * nb_mass_below 1 q a (i + 1) ∧
        (∀ j, j < i → (1 - q) ^ a * nb_mass_below 1 q a (j + 1) < 1 / 2) ∧
        s'.m.m_survivor_midpoint = tail_value q a ((1 - q) ^ a) i := by
  induction fuel with
  | zero =>
    intro k s s' hex hmid hs
    have hk : s.keep_looping = true := hex.1.2.1
    simp [df_loop, hk] at hs
  | succ fuel ih =>
    intro k s s' hex hmid hs
    rw [df_loop_step E q ltb _ r lower_tail s hex.1.2.1] at hs
    have hmid' := df_pass_midpoint E hE ha hq0 hq1 lc mt ltb hlc r k lower_tail s hex hmid
    rcases df_pass_exact E hE ha hq0 hq1 lc mt ltb hlc r k lower_tail s hex with
      ⟨-, hnext⟩ | ⟨hstop, -⟩
    · obtain ⟨hf, i, hi, hrest⟩ := ih (k + 1) _ s' hnext hmid' hs
      exact ⟨hf, i, by omega, hrest⟩
    · rw [df_loop_stopped E q ltb _ r lower_tail _ hstop] at hs
      cases hs
      obtain ⟨-, hb, htest, -, -⟩ :=
        df_pass_test E hE ha hq0 hq1 lc mt ltb hlc r k lower_tail s hex
      have hf := hb.mpr (htest.mp hstop).2.1
      obtain ⟨i, hi, hrest⟩ := hmid' hf
      exact ⟨hf, i, by omega, hrest⟩

/-- C22: for `alpha_star, beta_star, t > 0`, with exact elementary functions,
`calculate_log_posterior_predictive_df` returns, and whenever it returns it has recorded the
survivor midpoint in the pass of the smallest count `i` whose lower-tail mass `P(X <= i)` is at
least one half, and `m_survivor_midpoint` is the tail value `min(P(X >= i), P(X <= i))` of that
count. -/
theorem survivor_midpoint_value (E : Lib ℝ) (hE : E.Exact) (m : pp_model ℝ) (t : ℝ) (r : Nat)
    (lower_tail : Bool) (ha : 0 < m.m_alpha_star) (hb : 0 < m.m_beta_star) (ht : 0 < t) :
    (∃ fuel res, calculate_log_posterior_predictive_df E m t r lower_tail fuel = some res) ∧
    ∀ fuel res, calculate_log_posterior_predictive_df E m t r lower_tail fuel = some res →
      ∃ i, i < fuel ∧
        1 / 2 ≤ (1 - t / (m.m_beta_star + t)) ^ m.m_alpha_star
          * nb_mass_below 1 (t / (m.m_beta_star + t)) m.m_alpha_star (i + 1) ∧
        (∀ j, j < i →
          (1 - t / (m.m_beta_star + t)) ^ m.m_alpha_star
            * nb_mass_below 1 (t / (m.m_beta_star + t)) m.m_alpha_star (j + 1) < 1 / 2) ∧
        res.2.m_survivor_midpoint
          = tail_value (t / (m.m_beta_star + t)) m.m_alpha_star
              ((1 - t / (m.m_beta_star + t)) ^ m.m_alpha_star) i := by
  obtain ⟨hq0, hq1⟩ := ratio_pos_lt_one hb ht
  have hlc : Real.exp (m.m_alpha_star * (E.log m.m_beta_star - E.log (m.m_beta_star + t)))
      = (1 - t / (m.m_beta_star + t)) ^ m.m_alpha_star := by
    rw [hE.1]
    exact exp_log_pdf_const hb ht
  have hex := df_init_exact E m t r
  rw [hE.2.1, hlc] at hex
  have hmid : df_midpoint_found (t / (m.m_beta_star + t)) m.m_alpha_star
      ((1 - t / (m.m_beta_star + t)) ^ m.m_alpha_star) 0 (df_init E m t) := by
    intro h
    exact absurd h (by simp [df_init])
  refine ⟨calculate_log_posterior_predictive_df_returns E hE m t r lower_tail ha hb ht, ?_⟩
  intro fuel res h
  rw [calculate_log_posterior_predictive_df_eq E hE m t r lower_tail hb ht] at h
  obtain ⟨s', hs', rfl⟩ := Option.map_eq_some'.mp h
  obtain ⟨-, i, hi, hrest⟩ := df_loop_midpoint E hE ha hq0 hq1 _ m.m_minimum_tail
    (E.log t - E.log (m.m_beta_star + t)) hlc r lower_tail fuel 0 (df_init E m t) s' hex hmid hs'
  exact ⟨i, by omega, hrest⟩

/-- C22 at `alpha_star = beta_star = 1`, `t = 1`, `r = 0`, upper tail. -/
theorem survivor_midpoint_value_witness :
    (∃ fuel res, calculate_log_posterior_predictive_df
        (Lib.ofFns Real.log Real.exp (Real.log ∘ Real.Gamma))
        { (pp_model.blank : pp_model ℝ) with m_alpha_star := 1, m_beta_star := 1 }
        1 0 false fuel = some res) ∧
    ∀ fuel res, calculate_log_posterior_predictive_df
        (Lib.ofFns Real.log Real.exp (Real.log ∘ Real.Gamma))
        { (pp_model.blank : pp_model ℝ) with m_alpha_star := 1, m_beta_star := 1 }
        1 0 false fuel = some res →
      ∃ i, i < fuel ∧
        1 / 2 ≤ (1 - 1 / ((1 : ℝ) + 1)) ^ (1 : ℝ)
          * nb_mass_below 1 (1 / ((1 : ℝ) + 1)) 1 (i + 1) ∧
        (∀ j, j < i →
          (1 - 1 / ((1 : ℝ) + 1)) ^ (1 : ℝ)
            * nb_mass_below 1 (1 / ((1 : ℝ) + 1)) 1 (j + 1) < 1 / 2) ∧
        res.2.m_survivor_midpoint
          = tail_value (1 / ((1 : ℝ) + 1)) 1 ((1 - 1 / ((1 : ℝ) + 1)) ^ (1 : ℝ)) i :=
  survivor_midpoint_value (Lib.ofFns Real.log Real.exp (Real.log ∘ Real.Gamma)) ⟨rfl, rfl, rfl⟩
    { (pp_model.blank : pp_model ℝ) with m_alpha_star := 1, m_beta_star := 1 } 1 0 false
    one_pos one_pos one_pos

/-! ### The one-sided pair -/

/-- The one-sided locals after one pass of the loop, in terms of the values after the update of
lines 279-293. -/
theorem df_loop_body_values (E : Lib α) (q ltb e : α) (r : Nat) (lower_tail : Bool)
    (s : DfLoop α) :
    (df_loop_body E q ltb e r lower_tail s).log_pmf = (df_advance E q ltb e s).log_pmf ∧
    (df_loop_body E q ltb e r lower_tail s).df
      = (if s.i = usub r 1 then
          (if lower_tail = true then s.df
           else if s.m.m_log_pdf_const
               + E.log (E.exp (-s.m.m_log_pdf_const) - (df_advance E q ltb e s).pmf_sum) ≥ 0
             then -E.exp s.m.m_log_pdf_const * (df_advance E q ltb e s).pmf_sum
             else s.m.m_log_pdf_const
               + E.log (E.exp (-s.m.m_log_pdf_const) - (df_advance E q ltb e s).pmf_sum))
         else if s.i = r then
          (if lower_tail = true
             then s.m.m_log_pdf_const + E.log (df_advance E q ltb e s).pmf_sum
           else if (df_advance E q ltb e s).log_pmf + s.m.m_log_pdf_const > s.df
             then (df_advance E q ltb e s).log_pmf + s.m.m_log_pdf_const else s.df)
         else s.df) ∧
    (df_loop_body E q ltb e r lower_tail s).df2
      = (if s.i = usub r 1 then
          (if lower_tail = true
             then s.m.m_log_pdf_const + E.log (df_advance E q ltb e s).pmf_sum else s.df2)
         else if s.i = r then
          (if lower_tail = true then s.df2
           else if s.m.m_log_pdf_const
               + E.log (E.exp (-s.m.m_log_pdf_const) - (df_advance E q ltb e s).pmf_sum) ≥ 0
             then -E.exp s.m.m_log_pdf_const * (df_advance E q ltb e s).pmf_sum
             else s.m.m_log_pdf_const
               + E.log (E.exp (-s.m.m_log_pdf_const) - (df_advance E q ltb e s).pmf_sum))
         else s.df2) := by
  obtain ⟨a_i, -, -, a_m, -, -, -⟩ := df_advance_spec E q ltb e s
  obtain ⟨a_df, a_df2, -⟩ := df_advance_locals E q ltb e s
  obtain ⟨b_i, -, -, b_sum, -, -, b_lc, -⟩ := df_midpoint_spec E (df_advance E q ltb e s)
  obtain ⟨b_df, b_df2, b_lp, -⟩ := df_midpoint_locals E (df_advance E q ltb e s)
  obtain ⟨c_i, c_sum, c_lp, c_df, c_df2, c_lc, -⟩ :=
    df_two_sided_locals e r (df_midpoint E (df_advance E q ltb e s))
  obtain ⟨d_lp, -, d_df, d_df2⟩ := df_one_sided_values E r lower_tail
    (df_two_sided e r (df_midpoint E (df_advance E q ltb e s)))
  obtain ⟨e_df, e_df2, e_lp, -⟩ := df_continue_locals r (df_one_sided E r lower_tail
    (df_two_sided e r (df_midpoint E (df_advance E q ltb e s))))
  rw [c_i, b_i, a_i, c_lc, b_lc, a_m, c_sum, b_sum, c_lp, b_lp, c_df, b_df, a_df] at d_df
  rw [c_i, b_i, a_i, c_lc, b_lc, a_m, c_sum, b_sum, c_df2, b_df2, a_df2] at d_df2
  refine ⟨?_, ?_, ?_⟩
  · unfold df_loop_body
    rw [e_lp, d_lp, c_lp, b_lp]
  · unfold df_loop_body
    rw [e_df, d_df]
  · unfold df_loop_body
    rw [e_df2, d_df2]

/-- The logarithm of the upper tail as the loop computes it,
`m_log_pdf_const + log(exp(-m_log_pdf_const) - pmf_sum)`, in exact arithmetic. -/
theorem log_upper_tail {lc e S : ℝ} (hlc : Real.exp lc = e) (hS : e * S < 1) :
    lc + Real.log (Real.exp (-lc) - S) = Real.log (1 - e * S) := by
  have he : 0 < e := by rw [← hlc]; exact Real.exp_pos lc
  have h1 : Real.exp (-lc) - S = (1 - e * S) / e := by
    rw [Real.exp_neg, hlc]
    field_simp
  rw [h1, Real.log_div (by linarith) he.ne', ← hlc, Real.log_exp]
  ring

/-- One pass of the loop keeps the invariant of the one-sided locals, in exact arithmetic, when
`log_t_b` is the logarithm of the ratio `t_b`. -/
theorem df_pass_locals (E : Lib ℝ) (hE : E.Exact) {a q : ℝ} (ha : 0 < a) (hq0 : 0 < q)
    (hq1 : q < 1) (lc mt : ℝ) (hlc : Real.exp lc = (1 - q) ^ a) (r k : Nat)
    (lower_tail : Bool) (s : DfLoop ℝ) (hex : df_exact q a lc ((1 - q) ^ a) mt r k s)
    (hloc : df_one_sided_locals q a lc ((1 - q) ^ a) r lower_tail k s) :
    df_one_sided_locals q a lc ((1 - q) ^ a) r lower_tail (k + 1)
      (df_loop_body E q (Real.log q) ((1 - q) ^ a) r lower_tail s) := by
  have he0 : 0 < (1 - q) ^ a := Real.rpow_pos_of_pos (by linarith) _
  have hlt : ∀ n, (1 - q) ^ a * nb_mass_below 1 q a n < 1 := by
    intro n
    rw [← nb_mass_below_scale_one]
    exact nb_mass_below_lt_one ha hq0 hq1 n
  have hmono := nb_mass_below_mono (one_pos : (0 : ℝ) < 1) hq0 ha
  have hpk : 0 < nb_pmf 1 q a k := nb_pmf_pos one_pos hq0 ha k
  have hsucc : nb_mass_below 1 q a (k + 1) = nb_mass_below 1 q a k + nb_pmf 1 q a k :=
    nb_mass_below_succ _ _ _ _
  have hS0 : 0 ≤ nb_mass_below 1 q a k := by
    have h0 : nb_mass_below (1 : ℝ) q a 0 = 0 := by simp [nb_mass_below]
    have := hmono (Nat.zero_le k)
    rw [h0] at this
    exact this
  have hSpos : 0 < nb_mass_below 1 q a (k + 1) := by
    rw [hsucc]
    linarith
  obtain ⟨hrun, -, -, -, -⟩ := hex
  obtain ⟨-, A_sum, -, -⟩ := df_advance_running E q (Real.log q) a lc ((1 - q) ^ a) mt r k s hrun
  obtain ⟨hi, -, hal, hlcs, -, -, -, -, -, -, -, -, -⟩ := hrun
  obtain ⟨hlp, hlower, hupper⟩ := hloc
  have A_lp : (df_advance E q (Real.log q) ((1 - q) ^ a) s).log_pmf
      = Real.log (nb_pmf 1 q a k) := by
    rw [(df_advance_locals E q (Real.log q) ((1 - q) ^ a) s).2.2, hi, hal, hlp, hE.1]
    rcases Nat.eq_zero_or_pos k with h0 | hpos
    · subst h0
      rw [if_neg (lt_irrefl 0)]
    · obtain ⟨j, rfl⟩ : ∃ j, k = j + 1 := ⟨k - 1, by omega⟩
      have hpj : 0 < nb_pmf 1 q a j := nb_pmf_pos one_pos hq0 ha j
      have hj : (0 : ℝ) ≤ (j : ℝ) := Nat.cast_nonneg j
      rw [if_pos hpos, Nat.add_sub_cancel, nb_pmf_succ,
        Real.log_div (by positivity) (by positivity),
        Real.log_mul (by positivity) (by positivity),
        Real.log_mul (by positivity) (by positivity)]
      push_cast
      ring_nf
  have U : lc + Real.log (Real.exp (-lc) - nb_mass_below 1 q a (k + 1))
      = Real.log (1 - (1 - q) ^ a * nb_mass_below 1 q a (k + 1)) :=
    log_upper_tail hlc (hlt (k + 1))
  have Uneg : ¬ Real.log (1 - (1 - q) ^ a * nb_mass_below 1 q a (k + 1)) ≥ 0 := by
    have h1 := hlt (k + 1)
    have h2 : 0 < (1 - q) ^ a * nb_mass_below 1 q a (k + 1) := mul_pos he0 hSpos
    exact not_le.mpr (Real.log_neg (by linarith) (by linarith))
  have hur : usub r 1 ≠ r := usub_one_ne r
  have hstep : ∀ (x : ℕ) (C : ℝ), k ≠ x →
      (if x < k + 1 then C else 0) = (if x < k then C else 0) := by
    intro x C hx
    by_cases h : x < k
    · rw [if_pos h, if_pos (by omega)]
    · rw [if_neg h, if_neg (by omega)]
  have hnow : ∀ C : ℝ, (if k < k + 1 then C else 0) = C := by
    intro C
    rw [if_pos (Nat.lt_succ_self k)]
  obtain ⟨V_lp, V_df, V_df2⟩ :=
    df_loop_body_values E q (Real.log q) ((1 - q) ^ a) r lower_tail s
  rw [hi, hlcs, A_sum, hE.1, hE.2.1] at V_df V_df2
  rw [A_lp] at V_df
  simp only [U, if_neg Uneg] at V_df V_df2
  unfold df_one_sided_locals
  generalize usub r 1 = u at hur hlower hupper V_df V_df2 ⊢
  refine ⟨?_, ?_, ?_⟩
  · rw [V_lp, A_lp, Nat.add_sub_cancel]
  · intro hl
    obtain ⟨h2, h1⟩ := hlower hl
    subst hl
    simp only [if_true] at V_df V_df2
    constructor
    · by_cases hku : k = u
      · rw [V_df2, if_pos hku, ← hku, hnow]
      · rw [V_df2, if_neg hku, hstep u _ hku, ite_self, h2]
    · by_cases hku : k = u
      · have hkr : k ≠ r := fun h => hur (hku.symm.trans h)
        rw [V_df, if_pos hku, hstep r _ hkr, h1]
      · by_cases hkr : k = r
        · rw [V_df, if_neg hku, if_pos hkr, ← hkr, hnow]
        · rw [V_df, if_neg hku, if_neg hkr, hstep r _ hkr, h1]
  · intro hl
    obtain ⟨h1, h2⟩ := hupper hl
    subst hl
    simp only [Bool.false_eq_true, if_false] at V_df V_df2
    constructor
    · by_cases hku : k = u
      · rw [V_df, if_pos hku, ← hku, hnow]
      · by_cases hkr : k = r
        · have hno : ¬ Real.log (nb_pmf 1 q a k) + lc > s.df := by
            have hlogp : Real.log (nb_pmf 1 q a k) + lc
                = Real.log ((1 - q) ^ a * nb_pmf 1 q a k) := by
              rw [Real.log_mul he0.ne' hpk.ne', ← hlc, Real.log_exp]
              ring
            have hk1 := hlt (k + 1)
            rw [hsucc, mul_add] at hk1
            have hpp : 0 < (1 - q) ^ a * nb_pmf 1 q a k := mul_pos he0 hpk
            have hSk : 0 ≤ (1 - q) ^ a * nb_mass_below 1 q a k := mul_nonneg he0.le hS0
            rw [hlogp, h1]
            apply not_lt.mpr
            by_cases huk : u < k
            · rw [if_pos huk]
              have hm : (1 - q) ^ a * nb_mass_below 1 q a (u + 1)
                  ≤ (1 - q) ^ a * nb_mass_below 1 q a k :=
                mul_le_mul_of_nonneg_left (hmono huk) he0.le
              exact Real.log_le_log hpp (by linarith)
            · rw [if_neg huk]
              exact (Real.log_nonpos hpp.le (by linarith))
          rw [V_df, if_neg hku, if_pos hkr, if_neg hno, hstep u _ hku, h1]
        · rw [V_df, if_neg hku, if_neg hkr, hstep u _ hku, h1]
    · by_cases hku : k = u
      · have hkr : k ≠ r := fun h => hur (hku.symm.trans h)
        rw [V_df2, if_pos hku, hstep r _ hkr, h2]
      · by_cases hkr : k = r
        · rw [V_df2, if_neg hku, if_pos hkr, ← hkr, hnow]
        · rw [V_df2, if_neg hku, if_neg hkr, hstep r _ hkr, h2]

/-- A loop that starts under the exact invariant and the invariant of the one-sided locals and
returns has stopped after the pass of a count `K` past `r`, the one-sided locals being those of
`K + 1` passes. -/
theorem df_loop_locals (E : Lib ℝ) (hE : E.Exact) {a q : ℝ} (ha : 0 < a) (hq0 : 0 < q)
    (hq1 : q < 1) (lc mt : ℝ) (hlc : Real.exp lc = (1 - q) ^ a) (r : Nat)
    (lower_tail : Bool) (fuel : Nat) :
    ∀ (k : Nat) (s s' : DfLoop ℝ), df_exact q a lc ((1 - q) ^ a) mt r k s →
      df_one_sided_locals q a lc ((1 - q) ^ a) r lower_tail k s →
      df_loop E q (Real.log q) ((1 - q) ^ a) r lower_tail fuel s = some s' →
      ∃ K, K < k + fuel ∧ r < K ∧
        df_one_sided_locals q a lc ((1 - q) ^ a) r lower_tail (K + 1) s' := by
  induction fuel with
  | zero =>
    intro k s s' hex hloc hs
    have hk : s.keep_looping = true := hex.1.2.1
    simp [df_loop, hk] at hs
  | succ fuel ih =>
    intro k s s' hex hloc hs
    rw [df_loop_step E q _ _ r lower_tail s hex.1.2.1] at hs
    have hloc' := df_pass_locals E hE ha hq0 hq1 lc mt hlc r k lower_tail s hex hloc
    rcases df_pass_exact E hE ha hq0 hq1 lc mt (Real.log q) hlc r k lower_tail s hex with
      ⟨-, hnext⟩ | ⟨hstop, hrk, -⟩
    · obtain ⟨K, hK, hrest⟩ := ih (k + 1) _ s' hnext hloc' hs
      exact ⟨K, by omega, hrest⟩
    · rw [df_loop_stopped E q _ _ r lower_tail _ hstop] at hs
      cases hs
      exact ⟨k, by omega, hrk, hloc'⟩

/-- The one-sided pair staged by `calculate_log_posterior_predictive_df`, for
`alpha_star, beta_star, t > 0` and exact elementary functions, when the call returns (within
`2^64` passes if `r = 0`). For the lower tail and `r >= 1` it is `(P(X <= r-1), P(X <= r))`;
for the lower tail and `r = 0` it is `(1, P(X <= 0))`, the local `df2` being left at its
initial `0`; for the upper tail it is `(P(X > r), P(X >= r))`. -/
theorem one_sided_pair_value (E : Lib ℝ) (hE : E.Exact) (m : pp_model ℝ) (t : ℝ) (r : Nat)
    (lower_tail : Bool) (ha : 0 < m.m_alpha_star) (hb : 0 < m.m_beta_star) (ht : 0 < t)
    (hr : r < ULL) (fuel : Nat) (hfuel : r = 0 → fuel < ULL) (res : ℝ × pp_model ℝ)
    (h : calculate_log_posterior_predictive_df E m t r lower_tail fuel = some res) :
    res.2.m_pvalue_pair
      = (if lower_tail = true then
          ((if r = 0 then 1
            else nb_mass_below ((1 - t / (m.m_beta_star + t)) ^ m.m_alpha_star)
              (t / (m.m_beta_star + t)) m.m_alpha_star r),
           nb_mass_below ((1 - t / (m.m_beta_star + t)) ^ m.m_alpha_star)
             (t / (m.m_beta_star + t)) m.m_alpha_star (r + 1))
         else
          (1 - nb_mass_below ((1 - t / (m.m_beta_star + t)) ^ m.m_alpha_star)
             (t / (m.m_beta_star + t)) m.m_alpha_star (r + 1),
           1 - nb_mass_below ((1 - t / (m.m_beta_star + t)) ^ m.m_alpha_star)
             (t / (m.m_beta_star + t)) m.m_alpha_star r)) := by
  obtain ⟨hq0, hq1⟩ := ratio_pos_lt_one hb ht
  have hbt : 0 < m.m_beta_star + t := by linarith
  have he0 : 0 < (1 - t / (m.m_beta_star + t)) ^ m.m_alpha_star :=
    Real.rpow_pos_of_pos (by linarith) _
  have hlt : ∀ n, (1 - t / (m.m_beta_star + t)) ^ m.m_alpha_star
      * nb_mass_below 1 (t / (m.m_beta_star + t)) m.m_alpha_star n < 1 := by
    intro n
    rw [← nb_mass_below_scale_one]
    exact nb_mass_below_lt_one ha hq0 hq1 n
  have hmbpos : ∀ n, 0 < nb_mass_below 1 (t / (m.m_beta_star + t)) m.m_alpha_star (n + 1) := by
    intro n
    have h0 : nb_mass_below (1 : ℝ) (t / (m.m_beta_star + t)) m.m_alpha_star 0 = 0 := by
      simp [nb_mass_below]
    have h1 := nb_mass_below_mono (one_pos : (0 : ℝ) < 1) hq0 ha (Nat.zero_le n)
    rw [h0] at h1
    rw [nb_mass_below_succ]
    linarith [nb_pmf_pos (one_pos : (0 : ℝ) < 1) hq0 ha n]
  have hmb0 : nb_mass_below (1 : ℝ) (t / (m.m_beta_star + t)) m.m_alpha_star 0 = 0 := by
    simp [nb_mass_below]
  have hlc : Real.exp (m.m_alpha_star * (E.log m.m_beta_star - E.log (m.m_beta_star + t)))
      = (1 - t / (m.m_beta_star + t)) ^ m.m_alpha_star := by
    rw [hE.1]
    exact exp_log_pdf_const hb ht
  have hltb : E.log t - E.log (m.m_beta_star + t) = Real.log (t / (m.m_beta_star + t)) := by
    rw [hE.1, Real.log_div ht.ne' hbt.ne']
  have hex := df_init_exact E m t r
  rw [hE.2.1, hlc] at hex
  have hloc : df_one_sided_locals (t / (m.m_beta_star + t)) m.m_alpha_star
      (m.m_alpha_star * (E.log m.m_beta_star - E.log (m.m_beta_star + t)))
      ((1 - t / (m.m_beta_star + t)) ^ m.m_alpha_star) r lower_tail 0 (df_init E m t) := by
    refine ⟨?_, fun _ => ⟨?_, ?_⟩, fun _ => ⟨?_, ?_⟩⟩
    · show (0 : ℝ) = Real.log (nb_pmf 1 _ _ (0 - 1))
      simp [nb_pmf]
    all_goals
      rw [if_neg (Nat.not_lt_zero _)]
      rfl
  rw [calculate_log_posterior_predictive_df_eq E hE m t r lower_tail hb ht, hltb] at h
  obtain ⟨s', hs', rfl⟩ := Option.map_eq_some'.mp h
  obtain ⟨K, hK, hrK, -, hlower, hupper⟩ := df_loop_locals E hE ha hq0 hq1 _ m.m_minimum_tail
    hlc r lower_tail fuel 0 (df_init E m t) s' hex hloc hs'
  have hpair : (df_finish E s').2.m_pvalue_pair = (Real.exp s'.df2, Real.exp s'.df) := by
    show (E.exp s'.df2, E.exp s'.df) = _
    rw [hE.2.1]
  have hu0 : r = 0 → ¬ usub r 1 < K + 1 := by
    intro h0
    have := hfuel h0
    subst h0
    unfold usub ULL at *
    omega
  have hu1 : 0 < r → usub r 1 < K + 1 ∧ usub r 1 + 1 = r := by
    intro hpos
    unfold usub ULL at *
    omega
  have hexp : ∀ n, Real.exp (m.m_alpha_star * (E.log m.m_beta_star - E.log (m.m_beta_star + t))
        + Real.log (nb_mass_below 1 (t / (m.m_beta_star + t)) m.m_alpha_star (n + 1)))
      = nb_mass_below ((1 - t / (m.m_beta_star + t)) ^ m.m_alpha_star)
          (t / (m.m_beta_star + t)) m.m_alpha_star (n + 1) := by
    intro n
    rw [Real.exp_add, hlc, Real.exp_log (hmbpos n), ← nb_mass_below_scale_one]
  have hexpu : ∀ n, Real.exp (Real.log (1 - (1 - t / (m.m_beta_star + t)) ^ m.m_alpha_star
        * nb_mass_below 1 (t / (m.m_beta_star + t)) m.m_alpha_star n))
      = 1 - nb_mass_below ((1 - t / (m.m_beta_star + t)) ^ m.m_alpha_star)
          (t / (m.m_beta_star + t)) m.m_alpha_star n := by
    intro n
    rw [Real.exp_log (by linarith [hlt n]), ← nb_mass_below_scale_one]
  rw [hpair]
  cases lower_tail
  · obtain ⟨h1, h2⟩ := hupper rfl
    rw [if_neg (by simp), h1, h2, if_pos (by omega : r < K + 1)]
    refine Prod.ext (hexpu (r + 1)) ?_
    show Real.exp _ = 1 - nb_mass_below _ _ _ r
    rcases Nat.eq_zero_or_pos r with h0 | hpos
    · have hz : nb_mass_below ((1 - t / (m.m_beta_star + t)) ^ m.m_alpha_star)
          (t / (m.m_beta_star + t)) m.m_alpha_star r = 0 := by
        rw [h0]
        simp [nb_mass_below]
      rw [if_neg (hu0 h0), Real.exp_zero, hz, sub_zero]
    · rw [if_pos (hu1 hpos).1, (hu1 hpos).2]
      exact hexpu r
  · obtain ⟨h2, h1⟩ := hlower rfl
    rw [if_pos rfl, h1, h2, if_pos (by omega : r < K + 1)]
    refine Prod.ext ?_ (hexp r)
    show Real.exp _ = (if r = 0 then 1 else nb_mass_below _ _ _ r)
    rcases Nat.eq_zero_or_pos r with h0 | hpos
    · rw [if_neg (hu0 h0), Real.exp_zero, if_pos h0]
    · obtain ⟨j, hj⟩ : ∃ j, r = j + 1 := ⟨r - 1, by omega⟩
      rw [if_pos (hu1 hpos).1, (hu1 hpos).2, if_neg (by omega), hj]
      exact hexp j

/-- C21, the failing run: with `alpha_star = beta_star = 1`, `t = 1`, `r = 0` and the lower
tail, `calculate_log_posterior_predictive_df` returns and stages the pair `(1, 1/2)`. Its first
component is `exp(df2)` with `df2` left at its initial `0`, not `P(X <= -1) = 0`, and it is not
at most the second, `P(X <= 0) = 1/2`. -/
theorem one_sided_pair_lower_zero :
    ∃ res, calculate_log_posterior_predictive_df
        (Lib.ofFns Real.log Real.exp (Real.log ∘ Real.Gamma))
        { (pp_model.blank : pp_model ℝ) with m_alpha_star := 1, m_beta_star := 1 }
        1 0 true 3 = some res ∧
      res.2.m_pvalue_pair = (1, 1 / 2) ∧
      ¬ res.2.m_pvalue_pair.1 ≤ res.2.m_pvalue_pair.2 := by
  obtain ⟨-, -, -, -, hmb1, -, -, -, -, -⟩ := unit_tail_values
  have h12 : (1 : ℝ) / (1 + 1) = 1 / 2 := by norm_num
  have hev : (1 - (1 : ℝ) / 2) ^ (1 : ℝ) = 1 / 2 := by rw [Real.rpow_one]; norm_num
  obtain ⟨res, hres, -⟩ := df_unit_trace
    (Lib.ofFns Real.log Real.exp (Real.log ∘ Real.Gamma)) ⟨rfl, rfl, rfl⟩
    { (pp_model.blank : pp_model ℝ) with m_alpha_star := 1, m_beta_star := 1 } true rfl rfl
  have hp := one_sided_pair_value
    (Lib.ofFns Real.log Real.exp (Real.log ∘ Real.Gamma)) ⟨rfl, rfl, rfl⟩
    { (pp_model.blank : pp_model ℝ) with m_alpha_star := 1, m_beta_star := 1 } 1 0 true
    one_pos one_pos one_pos (by norm_num [ULL]) 3 (fun _ => by norm_num [ULL]) res hres
  dsimp only at hp
  rw [if_pos rfl, if_pos rfl, Nat.zero_add, h12, hev, nb_mass_below_scale_one, hmb1] at hp
  have hp' : res.2.m_pvalue_pair = (1, 1 / 2) := by
    rw [hp]
    norm_num
  refine ⟨res, hres, hp', ?_⟩
  rw [hp']
  norm_num

/-! ### The relations a scan carries forward -/

/-- `set_parameters_to_current_t` establishes the carried relations. -/
theorem set_parameters_to_current_t_carried (E : Lib α) (m : pp_model α) :
    scan_carried (set_parameters_to_current_t E m) :=
  ⟨rfl, rfl, rfl⟩

/-- An event-count step that returns keeps the carried relations, when the running count stays
within the range of `unsigned long long`. -/
theorem event_count_step_carried (E : Lib α) (m : pp_model α) (increment : α)
    (lower_tail two_sided increment_parameters : Bool) (fuel : Nat) (v : α) (s : pp_model α)
    (hc : scan_carried m) (hwrap : m.m_r + event_count_r E m increment < ULL)
    (h : calculate_event_count_log_predictive_df E m increment lower_tail two_sided
      increment_parameters fuel = some (v, s)) :
    scan_carried s := by
  obtain ⟨-, s2, s3, s4, s5, s6, -, -, -, s10, s11, -, -⟩ :=
    event_count_step_spec E m increment lower_tail two_sided increment_parameters fuel v s h
  obtain ⟨c1, c2, -⟩ := hc
  refine ⟨?_, ?_, s6⟩
  · rw [s3, s10, s2, Nat.mod_eq_of_lt hwrap, c1]
    push_cast
    ring
  · rw [s5, s11, s4, c2]
    ring

/-- The staging of the lower tail of a gap leaves the scan as it is. -/
theorem waiting_lower_tail_same_scan (E : Lib α) (lower_tail two_sided : Bool)
    (m : pp_model α) : same_scan m (waiting_lower_tail E lower_tail two_sided m) := by
  unfold waiting_lower_tail
  dsimp only
  split_ifs <;> exact ⟨rfl, rfl, rfl, rfl, rfl, rfl, rfl, rfl, rfl, rfl, rfl, rfl⟩

/-- One gap of the waiting-time step that returns keeps the carried relations, when the running
count stays within the range of `unsigned long long`; it moves the data index by one and leaves
the prior, the data and the current time. -/
theorem waiting_gap_carried (E : Lib α) (lower_tail two_sided : Bool) (s s' : WaitLoop α)
    (hc : scan_carried s.m) (hwrap : s.m.m_r + 1 < ULL)
    (h : waiting_gap E lower_tail two_sided s = .ok s') :
    scan_carried s'.m ∧ s'.m.m_current_data_index = s.m.m_current_data_index + 1 ∧
    s'.m.m_alpha = s.m.m_alpha ∧ s'.m.m_beta = s.m.m_beta ∧
    s'.m.m_data_cont = s.m.m_data_cont ∧ s'.m.m_current_t = s.m.m_current_t := by
  have p := fun (X : pp_model α) (t : α) =>
    calculate_log_posterior_predictive_pdf_same_scan E X t 0
  have w := waiting_lower_tail_same_scan E lower_tail two_sided
  obtain ⟨c1, c2, c3⟩ := hc
  unfold waiting_gap at h
  cases hd : s.m.m_data_cont with
  | none =>
    rw [hd] at h
    cases h
  | some data =>
    rw [hd] at h
    dsimp only at h
    cases har : array_read data s.m.m_current_data_index with
    | error f =>
      rw [har] at h
      cases h
    | ok event =>
      rw [har] at h
      dsimp only at h
      by_cases ht : waiting_gap_t s.m s.current_t event ≤ 0
      · rw [if_pos ht] at h
        cases h
      · rw [if_neg ht] at h
        cases h
        dsimp only [scan_carried]
        simp only [fun X => (w X).1, fun X => (w X).2.1, fun X => (w X).2.2.1,
          fun X => (w X).2.2.2.1, fun X => (w X).2.2.2.2.1, fun X => (w X).2.2.2.2.2.1,
          fun X => (w X).2.2.2.2.2.2.1, fun X => (w X).2.2.2.2.2.2.2.1,
          fun X => (w X).2.2.2.2.2.2.2.2.1,
          fun X t => (p X t).1, fun X t => (p X t).2.1, fun X t => (p X t).2.2.1,
          fun X t => (p X t).2.2.2.1, fun X t => (p X t).2.2.2.2.1,
          fun X t => (p X t).2.2.2.2.2.1, fun X t => (p X t).2.2.2.2.2.2.1,
          fun X t => (p X t).2.2.2.2.2.2.2.1, fun X t => (p X t).2.2.2.2.2.2.2.2.1]
        have hidx : (s.m.m_current_data_index + 1) % ULL = s.m.m_current_data_index + 1 := by
          rw [c3]
          exact Nat.mod_eq_of_lt hwrap
        refine ⟨⟨?_, ?_, ?_⟩, hidx, trivial, trivial, hd, trivial⟩
        · rw [Nat.mod_eq_of_lt hwrap, c1]
          push_cast
          ring
        · rw [c2]
          ring
        · rw [c3]

/-- The gaps of a waiting-time step that returns keep the carried relations, when the data index
at the end of the window is within the range of `unsigned long long`; the prior, the data and
the current time are left, and the data index ends at `i2` if the loop is entered with the
number of passes it needs. -/
theorem waiting_gaps_carried (E : Lib α) (lower_tail two_sided : Bool) (i2 : Nat)
    (hi2 : i2 < ULL) (n : Nat) :
    ∀ (s s' : WaitLoop α), scan_carried s.m →
      waiting_gaps E lower_tail two_sided i2 n s = .ok s' →
      scan_carried s'.m ∧
      (s.m.m_current_data_index + n = i2 → s'.m.m_current_data_index = i2) ∧
      s'.m.m_alpha = s.m.m_alpha ∧ s'.m.m_beta = s.m.m_beta ∧
      s'.m.m_data_cont = s.m.m_data_cont ∧ s'.m.m_current_t = s.m.m_current_t := by
  induction n with
  | zero =>
    intro s s' hc h
    rw [waiting_gaps] at h
    cases h
    exact ⟨hc, fun hn => by omega, rfl, rfl, rfl, rfl⟩
  | succ n ih =>
    intro s s' hc h
    rw [waiting_gaps] at h
    by_cases hgt : i2 > s.m.m_current_data_index
    · rw [if_pos hgt] at h
      cases hg : waiting_gap E lower_tail two_sided s with
      | error e =>
        rw [hg] at h
        cases h
      | ok s1 =>
        rw [hg] at h
        dsimp only at h
        have hwrap : s.m.m_r + 1 < ULL := by
          rw [← hc.2.2]
          omega
        obtain ⟨g1, g2, g3, g4, g5, g6⟩ :=
          waiting_gap_carried E lower_tail two_sided s s1 hc hwrap hg
        obtain ⟨r1, r2, r3, r4, r5, r6⟩ := ih s1 s' g1 h
        exact ⟨r1, fun hn => r2 (by rw [g2]; omega), r3.trans g3, r4.trans g4, r5.trans g5,
          r6.trans g6⟩
    · rw [if_neg hgt] at h
      cases h
      exact ⟨hc, fun hn => by omega, rfl, rfl, rfl, rfl⟩

/-- The residual gap of a waiting-time step keeps the carried relations and leaves the running
count, the data index, the prior, the data and the current time. -/
theorem waiting_residual_carried (E : Lib α) (increment : α) (lower_tail two_sided : Bool)
    (s : WaitLoop α) (hc : scan_carried s.m) :
    scan_carried (waiting_residual E increment lower_tail two_sided s).m ∧
    (waiting_residual E increment lower_tail two_sided s).m.m_current_data_index
      = s.m.m_current_data_index ∧
    (waiting_residual E increment lower_tail two_sided s).m.m_alpha = s.m.m_alpha ∧
    (waiting_residual E increment lower_tail two_sided s).m.m_beta = s.m.m_beta ∧
    (waiting_residual E increment lower_tail two_sided s).m.m_data_cont = s.m.m_data_cont ∧
    (waiting_residual E increment lower_tail two_sided s).m.m_current_t = s.m.m_current_t := by
  have p := fun (X : pp_model α) (t : α) =>
    calculate_log_posterior_predictive_pdf_same_scan E X t 0
  have w := waiting_lower_tail_same_scan E lower_tail two_sided
  obtain ⟨c1, c2, c3⟩ := hc
  unfold waiting_residual
  dsimp only
  by_cases ht : waiting_residual_t s.m s.current_t increment > 0
  · rw [if_pos ht]
    dsimp only [scan_carried]
    simp only [fun X => (w X).1, fun X => (w X).2.1, fun X => (w X).2.2.1,
      fun X => (w X).2.2.2.1, fun X => (w X).2.2.2.2.1, fun X => (w X).2.2.2.2.2.1,
      fun X => (w X).2.2.2.2.2.2.1, fun X => (w X).2.2.2.2.2.2.2.1,
      fun X => (w X).2.2.2.2.2.2.2.2.1,
      fun X t => (p X t).1, fun X t => (p X t).2.1, fun X t => (p X t).2.2.1,
      fun X t => (p X t).2.2.2.1, fun X t => (p X t).2.2.2.2.1,
      fun X t => (p X t).2.2.2.2.2.1, fun X t => (p X t).2.2.2.2.2.2.1,
      fun X t => (p X t).2.2.2.2.2.2.2.1, fun X t => (p X t).2.2.2.2.2.2.2.2.1]
    refine ⟨⟨c1, ?_, c3⟩, trivial, trivial, trivial, trivial, trivial⟩
    rw [c2]
    ring
  · rw [if_neg ht]
    exact ⟨⟨c1, c2, c3⟩, rfl, rfl, rfl, rfl, rfl⟩

/-- The combination of the gaps leaves the carried members. -/
theorem waiting_combine_carried (E : Lib α) (two_sided : Bool) (s : WaitLoop α)
    (hc : scan_carried s.m) :
    scan_carried (waiting_combine E two_sided s).2 ∧
    (waiting_combine E two_sided s).2.m_current_data_index = s.m.m_current_data_index ∧
    (waiting_combine E two_sided s).2.m_alpha = s.m.m_alpha ∧
    (waiting_combine E two_sided s).2.m_beta = s.m.m_beta ∧
    (waiting_combine E two_sided s).2.m_data_cont = s.m.m_data_cont ∧
    (waiting_combine E two_sided s).2.m_current_t = s.m.m_current_t := by
  unfold waiting_combine
  dsimp only
  split_ifs <;> exact ⟨hc, rfl, rfl, rfl, rfl, rfl⟩

/-- A waiting-time step that returns keeps the carried relations, when the data index at the end
of the window is within the range of `unsigned long long`; it leaves the prior, the data and the
current time, and the running count ends at that data index if it was not beyond it. -/
theorem waiting_step_carried (E : Lib α) (m : pp_model α) (increment : α)
    (lower_tail two_sided increment_parameters : Bool) (v : α) (s : pp_model α)
    (hc : scan_carried m) (hi2 : waiting_i2 E m increment < ULL)
    (h : calculate_waiting_times_log_predictive_df E m increment lower_tail two_sided
      increment_parameters = .ok (v, s)) :
    scan_carried s ∧
    (m.m_current_data_index ≤ waiting_i2 E m increment → s.m_r = waiting_i2 E m increment) ∧
    s.m_alpha = m.m_alpha ∧ s.m_beta = m.m_beta ∧ s.m_data_cont = m.m_data_cont ∧
    s.m_current_t = m.m_current_t := by
  unfold calculate_waiting_times_log_predictive_df at h
  dsimp only at h
  cases hg : waiting_gaps E lower_tail two_sided (waiting_i2 E m increment)
      (waiting_i2 E m increment - m.m_current_data_index)
      { sum_log_pvals := 0, how_many := 0, current_t := m.m_current_t, m := m } with
  | error e =>
    rw [hg] at h
    cases h
  | ok s1 =>
    rw [hg] at h
    dsimp only at h
    obtain ⟨g1, g2, g3, g4, g5, g6⟩ := waiting_gaps_carried E lower_tail two_sided _ hi2 _ _ s1
      hc hg
    obtain ⟨r1, r2, r3, r4, r5, r6⟩ :=
      waiting_residual_carried E increment lower_tail two_sided s1 g1
    obtain ⟨k1, k2, k3, k4, k5, k6⟩ := waiting_combine_carried E two_sided
      (waiting_residual E increment lower_tail two_sided s1) r1
    have hs : s = (waiting_combine E two_sided
        (waiting_residual E increment lower_tail two_sided s1)).2 := by
      cases h
      rfl
    rw [hs]
    refine ⟨k1, ?_, k3.trans (r3.trans g3), k4.trans (r4.trans g4), k5.trans (r5.trans g5),
      k6.trans (r6.trans g6)⟩
    intro hle
    rw [← k1.2.2, k2, r2]
    exact g2 (by
      show m.m_current_data_index + (waiting_i2 E m increment - m.m_current_data_index) = _
      omega)

/-- One step of a scan forward (`increment >= 0`) on data whose `find_data_index` counts the
event times `<= t`: if the object carries the relations and its running count is the number of
events up to the current time, so does the object with which the scan goes on, in either
mode. -/
theorem scan_step_carried (E : Lib α) (data : List α) (hlen : data.length < ULL)
    (hfind : ∀ t lo hi,
      E.find_data_index data t 0 lo hi = (data.filter (fun x => x ≤ t)).length)
    (m : pp_model α) (increment : α) (hinc : 0 ≤ increment)
    (lower_tail two_sided increment_parameters : Bool) (df_fuel : Nat) (v : α)
    (s : pp_model α) (hc : scan_carried m) (hdata : m.m_data_cont = some data)
    (hr : m.m_r = (data.filter (fun x => x ≤ m.m_current_t)).length)
    (h : calculate_log_predictive_df_bounds E m increment lower_tail two_sided
      increment_parameters df_fuel = some (.ok (v, s))) :
    scan_carried s ∧ s.m_data_cont = some data ∧
    s.m_r = (data.filter (fun x => x ≤ s.m_current_t + increment)).length := by
  have hmono := count_up_to_mono data (le_add_of_nonneg_right hinc : m.m_current_t ≤ _)
  have hle : (data.filter (fun x => x ≤ m.m_current_t + increment)).length < ULL :=
    lt_of_le_of_lt (List.length_filter_le _ _) hlen
  unfold calculate_log_predictive_df_bounds at h
  by_cases hstyle : m.m_p_value_alternative_style = false
  · rw [if_pos hstyle] at h
    obtain ⟨res, hres, hok⟩ := Option.map_eq_some'.mp h
    have hres' : res = (v, s) := Except.ok.inj hok
    rw [hres'] at hres
    have hcount : event_count_r E m increment
        = (data.filter (fun x => x ≤ m.m_current_t + increment)).length
          - (data.filter (fun x => x ≤ m.m_current_t)).length := by
      unfold event_count_r
      rw [hdata]
      dsimp only
      rw [hfind, hr, usub_of_le hmono hle]
    have hwrap : m.m_r + event_count_r E m increment < ULL := by
      rw [hcount, hr, Nat.add_sub_cancel' hmono]
      exact hle
    obtain ⟨-, s2, -, -, -, -, s7, s8, -, -, -, -, -⟩ :=
      event_count_step_spec E m increment lower_tail two_sided increment_parameters df_fuel
        v s hres
    refine ⟨event_count_step_carried E m increment lower_tail two_sided increment_parameters
      df_fuel v s hc hwrap hres, by rw [s8, hdata], ?_⟩
    rw [s2, Nat.mod_eq_of_lt hwrap, hcount, hr, Nat.add_sub_cancel' hmono, s7]
  · rw [if_neg hstyle] at h
    have hres : calculate_waiting_times_log_predictive_df E m increment lower_tail two_sided
        increment_parameters = .ok (v, s) := Option.some.inj h
    have hi2 : waiting_i2 E m increment
        = (data.filter (fun x => x ≤ m.m_current_t + increment)).length := by
      unfold waiting_i2
      rw [hdata]
      dsimp only
      rw [hfind]
    obtain ⟨k1, k2, -, -, k5, k6⟩ := waiting_step_carried E m increment lower_tail two_sided
      increment_parameters v s hc (by rw [hi2]; exact hle) hres
    refine ⟨k1, by rw [k5, hdata], ?_⟩
    rw [k2 (by rw [hc.2.2, hr, hi2]; exact hmono), hi2, k6]

/-- A scan forward on data whose `find_data_index` counts the event times `<= t` keeps the
carried relations from step to step. -/
theorem sequential_loop_carried (E : Lib α) (data : List α) (hlen : data.length < ULL)
    (hfind : ∀ t lo hi,
      E.find_data_index data t 0 lo hi = (data.filter (fun x => x ≤ t)).length)
    (end_time increment : α) (hinc : 0 ≤ increment)
    (lower_tail two_sided increment_parameters : Bool) (df_fuel fuel : Nat) :
    ∀ (log log' : ScanLog α) (m s : pp_model α), scan_carried m →
      m.m_data_cont = some data →
      m.m_r = (data.filter (fun x => x ≤ m.m_current_t)).length →
      sequential_loop E end_time increment lower_tail two_sided increment_parameters df_fuel
        fuel log m = some (.ok (log', s)) →
      scan_carried s := by
  induction fuel with
  | zero =>
    intro log log' m s hc hdata hr h
    rw [sequential_loop] at h
    by_cases hlt : m.m_current_t < end_time
    · rw [if_pos hlt] at h
      cases h
    · rw [if_neg hlt] at h
      cases h
      exact hc
  | succ fuel ih =>
    intro log log' m s hc hdata hr h
    rw [sequential_loop] at h
    by_cases hlt : m.m_current_t < end_time
    · rw [if_pos hlt] at h
      cases hb : calculate_log_predictive_df_bounds E m increment lower_tail two_sided
          increment_parameters df_fuel with
      | none =>
        rw [hb] at h
        cases h
      | some res =>
        cases res with
        | error e =>
          rw [hb] at h
          cases h
        | ok vs =>
          obtain ⟨v, s1⟩ := vs
          rw [hb] at h
          dsimp only at h
          obtain ⟨k1, k2, k3⟩ := scan_step_carried E data hlen hfind m increment hinc
            lower_tail two_sided increment_parameters df_fuel v s1 hc hdata hr hb
          exact ih _ log' { s1 with m_current_t := s1.m_current_t + increment } s k1 k2 k3 h
    · rw [if_neg hlt] at h
      cases h
      exact hc

/-- C24: `set_parameters_to_current_t` establishes the relations
`alpha_star = alpha + running count`, `beta_star = beta + running effective duration` and
`current data index = running count`; every event-count step and every waiting-time step that
returns keeps them, the running count staying within the range of `unsigned long long`; hence
whenever a scan forward returns, on data whose `find_data_index` counts the event times `<= t`,
the object it leaves carries them. -/
theorem scan_relations_carried (E : Lib α) (m : pp_model α) (increment : α)
    (lower_tail two_sided increment_parameters : Bool) :
    scan_carried (set_parameters_to_current_t E m) ∧
    (scan_carried m → m.m_r + event_count_r E m increment < ULL →
      ∀ fuel v s, calculate_event_count_log_predictive_df E m increment lower_tail two_sided
          increment_parameters fuel = some (v, s) → scan_carried s) ∧
    (scan_carried m → waiting_i2 E m increment < ULL →
      ∀ v s, calculate_waiting_times_log_predictive_df E m increment lower_tail two_sided
          increment_parameters = .ok (v, s) → scan_carried s) ∧
    (∀ data, m.m_data_cont = some data → data.length < ULL →
      (∀ t lo hi, E.find_data_index data t 0 lo hi = (data.filter (fun x => x ≤ t)).length) →
      0 ≤ increment →
      ∀ start end_time df_fuel fuel log s,
        calculate_sequential_log_predictive_dfs E m start end_time increment lower_tail
          two_sided increment_parameters df_fuel fuel = some (.ok (log, s)) →
        scan_carried s) := by
  refine ⟨set_parameters_to_current_t_carried E m, ?_, ?_, ?_⟩
  · intro hc hwrap fuel v s h
    exact event_count_step_carried E m increment lower_tail two_sided increment_parameters
      fuel v s hc hwrap h
  · intro hc hi2 v s h
    exact (waiting_step_carried E m increment lower_tail two_sided increment_parameters v s hc
      hi2 h).1
  · intro data hdata hlen hfind hinc start end_time df_fuel fuel log s h
    unfold calculate_sequential_log_predictive_dfs at h
    have h5 : (set_parameters_to_current_t_at E m start).m_r
        = (data.filter
            (fun x => x ≤ (set_parameters_to_current_t_at E m start).m_current_t)).length := by
      simp only [set_parameters_to_current_t_at, set_parameters_to_current_t, hdata]
      exact hfind start 0 none
    exact sequential_loop_carried E data hlen hfind end_time increment hinc lower_tail
      two_sided increment_parameters df_fuel fuel _ log
      (set_parameters_to_current_t_at E m start) s
      (set_parameters_to_current_t_carried E { m with m_current_t := start }) hdata h5 h

/-- C24 on the scan of the event times `{0.5, 2.3, 2.7, 4.9}` from `0` to `5` with increment
`1`, prior `alpha = beta = 1`: the scan returns and the object it leaves carries the
relations. -/
theorem scan_relations_carried_witness :
    ∃ df_fuel log s,
      calculate_sequential_log_predictive_dfs
          (Lib.ofFns Real.log Real.exp (Real.log ∘ Real.Gamma))
          { (pp_model.blank : pp_model ℝ) with
            m_alpha := 1, m_beta := 1,
            m_data_cont := some [1 / 2, 23 / 10, 27 / 10, 49 / 10] }
          0 5 1 false true true df_fuel 5 = some (.ok (log, s)) ∧
      scan_carried s := by
  obtain ⟨f0, h⟩ := sequential_scan_steps
    (Lib.ofFns Real.log Real.exp (Real.log ∘ Real.Gamma)) ⟨rfl, rfl, rfl⟩
    [1 / 2, 23 / 10, 27 / 10, 49 / 10] (by norm_num [ULL]) (fun _ _ _ => rfl)
    { (pp_model.blank : pp_model ℝ) with
      m_alpha := 1, m_beta := 1,
      m_data_cont := some [1 / 2, 23 / 10, 27 / 10, 49 / 10] }
    0 5 1 false true true 5 rfl rfl rfl (by norm_num) (by norm_num) (by norm_num)
    (by
      intro j hj
      have : (j : ℝ) ≤ 4 := by exact_mod_cast Nat.lt_succ_iff.mp hj
      linarith)
    (by norm_num)
  obtain ⟨log, s, hrun, -, -⟩ := h f0 5 le_rfl le_rfl
  exact ⟨f0, log, s, hrun,
    (scan_relations_carried (Lib.ofFns Real.log Real.exp (Real.log ∘ Real.Gamma))
      { (pp_model.blank : pp_model ℝ) with
        m_alpha := 1, m_beta := 1,
        m_data_cont := some [1 / 2, 23 / 10, 27 / 10, 49 / 10] }
      1 false true true).2.2.2 [1 / 2, 23 / 10, 27 / 10, 49 / 10] rfl (by norm_num [ULL])
      (fun _ _ _ => rfl) (by norm_num) 0 5 f0 5 log s hrun⟩

/-! ### The round-off guard of line 302 -/

/-- The guard of line 302 taken on `m_predictive_two_sided_df2 >= 1`: the loop is stopped and
the two members are `m_minimum_tail + e_log_pdf_const` and `m_minimum_tail`. -/
theorem df_two_sided_guard (e : α) (r : Nat) (s : DfLoop α)
    (h : s.m.m_predictive_two_sided_df2 ≥ 1) :
    (df_two_sided e r s).keep_looping = false ∧
    (df_two_sided e r s).m.m_predictive_two_sided_df = s.m.m_minimum_tail + e ∧
    (df_two_sided e r s).m.m_predictive_two_sided_df2 = s.m.m_minimum_tail := by
  unfold df_two_sided
  rw [if_pos (Or.inr h)]
  exact ⟨rfl, rfl, rfl⟩

/-- Lines 335-342 after the loop was stopped in the same pass: the test is skipped and no
complement is taken. -/
theorem df_continue_stopped (r : Nat) (s : DfLoop α) (h : s.keep_looping = false) :
    (df_continue r s).keep_looping = false ∧ (df_continue r s).m = s.m := by
  unfold df_continue
  simp [h]

/-- A pass of the loop that finds `m_predictive_two_sided_df2 >= 1` takes the guard of line 302:
it stops the loop and leaves `m_minimum_tail + e_log_pdf_const` and `m_minimum_tail`, without
the complement of lines 339-340 and without a clamp. -/
theorem df_loop_body_guard (E : Lib α) (q ltb e : α) (r : Nat) (lower_tail : Bool)
    (s : DfLoop α) (h : s.m.m_predictive_two_sided_df2 ≥ 1) :
    (df_loop_body E q ltb e r lower_tail s).keep_looping = false ∧
    (df_loop_body E q ltb e r lower_tail s).m.m_predictive_two_sided_df
      = s.m.m_minimum_tail + e ∧
    (df_loop_body E q ltb e r lower_tail s).m.m_predictive_two_sided_df2
      = s.m.m_minimum_tail := by
  obtain ⟨-, -, -, a_m, -, -, -⟩ := df_advance_spec E q ltb e s
  obtain ⟨-, -, -, -, -, -, -, b_mt, -, -, b_D2, -⟩ :=
    df_midpoint_spec E (df_advance E q ltb e s)
  rw [a_m] at b_mt b_D2
  obtain ⟨c_k, c_D, c_D2⟩ := df_two_sided_guard e r (df_midpoint E (df_advance E q ltb e s))
    (by rw [b_D2]; exact h)
  rw [b_mt] at c_D c_D2
  obtain ⟨-, d_k, -, -, -, -, -, -, -, d_D, d_D2, -⟩ := df_one_sided_spec E r lower_tail
    (df_two_sided e r (df_midpoint E (df_advance E q ltb e s)))
  obtain ⟨e_k, e_m⟩ := df_continue_stopped r (df_one_sided E r lower_tail
    (df_two_sided e r (df_midpoint E (df_advance E q ltb e s)))) (by rw [d_k]; exact c_k)
  unfold df_loop_body
  refine ⟨e_k, ?_, ?_⟩
  · rw [e_m, d_D, c_D]
  · rw [e_m, d_D2, c_D2]

/-- The two-sided flow of lines 398-399 at the count `0`, for a library in which the increment
`t` is absorbed by `m_beta_star` (`log (m_beta_star + t) = log m_beta_star`, as when the sum
rounds to `m_beta_star`) and `exp 0 = 1`: `m_log_pdf_const` is `0` and `e_log_pdf_const` is `1`,
the mass function stages `m_minimum_tail = 1`, the first pass of the loop adds
`pmf * e_log_pdf_const = 1` to `m_predictive_two_sided_df2`, and the second pass takes the guard
of line 302. The loop ends after two passes and leaves `m_predictive_two_sided_df2 = 1` and
`m_predictive_two_sided_df = 2`. -/
theorem df_absorbed_increment (E : Lib α) (m : pp_model α) (t : α) (lower_tail : Bool)
    (ht : 0 < t) (hlog : E.log (m.m_beta_star + t) = E.log m.m_beta_star)
    (hexp : E.exp 0 = 1) :
    ∃ res, calculate_log_posterior_predictive_df E
        (calculate_log_posterior_predictive_pdf E m t 0).2 t 0 lower_tail 2 = some res ∧
      res.2.m_predictive_two_sided_df2 = 1 ∧ res.2.m_predictive_two_sided_df = 2 := by
  have hlc : m.m_alpha_star * (E.log m.m_beta_star - E.log (m.m_beta_star + t)) = 0 := by
    rw [hlog, sub_self, mul_zero]
  have hpdf : calculate_log_posterior_predictive_pdf E m t 0
      = (m.m_alpha_star * (E.log m.m_beta_star - E.log (m.m_beta_star + t)),
        { m with
          m_log_pdf_const :=
            m.m_alpha_star * (E.log m.m_beta_star - E.log (m.m_beta_star + t)),
          m_log_predictive_pdf :=
            m.m_alpha_star * (E.log m.m_beta_star - E.log (m.m_beta_star + t)),
          m_minimum_tail :=
            E.exp (m.m_alpha_star * (E.log m.m_beta_star - E.log (m.m_beta_star + t))) * 1 }) := by
    unfold calculate_log_posterior_predictive_pdf
    rw [if_neg (not_le.mpr ht)]
    rfl
  have p_a : (calculate_log_posterior_predictive_pdf E m t 0).2.m_alpha_star
      = m.m_alpha_star := by rw [hpdf]
  have p_b : (calculate_log_posterior_predictive_pdf E m t 0).2.m_beta_star
      = m.m_beta_star := by rw [hpdf]
  have p_mt : (calculate_log_posterior_predictive_pdf E m t 0).2.m_minimum_tail = 1 := by
    rw [hpdf]
    show E.exp (m.m_alpha_star * (E.log m.m_beta_star - E.log (m.m_beta_star + t))) * 1 = 1
    rw [hlc, hexp, mul_one]
  generalize (calculate_log_posterior_predictive_pdf E m t 0).2 = m1 at p_a p_b p_mt ⊢
  have hlc1 : (df_init E m1 t).m.m_log_pdf_const = 0 := by
    show m1.m_alpha_star * (E.log m1.m_beta_star - E.log (m1.m_beta_star + t)) = 0
    rw [p_a, p_b]
    exact hlc
  unfold calculate_log_posterior_predictive_df
  rw [if_neg (not_le.mpr ht)]
  dsimp only
  rw [hlc1, hexp]
  generalize m1.m_beta_star = b1
  generalize E.log t - E.log (b1 + t) = ltb
  generalize t / (b1 + t) = q
  have hadv : df_advance E q ltb 1 (df_init E m1 t) = df_init E m1 t := rfl
  obtain ⟨-, -, -, -, -, -, -, B_mt, B_pd, B_go, -⟩ :=
    df_loop_body_spec E q ltb 1 0 lower_tail (df_init E m1 t) rfl
      (by rw [hadv]; exact (one_pos : (0 : α) < 1)) (one_pos : (0 : α) < 1)
  have hi0 : (df_init E m1 t).i = 0 := rfl
  rw [if_pos hi0] at B_pd
  obtain ⟨hk1, -, hD2⟩ := B_go (Or.inr (Or.inr (ge_of_eq B_pd.symm)))
  rw [if_pos (Or.inl hi0), hadv] at hD2
  have hD2v : (df_loop_body E q ltb 1 0 lower_tail (df_init E m1 t)).m.m_predictive_two_sided_df2
      = 1 := by
    rw [hD2]
    show (0 : α) + 1 * 1 = 1
    norm_num
  have hmt1 : (df_loop_body E q ltb 1 0 lower_tail (df_init E m1 t)).m.m_minimum_tail = 1 := by
    rw [B_mt]
    exact p_mt
  obtain ⟨hk2, hD, hD2'⟩ := df_loop_body_guard E q ltb 1 0 lower_tail
    (df_loop_body E q ltb 1 0 lower_tail (df_init E m1 t)) (ge_of_eq hD2v)
  rw [hmt1] at hD hD2'
  rw [df_loop_step E q ltb 1 0 lower_tail _ rfl, df_loop_step E q ltb 1 0 lower_tail _ hk1,
    df_loop_stopped E q ltb 1 0 lower_tail _ hk2]
  refine ⟨_, rfl, ?_, ?_⟩
  · exact hD2'
  · show (df_loop_body E q ltb 1 0 lower_tail
      (df_loop_body E q ltb 1 0 lower_tail (df_init E m1 t))).m.m_predictive_two_sided_df = 2
    rw [hD]
    norm_num

/-- C10 fails under round-off, the case the guard of line 302 is written for. The object has
`alpha_star = 1` and `beta_star = 1`, the window is `t = 1e-17` and the count is `0`; the
library is the real one except that `log` first rounds an argument of `[1 - 2^-54, 1 + 2^-53]`
to `1`, as binary64 rounds the sum `m_beta_star + t` (the sums of the embedding are exact). The
two-sided flow of lines 398-399, `calculate_log_posterior_predictive_pdf(t, 0)` and then
`calculate_log_posterior_predictive_df(t, 0, lower_tail)`, returns after two passes of the loop,
for either tail flag, and leaves `m_predictive_two_sided_df2 = 1` and
`m_predictive_two_sided_df = 2`: the pair is not within `[0, 1]`. -/
theorem two_sided_pair_out_of_range :
    ∀ lower_tail : Bool, ∃ res,
      calculate_log_posterior_predictive_df
        (Lib.ofFns
          (fun x : ℝ => Real.log (if 1 - 1 / 2 ^ 54 ≤ x ∧ x ≤ 1 + 1 / 2 ^ 53 then 1 else x))
          Real.exp (Real.log ∘ Real.Gamma))
        (calculate_log_posterior_predictive_pdf
          (Lib.ofFns
            (fun x : ℝ => Real.log (if 1 - 1 / 2 ^ 54 ≤ x ∧ x ≤ 1 + 1 / 2 ^ 53 then 1 else x))
            Real.exp (Real.log ∘ Real.Gamma))
          { (pp_model.blank : pp_model ℝ) with m_alpha_star := 1, m_beta_star := 1 }
          (1 / 10 ^ 17) 0).2
        (1 / 10 ^ 17) 0 lower_tail 2 = some res ∧
      res.2.m_predictive_two_sided_df2 = 1 ∧
      res.2.m_predictive_two_sided_df = 2 ∧
      ¬ (0 ≤ res.2.m_predictive_two_sided_df2 ∧
        res.2.m_predictive_two_sided_df2 ≤ res.2.m_predictive_two_sided_df ∧
        res.2.m_predictive_two_sided_df ≤ 1) := by
  intro lower_tail
  have hlog : Real.log (if 1 - 1 / 2 ^ 54 ≤ (1 : ℝ) + 1 / 10 ^ 17 ∧
        (1 : ℝ) + 1 / 10 ^ 17 ≤ 1 + 1 / 2 ^ 53 then 1 else (1 : ℝ) + 1 / 10 ^ 17)
      = Real.log (if 1 - 1 / 2 ^ 54 ≤ (1 : ℝ) ∧ (1 : ℝ) ≤ 1 + 1 / 2 ^ 53 then 1 else (1 : ℝ)) := by
    rw [if_pos ⟨by norm_num, by norm_num⟩, if_pos ⟨by norm_num, by norm_num⟩]
  obtain ⟨res, hres, h2, h1⟩ := df_absorbed_increment
    (Lib.ofFns
      (fun x : ℝ => Real.log (if 1 - 1 / 2 ^ 54 ≤ x ∧ x ≤ 1 + 1 / 2 ^ 53 then 1 else x))
      Real.exp (Real.log ∘ Real.Gamma))
    { (pp_model.blank : pp_model ℝ) with m_alpha_star := 1, m_beta_star := 1 }
    (1 / 10 ^ 17) lower_tail (by norm_num) hlog Real.exp_zero
  refine ⟨res, hres, h2, h1, ?_⟩
  rintro ⟨-, -, h⟩
  rw [h1] at h
  norm_num at h

end Theorems

end PoissonProcess
